import Mathlib

/-!
# Chatty: the streaming chat request pipeline of `OpenRouterAPI`

A shallow embedding of `src/OpenRouterAPI.cpp` (with the types of `src/Message.h`
and `src/OpenRouterAPI.h`) and of `ChatWidget::sendMessage` of `src/ChatWidget.cpp`,
and theorems about them.

Conventions of the embedding:

* A `QString` is the list of its characters, a `QByteArray` the list of its bytes.
* The member variables of the `OpenRouterAPI` object are the fields of a structure; a
  member function is a function from the object (and what it reads from its
  environment: the signal's sender, the steady clock) to the new object and the list
  of effects it performed, in program order.  Emitting a Qt signal, calling into the
  network stack and writing a log line are effects.
* The functions in the namespaces `QChar`, `QString`, `QJsonValue`, `QJsonObject` and
  `QJsonDocument` model the Qt library calls the source makes; the Qt sources are not
  part of the repository.
* A signal is delivered to the connected slots when it is emitted; the slots that
  `ChatWidget` connects to `streamReceived`, `streamCompleted` and `streamError` do not
  call back into the object, so a member function runs to its end undisturbed.
* An `int` is an integer; `m_tokenCount++` is the increment of a 32-bit `int`, which
  wraps around from 2147483647 to -2147483648 in the compiled program (the C++ standard
  leaves this overflow undefined).
* A `double` is the rational number it holds.  The quotient that `updateTokenStats`
  stores is rounded to the nearest binary64 number (ties to even), as the division of
  two `double`s is; infinities and NaN do not occur there.  The price that `parseModel`
  reads with `toDouble` is kept as the decimal number of the text; no theorem depends
  on its value.
-/

namespace Chatty

/-! ## Qt text and bytes -/

/-- A `QString`, as the list of its characters. -/
abbrev QString := List Char

/-- A `QByteArray`, as the list of its bytes. -/
abbrev QByteArray := List UInt8

/-- The model of `QChar::isSpace`: the control characters U+0009 to U+000D, U+0085,
U+00A0 and the characters of the Unicode separator categories Zs, Zl and Zp. -/
def QChar.isSpace (c : Char) : Bool :=
  let n := c.toNat
  (9 ≤ n && n ≤ 13) || n == 0x20 || n == 0x85 || n == 0xA0 || n == 0x1680 ||
  (0x2000 ≤ n && n ≤ 0x200A) || n == 0x2028 || n == 0x2029 || n == 0x202F ||
  n == 0x205F || n == 0x3000

/-- The model of `QString::split(sep)` with the default `Qt::KeepEmptyParts`: the
fragments between the separators, the empty ones included; the empty string gives
one empty fragment. -/
def QString.split (sep : Char) : QString → List QString
  | [] => [[]]
  | c :: cs =>
    if c = sep then [] :: QString.split sep cs
    else (c :: (QString.split sep cs).headD []) :: (QString.split sep cs).tail

/-- The model of `QString::trimmed`: whitespace removed from the start and the end. -/
def QString.trimmed (s : QString) : QString :=
  ((s.dropWhile QChar.isSpace).reverse.dropWhile QChar.isSpace).reverse

/-- The model of `QString::startsWith`. -/
def QString.startsWith (s pre : QString) : Bool :=
  pre.isPrefixOf s

/-- The model of `QString::mid(pos)`: the string from position `pos` on. -/
def QString.mid (s : QString) (pos : Nat) : QString :=
  s.drop pos

/-- The replacement character U+FFFD, which the decoder writes for a byte it cannot
decode. -/
def QChar.ReplacementCharacter : Char := Char.ofNat 0xFFFD

/-- Whether `b` is a UTF-8 continuation byte, `10xxxxxx`. -/
def isContinuationByte (b : UInt8) : Bool :=
  0x80 ≤ b.toNat && b.toNat ≤ 0xBF

/-- Whether the sequence with code point `uc` decodes: it is not overlong (below
`minUc`), not a surrogate and not above U+10FFFF. -/
def utf8Accepts (uc minUc : Nat) : Bool :=
  !(decide (uc < minUc) || (decide (0xD800 ≤ uc) && decide (uc ≤ 0xDFFF)) ||
    decide (0x10FFFF < uc))

/-- A lead byte with payload bits `lead` that needs `n` continuation bytes: when the
next `n` bytes are there, are continuation bytes and encode a code point the decoder
accepts, the character and `n`; otherwise U+FFFD and no further byte consumed. -/
def utf8Sequence (lead n minUc : Nat) (rest : QByteArray) : Char × Nat :=
  let conts := rest.take n
  let uc := conts.foldl (fun acc b => acc * 0x40 + b.toNat % 0x40) lead
  if conts.length = n ∧ conts.all isContinuationByte ∧ utf8Accepts uc minUc then
    (Char.ofNat uc, n)
  else (QChar.ReplacementCharacter, 0)

/-- One step of the decoder at byte `b0` followed by `rest`: the character written and
the number of bytes of `rest` consumed with it.  A byte below 0x80 is itself; a lead
byte 0xC2..0xDF, 0xE0..0xEF, 0xF0..0xF4 starts a sequence of two, three, four bytes;
any other byte (a stray continuation byte, an invalid lead byte) is U+FFFD. -/
def utf8Step (b0 : UInt8) (rest : QByteArray) : Char × Nat :=
  if b0.toNat < 0x80 then (Char.ofNat b0.toNat, 0)
  else if 0xC2 ≤ b0.toNat ∧ b0.toNat ≤ 0xDF then utf8Sequence (b0.toNat % 0x20) 1 0x80 rest
  else if 0xE0 ≤ b0.toNat ∧ b0.toNat ≤ 0xEF then utf8Sequence (b0.toNat % 0x10) 2 0x800 rest
  else if 0xF0 ≤ b0.toNat ∧ b0.toNat ≤ 0xF4 then
    utf8Sequence (b0.toNat % 0x08) 3 0x10000 rest
  else (QChar.ReplacementCharacter, 0)

/-- The decoding loop of `QString::fromUtf8`, for at most `fuel` characters: a byte that
cannot be decoded becomes one U+FFFD and decoding goes on at the next byte. -/
def QString.decodeUtf8Loop : Nat → QByteArray → QString
  | 0, _ => []
  | _ + 1, [] => []
  | fuel + 1, b0 :: rest =>
    (utf8Step b0 rest).1 :: QString.decodeUtf8Loop fuel (rest.drop (utf8Step b0 rest).2)

/-- The decoding of a byte array; every step consumes a byte, so the loop ends within
as many steps as there are bytes.  The decoder keeps no state between two calls. -/
def QString.decodeUtf8 (bytes : QByteArray) : QString :=
  QString.decodeUtf8Loop bytes.length bytes

/-- The model of `QString::fromUtf8(bytes)`: a byte order mark at the very start of
the array is skipped, the rest is decoded by `QString.decodeUtf8`. -/
def QString.fromUtf8 (bytes : QByteArray) : QString :=
  match bytes with
  | 0xEF :: 0xBB :: 0xBF :: rest => QString.decodeUtf8 rest
  | _ => QString.decodeUtf8 bytes

/-- The model of `QString::toUtf8`: the UTF-8 encoding of the characters. -/
def QString.toUtf8 (s : QString) : QByteArray :=
  (s.map String.utf8EncodeChar).flatten

/-! ## Qt JSON -/

/-- A `QJsonValue`.  A number is kept as the decimal `mantissa * 10 ^ exp10` that was
written; `undefined` is what reading a missing key gives. -/
inductive QJsonValue where
  | null
  | bool (b : Bool)
  | number (mantissa : Int) (exp10 : Int)
  | string (s : QString)
  | array (items : List QJsonValue)
  | object (members : List (QString × QJsonValue))
  | undefined

/-- A `QJsonArray`. -/
abbrev QJsonArray := List QJsonValue

/-- A `QJsonObject`, as the list of its members. -/
abbrev QJsonObject := List (QString × QJsonValue)

/-- The model of `QJsonObject::contains`. -/
def QJsonObject.contains (o : QJsonObject) (key : QString) : Bool :=
  o.any (fun m => m.1 == key)

/-- The model of reading `obj[key]`: the member's value, or `undefined`. -/
def QJsonObject.value (o : QJsonObject) (key : QString) : QJsonValue :=
  match o.find? (fun m => m.1 == key) with
  | some m => m.2
  | none => .undefined

/-- The model of writing `obj[key] = v`: the member is replaced or added. -/
def QJsonObject.insert (o : QJsonObject) (key : QString) (v : QJsonValue) : QJsonObject :=
  o.filter (fun m => !(m.1 == key)) ++ [(key, v)]

/-- The model of `QJsonValue::toArray`: the empty array for a value that is no array. -/
def QJsonValue.toArray : QJsonValue → QJsonArray
  | .array items => items
  | _ => []

/-- The model of `QJsonValue::toObject`: the empty object for a value that is no
object. -/
def QJsonValue.toObject : QJsonValue → QJsonObject
  | .object members => members
  | _ => []

/-- The model of `QJsonValue::toString`: the empty string for a value that is no
string. -/
def QJsonValue.toQString : QJsonValue → QString
  | .string s => s
  | _ => []

/-- The model of `QJsonValue::toInt`: the number when it is integral and fits a 32-bit
`int`, and 0 otherwise. -/
def QJsonValue.toInt : QJsonValue → Int
  | .number m e =>
    if 0 ≤ e then
      (if -2147483648 ≤ m * 10 ^ e.toNat ∧ m * 10 ^ e.toNat ≤ 2147483647 then
        m * 10 ^ e.toNat else 0)
    else if m % 10 ^ (-e).toNat = 0 ∧ -2147483648 ≤ m / 10 ^ (-e).toNat ∧
        m / 10 ^ (-e).toNat ≤ 2147483647 then m / 10 ^ (-e).toNat
    else 0
  | _ => 0

/-- The model of `array[i]`: the element, or `undefined` past the end. -/
def QJsonArray.at (a : QJsonArray) (i : Nat) : QJsonValue :=
  a.getD i .undefined

/-- The model of `QJsonDocument::object`: the empty object when the document is an
array. -/
def QJsonDocument.object (doc : QJsonValue) : QJsonObject :=
  doc.toObject

namespace JsonParser

/-- JSON whitespace: space, tab, line feed, carriage return. -/
def isWs (c : Char) : Bool :=
  c == ' ' || c == '\t' || c == '\n' || c == '\r'

/-- The input after its leading whitespace. -/
def skipWs (cs : List Char) : List Char :=
  cs.dropWhile isWs

/-- The value of a hexadecimal digit. -/
def hexVal (c : Char) : Option Nat :=
  if '0' ≤ c ∧ c ≤ '9' then some (c.toNat - '0'.toNat)
  else if 'a' ≤ c ∧ c ≤ 'f' then some (c.toNat - 'a'.toNat + 10)
  else if 'A' ≤ c ∧ c ≤ 'F' then some (c.toNat - 'A'.toNat + 10)
  else none

/-- The UTF-16 code units of a string body up to its closing quote, and the input
after the quote.  A character outside an escape is kept as its code point. -/
def stringUnits : List Char → Option (List Nat × List Char)
  | [] => none
  | '"' :: rest => some ([], rest)
  | '\\' :: 'u' :: h1 :: h2 :: h3 :: h4 :: rest =>
    match hexVal h1, hexVal h2, hexVal h3, hexVal h4, stringUnits rest with
    | some a, some b, some c, some d, some (us, r) =>
      some ((a * 4096 + b * 256 + c * 16 + d) :: us, r)
    | _, _, _, _, _ => none
  | '\\' :: e :: rest =>
    let unit : Option Nat :=
      if e = '"' then some 0x22 else if e = '\\' then some 0x5C
      else if e = '/' then some 0x2F else if e = 'b' then some 0x08
      else if e = 'f' then some 0x0C else if e = 'n' then some 0x0A
      else if e = 'r' then some 0x0D else if e = 't' then some 0x09 else none
    match unit, stringUnits rest with
    | some u, some (us, r) => some (u :: us, r)
    | _, _ => none
  | c :: rest =>
    match stringUnits rest with
    | some (us, r) => some (c.toNat :: us, r)
    | none => none

/-- The characters of a list of UTF-16 code units: a high surrogate followed by a low
one is one character, a surrogate on its own is U+FFFD. -/
def unitsToChars : List Nat → QString
  | [] => []
  | [u] =>
    if 0xD800 ≤ u ∧ u ≤ 0xDFFF then [QChar.ReplacementCharacter] else [Char.ofNat u]
  | hi :: lo :: rest =>
    if 0xD800 ≤ hi ∧ hi ≤ 0xDBFF ∧ 0xDC00 ≤ lo ∧ lo ≤ 0xDFFF then
      Char.ofNat (0x10000 + (hi - 0xD800) * 0x400 + (lo - 0xDC00)) :: unitsToChars rest
    else if 0xD800 ≤ hi ∧ hi ≤ 0xDFFF then
      QChar.ReplacementCharacter :: unitsToChars (lo :: rest)
    else Char.ofNat hi :: unitsToChars (lo :: rest)

/-- A string after its opening quote. -/
def parseString (cs : List Char) : Option (QString × List Char) :=
  match stringUnits cs with
  | some (us, r) => some (unitsToChars us, r)
  | none => none

/-- The value of a run of decimal digits read after `acc`. -/
def digitsValue (acc : Nat) (ds : List Char) : Nat :=
  ds.foldl (fun n d => n * 10 + (d.toNat - '0'.toNat)) acc

/-- A number: an optional minus sign, an integer part without a leading zero, an
optional fraction and an optional exponent. -/
def parseNumber (cs : List Char) : Option (QJsonValue × List Char) :=
  let (neg, cs1) := match cs with
    | '-' :: r => (true, r)
    | r => (false, r)
  let intDigits := cs1.takeWhile Char.isDigit
  let cs2 := cs1.dropWhile Char.isDigit
  if intDigits = [] ∨ (intDigits.head? = some '0' ∧ intDigits.length ≠ 1) then none
  else
    let (fracDigits, cs3, fracOk) := match cs2 with
      | '.' :: r => (r.takeWhile Char.isDigit, r.dropWhile Char.isDigit,
          !(r.takeWhile Char.isDigit).isEmpty)
      | r => ([], r, true)
    let (expo, cs4, expOk) : Int × List Char × Bool :=
      if cs3.head? = some 'e' ∨ cs3.head? = some 'E' then
        let (eneg, r) := match cs3.tail with
          | '-' :: r => (true, r)
          | '+' :: r => (false, r)
          | r => (false, r)
        let ed := r.takeWhile Char.isDigit
        ((if eneg then -(digitsValue 0 ed : Int) else (digitsValue 0 ed : Int)),
          r.dropWhile Char.isDigit, !ed.isEmpty)
      else (0, cs3, true)
    if fracOk ∧ expOk then
      let m : Int := digitsValue (digitsValue 0 intDigits) fracDigits
      some (.number (if neg then -m else m) (expo - fracDigits.length), cs4)
    else none

mutual
/-- One JSON value, with the input after it. -/
def parseValue : Nat → List Char → Option (QJsonValue × List Char)
  | 0, _ => none
  | fuel + 1, cs =>
    match skipWs cs with
    | '{' :: rest =>
      (match skipWs rest with
      | '}' :: r => some (.object [], r)
      | r =>
        match parseMembers fuel r with
        | some (ms, r2) => some (.object ms, r2)
        | none => none)
    | '[' :: rest =>
      (match skipWs rest with
      | ']' :: r => some (.array [], r)
      | r =>
        match parseElements fuel r with
        | some (vs, r2) => some (.array vs, r2)
        | none => none)
    | '"' :: rest =>
      (match parseString rest with
      | some (s, r) => some (.string s, r)
      | none => none)
    | 't' :: 'r' :: 'u' :: 'e' :: r => some (.bool true, r)
    | 'f' :: 'a' :: 'l' :: 's' :: 'e' :: r => some (.bool false, r)
    | 'n' :: 'u' :: 'l' :: 'l' :: r => some (.null, r)
    | r => parseNumber r
/-- The elements of an array after its opening bracket, up to the closing one. -/
def parseElements : Nat → List Char → Option (List QJsonValue × List Char)
  | 0, _ => none
  | fuel + 1, cs =>
    match parseValue fuel cs with
    | none => none
    | some (v, r) =>
      match skipWs r with
      | ',' :: r2 =>
        (match parseElements fuel r2 with
        | some (vs, r3) => some (v :: vs, r3)
        | none => none)
      | ']' :: r2 => some ([v], r2)
      | _ => none
/-- The members of an object after its opening brace, up to the closing one; a key
that is written twice keeps its last value. -/
def parseMembers : Nat → List Char → Option (QJsonObject × List Char)
  | 0, _ => none
  | fuel + 1, cs =>
    match skipWs cs with
    | '"' :: r =>
      (match parseString r with
      | none => none
      | some (key, r2) =>
        match skipWs r2 with
        | ':' :: r3 =>
          (match parseValue fuel r3 with
          | none => none
          | some (v, r4) =>
            match skipWs r4 with
            | ',' :: r5 =>
              (match parseMembers fuel r5 with
              | some (ms, r6) =>
                some (if QJsonObject.contains ms key then ms else (key, v) :: ms, r6)
              | none => none)
            | '}' :: r5 => some ([(key, v)], r5)
            | _ => none)
        | _ => none)
    | _ => none
end

end JsonParser

/-- The model of `QJsonDocument::fromJson(data.toUtf8(), &error)`: the document, or
`none` when `error.error` is not `NoError`.  A document is one object or one array,
with nothing but whitespace around it.  Every call of the parser consumes a character
before it calls itself, so the fuel, twice the length of the text, is not used up. -/
def QJsonDocument.fromJson (data : QString) : Option QJsonValue :=
  match JsonParser.parseValue (2 * data.length + 2) data with
  | some (.object ms, rest) => if JsonParser.skipWs rest = [] then some (.object ms) else none
  | some (.array vs, rest) => if JsonParser.skipWs rest = [] then some (.array vs) else none
  | _ => none

/-- The string with every occurrence of the place marker `%marker` replaced by `a`. -/
def QString.replaceMarker (marker : Char) (a : QString) : QString → QString
  | [] => []
  | [c] => [c]
  | c :: d :: rest =>
    if c = '%' ∧ d = marker then a ++ QString.replaceMarker marker a rest
    else c :: QString.replaceMarker marker a (d :: rest)

/-- Whether the place marker `%marker` occurs in the string. -/
def QString.hasMarker (marker : Char) : QString → Bool
  | [] => false
  | [_] => false
  | c :: d :: rest => (c == '%' && d == marker) || QString.hasMarker marker (d :: rest)

/-- The model of `QString::arg(a)` on the patterns of this program, whose place markers
are `%1` and `%2`: every occurrence of the lowest-numbered marker that occurs is
replaced by `a`.  Markers of two digits and the `L` flag are not modelled. -/
def QString.arg (pattern a : QString) : QString :=
  if QString.hasMarker '1' pattern then QString.replaceMarker '1' a pattern
  else if QString.hasMarker '2' pattern then QString.replaceMarker '2' a pattern
  else pattern

/-- The model of `QString::toDouble` for decimal numbers in the notation of JSON, with
blanks around them; every other text gives 0, which is what `toDouble` returns for a
text it cannot convert. -/
def QString.toDouble (s : QString) : ℚ :=
  match JsonParser.parseNumber (QString.trimmed s) with
  | some (.number m e, []) =>
    if 0 ≤ e then (m : ℚ) * (10 : ℚ) ^ e.toNat else (m : ℚ) / (10 : ℚ) ^ (-e).toNat
  | _ => 0

/-- The model of `QJsonArray::contains` for a string: whether an element of the array
is the string `text`. -/
def QJsonArray.containsString (a : QJsonArray) (text : QString) : Bool :=
  a.any (fun v => match v with
    | .string t => t == text
    | _ => false)

/-- The model of `QJsonDocument::fromJson(bytes, &error)`: a byte order mark at the
start is skipped, bytes that are not UTF-8 are a parse error, the text is parsed by
`QJsonDocument.fromJson`. -/
def QJsonDocument.fromJsonBytes (json : QByteArray) : Option QJsonValue :=
  let body := match json with
    | 0xEF :: 0xBB :: 0xBF :: rest => rest
    | _ => json
  if QString.toUtf8 (QString.decodeUtf8 body) = body then
    QJsonDocument.fromJson (QString.decodeUtf8 body)
  else none

/-- The base64 alphabet of `QByteArray::toBase64`. -/
def base64Char (n : Nat) : Char :=
  "ABCDEFGHIJKLMNOPQRSTUVWXYZabcdefghijklmnopqrstuvwxyz0123456789+/".toList.getD n '='

/-- The model of `QByteArray::toBase64`, read as a Latin-1 string: three bytes give
four characters, the last group is padded with `=`. -/
def QByteArray.toBase64 : QByteArray → QString
  | [] => []
  | [a] =>
    [base64Char (a.toNat / 4), base64Char (a.toNat % 4 * 16), '=', '=']
  | [a, b] =>
    [base64Char (a.toNat / 4), base64Char (a.toNat % 4 * 16 + b.toNat / 16),
      base64Char (b.toNat % 16 * 4), '=']
  | a :: b :: c :: rest =>
    base64Char (a.toNat / 4) :: base64Char (a.toNat % 4 * 16 + b.toNat / 16) ::
      base64Char (b.toNat % 16 * 4 + c.toNat / 64) :: base64Char (c.toNat % 64) ::
      QByteArray.toBase64 rest

/-! ## `Message.h` -/

/-- The enumeration `MessageRole`. -/
inductive MessageRole where
  | User
  | Assistant
  | System
  deriving DecidableEq, Repr

/-- The enumeration `MessageStatus`. -/
inductive MessageStatus where
  | Sending
  | Streaming
  | Complete
  | Error
  deriving DecidableEq, Repr

/-- The structure `Attachment`. -/
structure Attachment where
  filename : QString
  filepath : QString
  mimeType : QString
  data : QByteArray
  isImage : Bool
  deriving DecidableEq

/-- The structure `Message`; the times are milliseconds, a `QDateTime` that was never
set is `none`, the UI state is left out. -/
structure Message where
  id : QString
  content : QString
  role : MessageRole
  status : MessageStatus
  timestamp : Int
  attachments : List Attachment
  totalTokens : Int
  tokensPerSecond : ℚ
  streamStartTime : Option Int
  streamEndTime : Option Int
  deriving DecidableEq

/-- The model of `QString::number`: the decimal digits of an integer. -/
def QString.number (n : Int) : QString :=
  (toString n).toList

/-- The constructor `Message(text, r)` at the wall-clock reading `now`, in
milliseconds; `generateId` names the message after the clock. -/
def Message.create (text : QString) (r : MessageRole) (now : Int) : Message where
  id := QString.arg "msg_%1".toList (QString.number now)
  content := text
  role := r
  status := .Complete
  timestamp := now
  attachments := []
  totalTokens := 0
  tokensPerSecond := 0
  streamStartTime := none
  streamEndTime := none

/-- `Message::addAttachment`. -/
def Message.addAttachment (attachment : Attachment) (msg : Message) : Message :=
  { msg with attachments := msg.attachments ++ [attachment] }

/-- `Message::startStreaming` at the wall-clock reading `now`. -/
def Message.startStreaming (now : Int) (msg : Message) : Message :=
  { msg with
    status := .Streaming
    streamStartTime := some now
    totalTokens := 0
    tokensPerSecond := 0 }

/-! ## `OpenRouterAPI.h` -/

/-- The structure `ModelInfo`. -/
structure ModelInfo where
  id : QString
  name : QString
  description : QString
  provider : QString
  costPerToken : ℚ
  maxTokens : Int
  supportsImages : Bool
  supportsFiles : Bool
  deriving DecidableEq

/-- The values of `QNetworkReply::NetworkError` the program tells apart; `Other` is any
further error code. -/
inductive NetworkError where
  | NoError
  | OperationCanceledError
  | Other (code : Nat)
  deriving DecidableEq

/-- A `QNetworkReply` as a slot sees it through `sender()`: which reply object it is,
its `error()`, its `errorString()`, and the bytes `readAll()` returns. -/
structure QNetworkReply where
  id : Nat
  error : NetworkError
  errorString : QString
  readAll : QByteArray
  deriving DecidableEq

/-- A `QNetworkRequest`: the URL and the raw headers. -/
structure QNetworkRequest where
  url : QString
  rawHeaders : List (QString × QString)
  deriving DecidableEq

/-- The signals of `OpenRouterAPI`. -/
inductive Signal where
  | modelsRefreshed (success : Bool)
  | streamReceived (content : QString)
  | streamCompleted (success : Bool)
  | streamError (error : QString)
  | connectionStatusChanged (connected : Bool)
  deriving DecidableEq

/-- What a member function does besides changing the object: it emits a signal, posts
a request, aborts or releases a reply, or writes a warning or a debug line to the
log. -/
inductive Effect where
  | emit (sig : Signal)
  | post (request : QNetworkRequest) (body : QJsonValue)
  | abort (reply : Nat)
  | deleteLater (reply : Nat)
  | qWarning (msg : QString)
  | qDebug (msg : QString)

/-- The signals among the effects, in order: what the consumer is notified of. -/
def signals : List Effect → List Signal
  | [] => []
  | .emit sig :: rest => sig :: signals rest
  | _ :: rest => signals rest

/-- The texts of the `streamReceived` signals among the effects, in order: the deltas
the consumer receives. -/
def deltas : List Effect → List QString
  | [] => []
  | .emit (.streamReceived content) :: rest => content :: deltas rest
  | _ :: rest => deltas rest

/-- The requests among the effects, in order: what is handed to the network stack by
`post`. -/
def requests : List Effect → List QNetworkRequest
  | [] => []
  | .post request _ :: rest => request :: requests rest
  | _ :: rest => requests rest

/-- The number of calls into the network stack among the effects: `post` and
`abort`. -/
def transportCalls : List Effect → Nat
  | [] => 0
  | .post _ _ :: rest => transportCalls rest + 1
  | .abort _ :: rest => transportCalls rest + 1
  | _ :: rest => transportCalls rest

/-- The member variables of an `OpenRouterAPI` object.  `m_currentReply` is the
identity of the reply object pointed to, `none` for `nullptr`; `m_streamStartTime` is a
reading of the steady clock in nanoseconds. -/
structure OpenRouterAPI where
  m_apiKey : QString
  m_modelId : QString
  m_baseURL : QString
  m_models : List ModelInfo
  m_requestActive : Bool
  m_shouldStop : Bool
  m_tokensPerSecond : ℚ
  m_totalTokensUsed : Int
  m_estimatedCost : ℚ
  m_currentReply : Option Nat
  m_streamBuffer : QString
  m_streamStartTime : Int
  m_tokenCount : Int
  deriving DecidableEq

/-- The member initialisers of `OpenRouterAPI.h`, before the constructor body fills
`m_models`. -/
def OpenRouterAPI.initial : OpenRouterAPI where
  m_apiKey := []
  m_modelId := "openai/gpt-3.5-turbo".toList
  m_baseURL := "https://openrouter.ai/api/v1".toList
  m_models := []
  m_requestActive := false
  m_shouldStop := false
  m_tokensPerSecond := 0
  m_totalTokensUsed := 0
  m_estimatedCost := 0
  m_currentReply := none
  m_streamBuffer := []
  m_streamStartTime := 0
  m_tokenCount := 0

/-- The accessor `isRequestActive`. -/
def OpenRouterAPI.isRequestActive (s : OpenRouterAPI) : Bool :=
  s.m_requestActive

/-! ## `OpenRouterAPI.cpp` -/

/-- The value of a 32-bit `int` after an arithmetic result `n` is stored in it: `n`
itself inside the range from -2147483648 to 2147483647, wrapped around modulo 2^32
outside. -/
def Int32.wrap (n : Int) : Int :=
  (n + 2147483648) % 4294967296 - 2147483648

/-- The loop of `Double.log2`: halve until 1 is reached. -/
def Double.log2Loop : Nat → Nat → Nat
  | 0, _ => 0
  | fuel + 1, n => if n < 2 then 0 else Double.log2Loop fuel (n / 2) + 1

/-- The position of the leading binary digit of `n`: the largest `l` with `2 ^ l ≤ n`
(0 for `n = 0`). -/
def Double.log2 (n : Nat) : Nat :=
  Double.log2Loop n n

/-- The exponent of the unit in the last place of the binary64 number nearest to the
quotient `a / b` of two positive numbers: with `2 ^ e ≤ a / b < 2 ^ (e + 1)` it is
`e - 52` (53 significant binary digits), and not less than -1074 (the subnormal
numbers). -/
def Double.exponent (a b : Nat) : Int :=
  max (if b * 2 ^ Double.log2 a ≤ a * 2 ^ Double.log2 b
      then (Double.log2 a : Int) - (Double.log2 b : Int) - 52
      else (Double.log2 a : Int) - (Double.log2 b : Int) - 53)
    (-1074)

/-- The quotient `n / d` rounded to the nearest natural number, a tie to the even
one. -/
def Double.roundHalfEven (n d : Nat) : Nat :=
  if 2 * (n % d) < d then n / d
  else if d < 2 * (n % d) then n / d + 1
  else if (n / d) % 2 = 0 then n / d
  else n / d + 1

/-- The significand of the binary64 number nearest to `a / b`, as a natural number:
`a / b` divided by the unit in the last place and rounded. -/
def Double.mantissa (a b : Nat) : Nat :=
  Double.roundHalfEven (a * 2 ^ (-(Double.exponent a b)).toNat)
    (b * 2 ^ (Double.exponent a b).toNat)

/-- The `double` division `x / y` of two `double`s that hold the positive whole numbers
`a` and `b`: the binary64 number nearest to `a / b`, a tie to the even significand
(the default rounding mode).  Quotients of 2^1024 and more, which a `double` rounds to
infinity, are not modelled; they do not occur in this program. -/
def Double.div (a b : Nat) : ℚ :=
  (Double.mantissa a b : ℚ) * 2 ^ Double.exponent a b

/-- The `double` that a natural number is converted to, and the `double` product of two
`double`s whose exact product is that number: the number itself up to 2^53, and the
nearest binary64 number above (finite below 2^1024). -/
def Double.ofNat (n : Nat) : Nat :=
  if n ≤ 9007199254740992 then n
  else Double.mantissa n 1 * 2 ^ (Double.exponent n 1).toNat

/-- `std::chrono::duration_cast<std::chrono::milliseconds>` of a difference of two
steady-clock readings in nanoseconds: the count of whole milliseconds, rounded
towards zero. -/
def durationMs (now start : Int) : Int :=
  (now - start).tdiv 1000000

/-- `OpenRouterAPI::updateTokenStats`, with the clock reading `now`.  In
`(m_tokenCount * 1000.0) / duration.count()` the `int` and the 64-bit count are
converted to `double`, the product and the quotient are `double` operations. -/
def updateTokenStats (now : Int) (s : OpenRouterAPI) : OpenRouterAPI :=
  if durationMs now s.m_streamStartTime > 0 ∧ s.m_tokenCount > 0 then
    { s with m_tokensPerSecond :=
        (Double.div (Double.ofNat (s.m_tokenCount.toNat * 1000))
          (Double.ofNat (durationMs now s.m_streamStartTime).toNat)) }
  else s

/-- `OpenRouterAPI::setAPIKey`. -/
def setAPIKey (apiKey : QString) (s : OpenRouterAPI) : OpenRouterAPI × List Effect :=
  ({ s with m_apiKey := apiKey }, [.emit (.connectionStatusChanged (!apiKey.isEmpty))])

/-- `OpenRouterAPI::setModel`. -/
def setModel (modelId : QString) (s : OpenRouterAPI) : OpenRouterAPI × List Effect :=
  ({ s with m_modelId := modelId }, [])

/-- `OpenRouterAPI::setBaseURL`. -/
def setBaseURL (url : QString) (s : OpenRouterAPI) : OpenRouterAPI × List Effect :=
  ({ s with m_baseURL := url }, [])

/-- `OpenRouterAPI::createRequest`. -/
def createRequest (s : OpenRouterAPI) (endpoint : QString) : QNetworkRequest where
  url := endpoint
  rawHeaders :=
    [("Authorization".toList, QString.arg "Bearer %1".toList s.m_apiKey),
     ("User-Agent".toList, "Chatty/1.0.0".toList),
     ("Accept".toList, "application/json".toList)]

/-- The wire name of a role, the `switch` of `prepareRequestPayload`. -/
def roleString : MessageRole → QString
  | .User => "user".toList
  | .Assistant => "assistant".toList
  | .System => "system".toList

/-- The inner loop of `prepareRequestPayload`: one `image_url` part for every
attachment that is an image and has data. -/
def imageParts : List Attachment → QJsonArray
  | [] => []
  | attachment :: rest =>
    if attachment.isImage ∧ ¬ attachment.data.isEmpty then
      let imageContent := QJsonObject.insert [] "type".toList (.string "image_url".toList)
      let base64Data := QString.arg (QString.arg "data:%1;base64,%2".toList
        attachment.mimeType) (QByteArray.toBase64 attachment.data)
      let imageUrl := QJsonObject.insert [] "url".toList (.string base64Data)
      QJsonValue.object (QJsonObject.insert imageContent "image_url".toList (.object imageUrl))
        :: imageParts rest
    else imageParts rest

/-- The body of the outer loop of `prepareRequestPayload`: the entry of one message. -/
def messageObject (msg : Message) : QJsonValue :=
  let messageObj := QJsonObject.insert [] "role".toList (.string (roleString msg.role))
  if msg.attachments.isEmpty then
    .object (QJsonObject.insert messageObj "content".toList (.string msg.content))
  else
    let textPart : QJsonArray :=
      if ¬ msg.content.isEmpty then
        let textContent := QJsonObject.insert [] "type".toList (.string "text".toList)
        [.object (QJsonObject.insert textContent "text".toList (.string msg.content))]
      else []
    .object (QJsonObject.insert messageObj "content".toList
      (.array (textPart ++ imageParts msg.attachments)))

/-- `OpenRouterAPI::prepareRequestPayload`. -/
def prepareRequestPayload (s : OpenRouterAPI) (conversation : List Message) : QJsonValue :=
  let payload := QJsonObject.insert [] "model".toList (.string s.m_modelId)
  let payload := QJsonObject.insert payload "stream".toList (.bool true)
  let payload := QJsonObject.insert payload "temperature".toList (.number 7 (-1))
  let payload := QJsonObject.insert payload "max_tokens".toList (.number 2048 0)
  .object (QJsonObject.insert payload "messages".toList
    (.array (conversation.map messageObject)))

/-- `OpenRouterAPI::sendMessage`; `now` is the clock reading, `newReply` the reply
object that `post` returns. -/
def sendMessage (conversation : List Message) (now : Int) (newReply : Nat)
    (s : OpenRouterAPI) : OpenRouterAPI × List Effect :=
  if s.m_apiKey.isEmpty then
    (s, [.emit (.streamError "API key not configured".toList)])
  else if s.m_requestActive then
    (s, [.qWarning "Request already in progress".toList])
  else
    let request := createRequest s (s.m_baseURL ++ "/chat/completions".toList)
    let request := { request with rawHeaders :=
      request.rawHeaders ++ [("Content-Type".toList, "application/json".toList)] }
    ({ s with
        m_requestActive := true
        m_shouldStop := false
        m_streamStartTime := now
        m_tokenCount := 0
        m_currentReply := some newReply },
      [.post request (prepareRequestPayload s conversation)])

/-- `OpenRouterAPI::stopCurrentRequest`. -/
def stopCurrentRequest (s : OpenRouterAPI) : OpenRouterAPI × List Effect :=
  match s.m_currentReply with
  | some reply => ({ s with m_shouldStop := true }, [.abort reply])
  | none => ({ s with m_shouldStop := true }, [])

/-- The block `if (obj.contains("choices")) { ... }` of `processStreamChunk`: the
content of `choices[0].delta`, when it is there and not empty, is emitted and
counted. -/
def processChoices (now : Int) (obj : QJsonObject) (s : OpenRouterAPI) :
    OpenRouterAPI × List Effect :=
  if QJsonObject.contains obj "choices".toList then
    let choices := (QJsonObject.value obj "choices".toList).toArray
    if ¬ choices.isEmpty then
      let choice := (QJsonArray.at choices 0).toObject
      let delta := (QJsonObject.value choice "delta".toList).toObject
      if QJsonObject.contains delta "content".toList then
        let content := (QJsonObject.value delta "content".toList).toQString
        if ¬ content.isEmpty then
          (updateTokenStats now { s with m_tokenCount := Int32.wrap (s.m_tokenCount + 1) },
            [.emit (.streamReceived content)])
        else (s, [])
      else (s, [])
    else (s, [])
  else (s, [])

/-- The block `if (obj.contains("usage")) { ... }` of `processStreamChunk`. -/
def processUsage (obj : QJsonObject) (s : OpenRouterAPI) : OpenRouterAPI :=
  if QJsonObject.contains obj "usage".toList then
    let usage := (QJsonObject.value obj "usage".toList).toObject
    if QJsonObject.contains usage "total_tokens".toList then
      { s with m_totalTokensUsed := (QJsonObject.value usage "total_tokens".toList).toInt }
    else s
  else s

/-- `OpenRouterAPI::processStreamChunk`, with the clock reading `now`. -/
def processStreamChunk (now : Int) (chunk : QString) (s : OpenRouterAPI) :
    OpenRouterAPI × List Effect :=
  if QString.startsWith chunk "data: ".toList then
    let data := QString.mid chunk 6
    if data = "[DONE]".toList then (s, [])
    else
      match QJsonDocument.fromJson data with
      | none => (s, [.qWarning "Failed to parse stream chunk:".toList])
      | some doc =>
        let obj := QJsonDocument.object doc
        ((processUsage obj (processChoices now obj s).1), (processChoices now obj s).2)
  else (s, [])

/-- The `for` loop of `onChatReplyReadyRead` over the complete lines. -/
def processLines (now : Int) : List QString → OpenRouterAPI → OpenRouterAPI × List Effect
  | [], s => (s, [])
  | line :: rest, s =>
    let r := if ¬ line.isEmpty then processStreamChunk now (QString.trimmed line) s
      else (s, [])
    ((processLines now rest r.1).1, r.2 ++ (processLines now rest r.1).2)

/-- `OpenRouterAPI::onChatReplyReadyRead`; `sender` is `none` when `sender()` is no
reply. -/
def onChatReplyReadyRead (sender : Option QNetworkReply) (now : Int) (s : OpenRouterAPI) :
    OpenRouterAPI × List Effect :=
  match sender with
  | none => (s, [])
  | some reply =>
    if s.m_shouldStop then (s, [])
    else
      let newData := reply.readAll
      let buffer := s.m_streamBuffer ++ QString.fromUtf8 newData
      let lines := QString.split '\n' buffer
      processLines now lines.dropLast { s with m_streamBuffer := lines.getLastD [] }

/-- `OpenRouterAPI::onChatReplyFinished`. -/
def onChatReplyFinished (sender : Option QNetworkReply) (now : Int) (s : OpenRouterAPI) :
    OpenRouterAPI × List Effect :=
  match sender with
  | none => (s, [])
  | some reply =>
    let success : Bool := reply.error = .NoError ∧ ¬ s.m_shouldStop
    let failure : List Effect :=
      if ¬ success ∧ reply.error ≠ .OperationCanceledError then
        [.emit (.streamError (QString.arg "Request failed: %1".toList reply.errorString))]
      else []
    ({ updateTokenStats now { s with m_requestActive := false } with m_currentReply := none },
      failure ++ [.emit (.streamCompleted success), .deleteLater reply.id])

/-- `OpenRouterAPI::onNetworkError`. -/
def onNetworkError (sender : Option QNetworkReply) (s : OpenRouterAPI) :
    OpenRouterAPI × List Effect :=
  match sender with
  | none => (s, [])
  | some reply =>
    let errorMsg := QString.arg "Network error: %1".toList reply.errorString
    if some reply.id = s.m_currentReply then
      ({ s with m_requestActive := false }, [.qWarning errorMsg, .emit (.streamError errorMsg)])
    else (s, [.qWarning errorMsg])

/-- The constructor `ModelInfo(modelId, modelName)`. -/
def ModelInfo.create (modelId modelName : QString) : ModelInfo where
  id := modelId
  name := modelName
  description := []
  provider := []
  costPerToken := 0
  maxTokens := 4096
  supportsImages := false
  supportsFiles := false

/-- The body of the loop of `parseModelsResponse`: the descriptor of one element of
`data`. -/
def parseModel (value : QJsonValue) : ModelInfo :=
  let modelObj := value.toObject
  let model := ModelInfo.create (QJsonObject.value modelObj "id".toList).toQString
    (QJsonObject.value modelObj "name".toList).toQString
  let model := { model with
    description := (QJsonObject.value modelObj "description".toList).toQString
    provider := (QJsonObject.value modelObj "owned_by".toList).toQString }
  let model :=
    if QJsonObject.contains modelObj "context_length".toList then
      { model with maxTokens := (QJsonObject.value modelObj "context_length".toList).toInt }
    else model
  let model :=
    if QJsonObject.contains modelObj "pricing".toList then
      let pricing := (QJsonObject.value modelObj "pricing".toList).toObject
      if QJsonObject.contains pricing "prompt".toList then
        { model with costPerToken :=
            QString.toDouble (QJsonObject.value pricing "prompt".toList).toQString }
      else model
    else model
  { model with
    supportsImages := QJsonArray.containsString
      (QJsonObject.value modelObj "modalities".toList).toArray "vision".toList
    supportsFiles := true }

/-- `OpenRouterAPI::parseModelsResponse`: the return value, the object and the log
lines. -/
def parseModelsResponse (response : QByteArray) (s : OpenRouterAPI) :
    Bool × OpenRouterAPI × List Effect :=
  match QJsonDocument.fromJsonBytes response with
  | none => (false, s, [.qWarning "Failed to parse models response:".toList])
  | some doc =>
    let obj := QJsonDocument.object doc
    if ¬ QJsonObject.contains obj "data".toList then
      (false, s, [.qWarning "Models response missing \x27data\x27 field".toList])
    else
      let data := (QJsonObject.value obj "data".toList).toArray
      let models := data.map parseModel
      (true, { s with m_models := models },
        [.qDebug ("Loaded ".toList ++ QString.number models.length ++ " models".toList)])

/-- `OpenRouterAPI::onModelsReplyFinished`. -/
def onModelsReplyFinished (sender : Option QNetworkReply) (s : OpenRouterAPI) :
    OpenRouterAPI × List Effect :=
  match sender with
  | none => (s, [])
  | some reply =>
    if reply.error = .NoError then
      let data := reply.readAll
      ((parseModelsResponse data s).2.1,
        (parseModelsResponse data s).2.2 ++
          [.emit (.modelsRefreshed (parseModelsResponse data s).1), .deleteLater reply.id])
    else
      (s, [.qWarning "Models request failed:".toList, .emit (.modelsRefreshed false),
        .deleteLater reply.id])

/-- The first lines of `onChatReplyReadyRead` after the guard, on the text of the new
bytes: the text is appended to the buffer, the buffer is split at the newlines, the
last fragment is taken off as the new buffer; the result is the complete lines and the
retained buffer. -/
def extractLines (buffer text : QString) : List QString × QString :=
  ((QString.split '\n' (buffer ++ text)).dropLast,
    (QString.split '\n' (buffer ++ text)).getLastD [])

/-! ## `ChatWidget.cpp` -/

/-- The members of a `ChatWidget` that `sendMessage` reads or writes.  `m_inputText` is
the text of `m_inputTextEdit`; `m_streamingMessage` is whether the pointer is set, it
only ever points to `m_currentMessage`; `m_hasApi` is whether `m_api` is not null. -/
structure ChatWidget where
  m_messages : List Message
  m_pendingAttachments : List Attachment
  m_inputText : QString
  m_currentMessage : Message
  m_streamingMessage : Bool
  m_isStreaming : Bool
  m_hasApi : Bool
  deriving DecidableEq

/-- `ChatWidget::addMessage`, what it does to the members: the message is appended
to `m_messages`. -/
def ChatWidget.addMessage (message : Message) (w : ChatWidget) : ChatWidget :=
  { w with m_messages := w.m_messages ++ [message] }

/-- `ChatWidget::sendMessage`; `nowUser` and `nowAssistant` are the wall-clock readings
when the user message and the assistant message are made.  The result is the widget
afterwards and the conversation handed to `OpenRouterAPI::sendMessage`, `none` when
that call is not made. -/
def ChatWidget.sendMessage (nowUser nowAssistant : Int) (w : ChatWidget) :
    ChatWidget × Option (List Message) :=
  let text := QString.trimmed w.m_inputText
  if text.isEmpty ∧ w.m_pendingAttachments.isEmpty then (w, none)
  else
    let userMessage := w.m_pendingAttachments.foldl
      (fun msg attachment => Message.addAttachment attachment msg)
      (Message.create text .User nowUser)
    let w1 := ChatWidget.addMessage userMessage w
    let w2 := { w1 with m_inputText := [], m_pendingAttachments := [] }
    let current := Message.startStreaming nowAssistant
      (Message.create [] .Assistant nowAssistant)
    let w3 := { w2 with m_currentMessage := current, m_streamingMessage := true }
    let w4 := ChatWidget.addMessage current w3
    let w5 := { w4 with m_isStreaming := true }
    (w5, if w5.m_hasApi then some w5.m_messages else none)

/-! ## The object in its environment -/

/-- What can happen to an `OpenRouterAPI` object: a call of one of its public member
functions, or a signal of a reply that one of its slots is connected to. -/
inductive Event where
  | setAPIKey (apiKey : QString)
  | setModel (modelId : QString)
  | setBaseURL (url : QString)
  | sendMessage (conversation : List Message) (newReply : Nat)
  | stopCurrentRequest
  | readyRead (sender : Option QNetworkReply)
  | errorOccurred (sender : Option QNetworkReply)
  | finished (sender : Option QNetworkReply)
  | modelsFinished (sender : Option QNetworkReply)

/-- The reaction to one event at clock reading `now`. -/
def step (now : Int) : Event → OpenRouterAPI → OpenRouterAPI × List Effect
  | .setAPIKey apiKey, s => setAPIKey apiKey s
  | .setModel modelId, s => setModel modelId s
  | .setBaseURL url, s => setBaseURL url s
  | .sendMessage conversation newReply, s => sendMessage conversation now newReply s
  | .stopCurrentRequest, s => stopCurrentRequest s
  | .readyRead sender, s => onChatReplyReadyRead sender now s
  | .errorOccurred sender, s => onNetworkError sender s
  | .finished sender, s => onChatReplyFinished sender now s
  | .modelsFinished sender, s => onModelsReplyFinished sender s

/-- The reaction to a sequence of events, each with its clock reading: the final
object and all effects in order. -/
def run : List (Int × Event) → OpenRouterAPI → OpenRouterAPI × List Effect
  | [], s => (s, [])
  | (now, ev) :: rest, s =>
    ((run rest (step now ev s).1).1, (step now ev s).2 ++ (run rest (step now ev s).1).2)

/-- The objects that exist: the constructed one, with any model list, and what the
events make of it. -/
inductive Reachable : OpenRouterAPI → Prop where
  | constructed (models : List ModelInfo) :
    Reachable { OpenRouterAPI.initial with m_models := models }
  | step (now : Int) (ev : Event) (s : OpenRouterAPI) :
    Reachable s → Reachable (step now ev s).1

/-- The text made of the lines, each followed by a newline, and then `rest`. -/
def joinLines (lines : List QString) (rest : QString) : QString :=
  lines.foldr (fun line acc => line ++ '\n' :: acc) rest

/-- The statistics of the object are in their ranges: the token counter holds a value
of a 32-bit `int`, and the tokens-per-second value is not negative. -/
def StatsInRange (s : OpenRouterAPI) : Prop :=
  (-2147483648 ≤ s.m_tokenCount ∧ s.m_tokenCount ≤ 2147483647) ∧ 0 ≤ s.m_tokensPerSecond

/-- The events that can fall between the `sendMessage` call that opens a session and
the `finished` signal that ends it: bytes arrive, the caller stops the request, the
transport reports an error. -/
def Event.isSessionBody : Event → Bool
  | .readyRead _ => true
  | .stopCurrentRequest => true
  | .errorOccurred _ => true
  | _ => false

/-- Whether the event is a call of `sendMessage`. -/
def Event.isSendMessage : Event → Bool
  | .sendMessage _ _ => true
  | _ => false

/-- The byte chunks of a reply arriving one by one, each announced by `readyRead` and
taken by `readAll`, at clock reading `now`. -/
def feedChunks (now : Int) (replyId : Nat) (chunks : List QByteArray) :
    List (Int × Event) :=
  chunks.map (fun chunk => (now, Event.readyRead (some ⟨replyId, .NoError, [], chunk⟩)))

/-- `choices[0].delta.content` of the parsed frame `doc` is the string `t`: the
document is an object whose member `choices` is an array with a first element, that
element is an object whose member `delta` is an object whose member `content` is the
string `t`. -/
def HasDeltaContent (doc : QJsonValue) (t : QString) : Prop :=
  ∃ members first others choice delta,
    doc = .object members ∧
    members.lookup "choices".toList = some (.array (first :: others)) ∧
    first = .object choice ∧
    choice.lookup "delta".toList = some (.object delta) ∧
    delta.lookup "content".toList = some (.string t)

/-- The text part of a content list in the words of the specification:
`{type: "text", text: content}`. -/
def specTextPart (content : QString) : QJsonValue :=
  .object [("type".toList, .string "text".toList), ("text".toList, .string content)]

/-- The image part of a content list in the words of the specification:
`{type: "image_url", image_url: {url: "data:" + mimeType + ";base64," + base64(data)}}`. -/
def specImagePart (attachment : Attachment) : QJsonValue :=
  .object [("type".toList, .string "image_url".toList),
    ("image_url".toList, .object [("url".toList,
      .string ("data:".toList ++ attachment.mimeType ++ ";base64,".toList ++
        QByteArray.toBase64 attachment.data))])]

/-- The content list of a message in the words of the specification, with the image
attachments restricted to those that hold data: a text part if and only if the text is
not empty, followed by one image part per image attachment with data, in attachment
order. -/
def specContentParts (msg : Message) : QJsonArray :=
  (if msg.content = [] then [] else [specTextPart msg.content]) ++
    (msg.attachments.filter (fun a => a.isImage && !a.data.isEmpty)).map specImagePart

/-- The `content` member of a message's entry in the payload. -/
def payloadContent (msg : Message) : QJsonValue :=
  QJsonObject.value (messageObject msg).toObject "content".toList

/-- An attachment with its file name, path, MIME type and bytes wiped when it is not an
image. -/
def wipeNonImage (attachment : Attachment) : Attachment :=
  if attachment.isImage then attachment else ⟨[], [], [], [], false⟩

/-- A message with the data of its non-image attachments wiped. -/
def wipeNonImages (msg : Message) : Message :=
  { msg with attachments := msg.attachments.map wipeNonImage }

/-- An attachment of the running example: a PNG image whose data are the eight bytes
of the PNG signature. -/
def examplePng : Attachment where
  filename := "shot.png".toList
  filepath := "/home/user/shot.png".toList
  mimeType := "image/png".toList
  data := [0x89, 0x50, 0x4E, 0x47, 0x0D, 0x0A, 0x1A, 0x0A]
  isImage := true

/-- An attachment of the running example: a text document. -/
def exampleNotes : Attachment where
  filename := "notes.txt".toList
  filepath := "/home/user/notes.txt".toList
  mimeType := "text/plain".toList
  data := [0x68, 0x69]
  isImage := false

/-- An attachment of the running example: flagged as image, but without data (the file
could not be read). -/
def exampleEmptyImage : Attachment where
  filename := "lost.png".toList
  filepath := "/home/user/lost.png".toList
  mimeType := "image/png".toList
  data := []
  isImage := true

/-- A message of the running example: a user message with the given text and
attachments. -/
def exampleMessage (text : QString) (attachments : List Attachment) : Message where
  id := "msg_1".toList
  content := text
  role := .User
  status := .Complete
  timestamp := 0
  attachments := attachments
  totalTokens := 0
  tokensPerSecond := 0
  streamStartTime := none
  streamEndTime := none

/-- An object of the running example: an API key is set, the request of reply 1 is in
flight, nothing is buffered. -/
def activeExample : OpenRouterAPI :=
  { OpenRouterAPI.initial with
    m_apiKey := "sk-test".toList
    m_requestActive := true
    m_currentReply := some 1 }

/-- The frame payload `{"choices":[{"delta":{"content":"Hello"}}]}` of the running
example. -/
def helloPayload : QString :=
  "\x7b\"choices\":[\x7b\"delta\":\x7b\"content\":\"Hello\"\x7d\x7d]\x7d".toList

/-- The document that `helloPayload` parses to. -/
def helloDocument : QJsonValue :=
  .object [("choices".toList, .array [.object [("delta".toList,
    .object [("content".toList, .string "Hello".toList)])]])]

/-- The reply of the running example when the line `data: ` ++ `helloPayload` and its
newline have arrived. -/
def helloReply : QNetworkReply :=
  ⟨1, .NoError, [], QString.toUtf8 ("data: ".toList ++ helloPayload ++ ['\n'])⟩

/-- The running example after the line of `helloReply` was read one second (the clock
counts nanoseconds) after the session started. -/
def helloCounted : OpenRouterAPI :=
  (onChatReplyReadyRead (some helloReply) 1000000000 activeExample).1

/-- The running example after a first session that ended in the middle of a line: the
chunk `data: {"choi` without a newline arrived, the transport finished, and
`sendMessage` was accepted for a second session with reply 2 at clock reading 2. -/
def secondSession : OpenRouterAPI :=
  (run [(0, .readyRead (some ⟨1, .NoError, [], QString.toUtf8 "data: \x7b\"choi".toList⟩)),
    (1, .finished (some ⟨1, .NoError, [], []⟩)),
    (2, .sendMessage [] 2)] activeExample).1

/-- A chat widget of the running example: no messages yet, the text ` hi ` typed into
the input field, no pending attachment, an API object connected. -/
def exampleWidget : ChatWidget where
  m_messages := []
  m_pendingAttachments := []
  m_inputText := " hi ".toList
  m_currentMessage := Message.create [] .User 0
  m_streamingMessage := false
  m_isStreaming := false
  m_hasApi := true

/-! ## Lemmas on the Qt models -/

theorem split_ne_nil (sep : Char) (s : QString) : QString.split sep s ≠ [] := by
  cases s with
  | nil => simp [QString.split]
  | cons c cs =>
    unfold QString.split
    split <;> simp

theorem split_of_not_mem (sep : Char) (s : QString) (h : sep ∉ s) :
    QString.split sep s = [s] := by
  induction s with
  | nil => rfl
  | cons c cs ih =>
    have hc : ¬ c = sep := fun e => h (by simp [e])
    have hcs : sep ∉ cs := fun e => h (by simp [e])
    simp [QString.split, hc, ih hcs]

theorem split_append_sep (sep : Char) (a rest : QString) (h : sep ∉ a) :
    QString.split sep (a ++ sep :: rest) = a :: QString.split sep rest := by
  induction a with
  | nil => simp [QString.split]
  | cons c cs ih =>
    have hc : ¬ c = sep := fun e => h (by simp [e])
    have hcs : sep ∉ cs := fun e => h (by simp [e])
    simp [QString.split, hc, ih hcs]

theorem getLastD_split_not_mem (sep : Char) (s : QString) :
    sep ∉ (QString.split sep s).getLastD [] := by
  induction s with
  | nil => simp [QString.split]
  | cons c cs ih =>
    unfold QString.split
    by_cases hc : c = sep
    · simp only [hc, if_true]
      cases hs : QString.split sep cs with
      | nil => exact absurd hs (split_ne_nil sep cs)
      | cons l ls =>
        rw [hs] at ih
        simpa [List.getLastD_cons] using ih
    · simp only [hc, if_false]
      cases hs : QString.split sep cs with
      | nil => exact absurd hs (split_ne_nil sep cs)
      | cons l ls =>
        rw [hs] at ih
        cases ls with
        | nil =>
          simp at ih ⊢
          exact ⟨fun e => hc e.symm, ih⟩
        | cons l2 ls2 =>
          simpa [List.getLastD_cons] using ih


theorem ofNat_eq_newline (n : Nat) (h : Char.ofNat n = '\n') : n = 10 := by
  unfold Char.ofNat at h
  split at h
  · rename_i hv
    have := congrArg Char.toNat h
    have e : (Char.ofNatAux n hv).toNat = n := by
      simp [Char.ofNatAux, Char.toNat, UInt32.toNat]
    rw [e] at this
    simpa using this
  · exact absurd h (by decide)

theorem le_of_utf8Accepts (uc m : Nat) (h : utf8Accepts uc m = true) : m ≤ uc := by
  simp [utf8Accepts] at h
  omega

theorem utf8Sequence_ne_newline (lead n minUc : Nat) (rest : QByteArray) (hm : 10 < minUc) :
    (utf8Sequence lead n minUc rest).1 ≠ '\n' := by
  unfold utf8Sequence
  simp only
  split
  · rename_i h
    intro e
    have h1 := ofNat_eq_newline _ e
    have h2 := le_of_utf8Accepts _ _ h.2.2
    omega
  · decide

theorem utf8Step_ne_newline (b0 : UInt8) (rest : QByteArray) (h : b0 ≠ 10) :
    (utf8Step b0 rest).1 ≠ '\n' := by
  unfold utf8Step
  split
  · intro e
    have h1 := ofNat_eq_newline _ e
    apply h
    cases b0 with
    | mk v =>
      apply congrArg UInt8.mk
      apply BitVec.eq_of_toNat_eq
      simpa [UInt8.toNat] using h1
  · split
    · exact utf8Sequence_ne_newline _ _ _ _ (by decide)
    · split
      · exact utf8Sequence_ne_newline _ _ _ _ (by decide)
      · split
        · exact utf8Sequence_ne_newline _ _ _ _ (by decide)
        · decide

theorem newline_not_mem_decodeUtf8Loop (fuel : Nat) (bytes : QByteArray)
    (h : (10 : UInt8) ∉ bytes) : '\n' ∉ QString.decodeUtf8Loop fuel bytes := by
  induction fuel generalizing bytes with
  | zero => simp [QString.decodeUtf8Loop]
  | succ fuel ih =>
    cases bytes with
    | nil => simp [QString.decodeUtf8Loop]
    | cons b0 rest =>
      simp only [QString.decodeUtf8Loop, List.mem_cons, not_or]
      simp only [List.mem_cons, not_or] at h
      refine ⟨fun e => utf8Step_ne_newline b0 rest (fun e2 => h.1 e2.symm) e.symm, ih _ ?_⟩
      exact fun hm => h.2 (List.mem_of_mem_drop hm)

theorem decodeUtf8Loop_fuel (f1 f2 : Nat) (bytes : QByteArray) (h1 : bytes.length ≤ f1)
    (h2 : bytes.length ≤ f2) :
    QString.decodeUtf8Loop f1 bytes = QString.decodeUtf8Loop f2 bytes := by
  induction f1 generalizing f2 bytes with
  | zero =>
    have hb : bytes = [] := List.length_eq_zero.mp (Nat.le_zero.mp h1)
    subst hb
    cases f2 <;> rfl
  | succ f1 ih =>
    cases bytes with
    | nil => cases f2 <;> rfl
    | cons b0 rest =>
      cases f2 with
      | zero => simp at h2
      | succ f2 =>
        simp only [QString.decodeUtf8Loop]
        have hd : (rest.drop (utf8Step b0 rest).2).length ≤ rest.length := by
          rw [List.length_drop]
          exact Nat.sub_le _ _
        simp only [List.length_cons, Nat.add_le_add_iff_right] at h1 h2
        rw [ih f2 _ (Nat.le_trans hd h1) (Nat.le_trans hd h2)]

/-- The fuel of the decoding loop is never used up: the decoder writes the character
of the first step and goes on behind the bytes that step consumed. -/
theorem decodeUtf8_cons (b0 : UInt8) (rest : QByteArray) :
    QString.decodeUtf8 (b0 :: rest) =
      (utf8Step b0 rest).1 :: QString.decodeUtf8 (rest.drop (utf8Step b0 rest).2) := by
  unfold QString.decodeUtf8
  simp only [List.length_cons, QString.decodeUtf8Loop]
  have hd : (rest.drop (utf8Step b0 rest).2).length ≤ rest.length := by
    rw [List.length_drop]
    exact Nat.sub_le _ _
  rw [decodeUtf8Loop_fuel rest.length _ _ hd (Nat.le_refl _)]

theorem newline_not_mem_fromUtf8 (bytes : QByteArray) (h : (10 : UInt8) ∉ bytes) :
    '\n' ∉ QString.fromUtf8 bytes := by
  unfold QString.fromUtf8
  split
  · rename_i rest
    apply newline_not_mem_decodeUtf8Loop
    intro hm
    exact h (by simp [hm])
  · exact newline_not_mem_decodeUtf8Loop _ _ h


/-! ## Lemmas on reading a JSON document -/

theorem lookup_contains_value (o : QJsonObject) (key : QString) (v : QJsonValue)
    (h : o.lookup key = some v) :
    QJsonObject.contains o key = true ∧ QJsonObject.value o key = v := by
  induction o with
  | nil => simp [List.lookup] at h
  | cons m ms ih =>
    obtain ⟨k, w⟩ := m
    by_cases hk : key = k
    · subst hk
      simp [List.lookup] at h
      simp [QJsonObject.contains, QJsonObject.value, h]
    · have hk2 : (key == k) = false := by simpa using hk
      have hk3 : (k == key) = false := by simpa using fun e => hk e.symm
      simp only [List.lookup, hk2] at h
      have := ih h
      simp only [QJsonObject.contains, QJsonObject.value, List.any_cons, List.find?_cons, hk3,
        Bool.false_or] at this ⊢
      exact this

theorem contains_lookup (o : QJsonObject) (key : QString)
    (h : QJsonObject.contains o key = true) :
    o.lookup key = some (QJsonObject.value o key) := by
  induction o with
  | nil => simp [QJsonObject.contains] at h
  | cons m ms ih =>
    obtain ⟨k, w⟩ := m
    by_cases hk : key = k
    · subst hk
      simp [List.lookup, QJsonObject.value]
    · have hk2 : (key == k) = false := by simpa using hk
      have hk3 : (k == key) = false := by simpa using fun e => hk e.symm
      simp only [QJsonObject.contains, List.any_cons, hk3, Bool.false_or] at h
      have := ih h
      simp only [QJsonObject.value, List.lookup, hk2, List.find?_cons, hk3] at this ⊢
      exact this

theorem contains_nil (key : QString) : QJsonObject.contains [] key = false := rfl

theorem value_nil (key : QString) : QJsonObject.value [] key = .undefined := rfl

theorem value_eq_lookup (o : QJsonObject) (key : QString) (v : QJsonValue)
    (h : QJsonObject.value o key = v) (hv : v ≠ .undefined) : o.lookup key = some v := by
  by_cases hc : QJsonObject.contains o key = true
  · rw [contains_lookup o key hc, h]
  · exfalso
    apply hv
    rw [← h]
    have hc2 : QJsonObject.contains o key = false := by simpa using hc
    unfold QJsonObject.contains at hc2
    unfold QJsonObject.value
    have : o.find? (fun m => m.1 == key) = none := by
      rw [List.find?_eq_none]
      intro x hx
      have := (List.any_eq_false.mp hc2) x hx
      simpa using this
    rw [this]

theorem eq_object_of_contains (v : QJsonValue) (key : QString)
    (h : QJsonObject.contains v.toObject key = true) : v = .object v.toObject := by
  cases v <;> first | rfl | (simp [QJsonValue.toObject, contains_nil] at h)

theorem eq_array_of_toArray (v : QJsonValue) (h : v.toArray ≠ []) : v = .array v.toArray := by
  cases v <;> first | rfl | (simp [QJsonValue.toArray] at h)

theorem eq_string_of_toQString (v : QJsonValue) (h : v.toQString ≠ []) :
    v = .string v.toQString := by
  cases v <;> first | rfl | (simp [QJsonValue.toQString] at h)

theorem eq_object_of_value (v : QJsonValue) (key : QString) (w : QJsonValue)
    (h : QJsonObject.value v.toObject key = w) (hw : w ≠ .undefined) : v = .object v.toObject := by
  cases v <;> first | rfl | (simp [QJsonValue.toObject, value_nil] at h; exact absurd h.symm hw)

/-- What `processStreamChunk` reads at `choices[0].delta.content` of a document. -/
theorem hasDeltaContent_reads (doc : QJsonValue) (t : QString) (h : HasDeltaContent doc t) :
    QJsonObject.contains (QJsonDocument.object doc) "choices".toList = true ∧
    (QJsonObject.value (QJsonDocument.object doc) "choices".toList).toArray ≠ [] ∧
    QJsonObject.contains (QJsonObject.value (QJsonArray.at (QJsonObject.value
      (QJsonDocument.object doc) "choices".toList).toArray 0).toObject
      "delta".toList).toObject "content".toList = true ∧
    (QJsonObject.value (QJsonObject.value (QJsonArray.at (QJsonObject.value
      (QJsonDocument.object doc) "choices".toList).toArray 0).toObject
      "delta".toList).toObject "content".toList).toQString = t := by
  obtain ⟨members, first, others, choice, delta, hd, hc, hf, hdl, hct⟩ := h
  subst hd hf
  obtain ⟨c1, c2⟩ := lookup_contains_value _ _ _ hc
  obtain ⟨d1, d2⟩ := lookup_contains_value _ _ _ hdl
  obtain ⟨e1, e2⟩ := lookup_contains_value _ _ _ hct
  have k1 : QJsonDocument.object (.object members) = members := rfl
  rw [k1, c2]
  have k2 : (QJsonValue.array (QJsonValue.object choice :: others)).toArray
      = QJsonValue.object choice :: others := rfl
  have k3 : QJsonArray.at (QJsonValue.object choice :: others) 0 = .object choice := rfl
  have k4 : (QJsonValue.object choice).toObject = choice := rfl
  have k5 : (QJsonValue.object delta).toObject = delta := rfl
  rw [k2, k3, k4, d2, k5, e2]
  exact ⟨c1, List.cons_ne_nil _ _, e1, rfl⟩

theorem reads_hasDeltaContent (doc : QJsonValue)
    (h1 : QJsonObject.contains (QJsonDocument.object doc) "choices".toList = true)
    (h2 : (QJsonObject.value (QJsonDocument.object doc) "choices".toList).toArray ≠ [])
    (h3 : QJsonObject.contains (QJsonObject.value (QJsonArray.at (QJsonObject.value
      (QJsonDocument.object doc) "choices".toList).toArray 0).toObject
      "delta".toList).toObject "content".toList = true)
    (h4 : (QJsonObject.value (QJsonObject.value (QJsonArray.at (QJsonObject.value
      (QJsonDocument.object doc) "choices".toList).toArray 0).toObject
      "delta".toList).toObject "content".toList).toQString ≠ []) :
    HasDeltaContent doc (QJsonObject.value (QJsonObject.value (QJsonArray.at (QJsonObject.value
      (QJsonDocument.object doc) "choices".toList).toArray 0).toObject
      "delta".toList).toObject "content".toList).toQString := by
  have hdoc : doc = .object (QJsonDocument.object doc) := eq_object_of_contains doc _ h1
  generalize QJsonDocument.object doc = members at *
  have hc := contains_lookup _ _ h1
  have harr := eq_array_of_toArray _ h2
  generalize QJsonObject.value members "choices".toList = cv at *
  generalize hitems : cv.toArray = items at *
  cases items with
  | nil => exact absurd rfl h2
  | cons first others =>
    have k3 : QJsonArray.at (first :: others) 0 = first := rfl
    rw [k3] at h3 h4 ⊢
    have hdelta := eq_object_of_contains _ _ h3
    have hfirst := eq_object_of_value first "delta".toList _ rfl
      (by rw [hdelta]; exact fun e => QJsonValue.noConfusion e)
    have hdl := value_eq_lookup _ _ _ rfl
      (show QJsonObject.value first.toObject "delta".toList ≠ .undefined by
        rw [hdelta]; exact fun e => QJsonValue.noConfusion e)
    have hct := contains_lookup _ _ h3
    have hstr := eq_string_of_toQString _ h4
    refine ⟨members, first, others, first.toObject,
      (QJsonObject.value first.toObject "delta".toList).toObject, hdoc, ?_, hfirst, ?_, ?_⟩
    · rw [hc, harr]
    · rw [hdl]; exact congrArg some hdelta
    · rw [hct]; exact congrArg some hstr

/-! ## Lemmas on the `int` and `double` models -/

theorem wrap_of_range (n : Int) (hlo : -2147483648 ≤ n) (hhi : n ≤ 2147483647) :
    Int32.wrap n = n := by
  unfold Int32.wrap
  omega

theorem wrap_range (n : Int) : -2147483648 ≤ Int32.wrap n ∧ Int32.wrap n ≤ 2147483647 := by
  unfold Int32.wrap
  omega

theorem log2Loop_spec (fuel n : Nat) (hf : n ≤ fuel) (hn : 0 < n) :
    2 ^ Double.log2Loop fuel n ≤ n ∧ n < 2 ^ (Double.log2Loop fuel n + 1) := by
  induction fuel generalizing n with
  | zero => omega
  | succ fuel ih =>
    unfold Double.log2Loop
    by_cases h2 : n < 2
    · rw [if_pos h2]
      have : n = 1 := by omega
      subst this
      exact ⟨by norm_num, by norm_num⟩
    · rw [if_neg h2]
      have hih := ih (n / 2) (by omega) (by omega)
      have e1 : 2 ^ (Double.log2Loop fuel (n / 2) + 1) = 2 * 2 ^ Double.log2Loop fuel (n / 2) := by
        rw [pow_succ]; ring
      have e2 : 2 ^ (Double.log2Loop fuel (n / 2) + 1 + 1)
          = 2 * 2 ^ (Double.log2Loop fuel (n / 2) + 1) := by
        rw [pow_succ]; ring
      rw [e2, e1]
      rw [e1] at hih
      omega

theorem log2_spec (n : Nat) (hn : 0 < n) :
    2 ^ Double.log2 n ≤ n ∧ n < 2 ^ (Double.log2 n + 1) :=
  log2Loop_spec n n (le_refl n) hn

theorem roundHalfEven_spec (n d : Nat) (hd : 0 < d) :
    2 * (Double.roundHalfEven n d * d) ≤ 2 * n + d ∧
    2 * n ≤ 2 * (Double.roundHalfEven n d * d) + d := by
  have hdm := Nat.div_add_mod n d
  have hm := Nat.mod_lt n hd
  have e1 : (n / d + 1) * d = d * (n / d) + d := by ring
  have e0 : n / d * d = d * (n / d) := by ring
  unfold Double.roundHalfEven
  split_ifs <;> (first | rw [e1] | rw [e0]) <;> omega

theorem double_div_nonneg (a b : Nat) : 0 ≤ Double.div a b := by
  unfold Double.div
  positivity

theorem zpow_toNat_div (k : Int) :
    (2 : ℚ) ^ k.toNat / 2 ^ (-k).toNat = 2 ^ k := by
  cases k with
  | ofNat n =>
    have h1 : (Int.ofNat n).toNat = n := rfl
    have h2 : (-(Int.ofNat n)).toNat = 0 := by
      cases n with
      | zero => rfl
      | succ m => rfl
    rw [h1, h2, pow_zero, div_one]
    exact (zpow_natCast 2 n).symm
  | negSucc n =>
    have h1 : (Int.negSucc n).toNat = 0 := rfl
    have h2 : (-(Int.negSucc n)).toNat = n + 1 := rfl
    rw [h1, h2, pow_zero, zpow_negSucc, one_div]

/-- The `double` quotient is the quotient rounded in its last place: it differs from
`a / b` by at most half a unit in the last place. -/
theorem double_div_nearest (a b : Nat) (hb : 0 < b) :
    |Double.div a b - (a : ℚ) / b| ≤ 2 ^ Double.exponent a b / 2 := by
  have hP : (0 : ℚ) < 2 ^ (-(Double.exponent a b)).toNat := by positivity
  have hQ : (0 : ℚ) < 2 ^ (Double.exponent a b).toNat := by positivity
  have hbq : (0 : ℚ) < b := by exact_mod_cast hb
  have hk : (0 : ℚ) < 2 ^ Double.exponent a b := by positivity
  have hD : 0 < b * 2 ^ (Double.exponent a b).toNat := by positivity
  obtain ⟨h1, h2⟩ := roundHalfEven_spec (a * 2 ^ (-(Double.exponent a b)).toNat)
    (b * 2 ^ (Double.exponent a b).toNat) hD
  have h1q : (2 : ℚ) * (Double.mantissa a b * (b * 2 ^ (Double.exponent a b).toNat)) ≤
      2 * (a * 2 ^ (-(Double.exponent a b)).toNat) + b * 2 ^ (Double.exponent a b).toNat := by
    unfold Double.mantissa
    exact_mod_cast h1
  have h2q : (2 : ℚ) * (a * 2 ^ (-(Double.exponent a b)).toNat) ≤
      2 * (Double.mantissa a b * (b * 2 ^ (Double.exponent a b).toNat))
        + b * 2 ^ (Double.exponent a b).toNat := by
    unfold Double.mantissa
    exact_mod_cast h2
  have hz := zpow_toNat_div (Double.exponent a b)
  have e : Double.div a b - (a : ℚ) / b =
      ((Double.mantissa a b : ℚ) * (b * 2 ^ (Double.exponent a b).toNat)
        - a * 2 ^ (-(Double.exponent a b)).toNat) *
      (1 / (b * 2 ^ (-(Double.exponent a b)).toNat)) := by
    unfold Double.div
    rw [← hz]
    field_simp
    ring
  have e2 : (2 : ℚ) ^ Double.exponent a b / 2 =
      (b * 2 ^ (Double.exponent a b).toNat / 2) *
      (1 / (b * 2 ^ (-(Double.exponent a b)).toNat)) := by
    rw [← hz]
    field_simp
    ring
  rw [e, e2, abs_mul, abs_of_pos (show (0 : ℚ) < 1 / (b * 2 ^ (-(Double.exponent a b)).toNat) by
    positivity)]
  apply mul_le_mul_of_nonneg_right _ (by positivity)
  rw [abs_le]
  constructor <;> linarith

theorem zpow_log2_diff (la lb : Nat) (c : Nat) :
    (2 : ℚ) ^ ((la : Int) - (lb : Int) - (c : Int)) = 2 ^ la / (2 ^ lb * 2 ^ c) := by
  rw [zpow_sub₀ (by norm_num), zpow_sub₀ (by norm_num), zpow_natCast, zpow_natCast,
    zpow_natCast, div_div]

theorem log2_le_53 (b : Nat) (hb : 0 < b) (hb53 : b ≤ 9007199254740992) :
    Double.log2 b ≤ 53 := by
  by_contra h
  have h1 : 2 ^ 54 ≤ 2 ^ Double.log2 b := Nat.pow_le_pow_right (by norm_num) (by omega)
  have h2 := (log2_spec b hb).1
  have h3 : (2 : Nat) ^ 54 = 18014398509481984 := by norm_num
  omega

/-- For a denominator up to 2^53 the quotient is in the normal range: it has 53
significant binary digits, so the unit in the last place is at most `a / b / 2 ^ 52`. -/
theorem double_exponent_normal (a b : Nat) (ha : 0 < a) (hb : 0 < b)
    (hb53 : b ≤ 9007199254740992) :
    (2 : ℚ) ^ 52 * 2 ^ Double.exponent a b ≤ (a : ℚ) / b := by
  have hla := log2_spec a ha
  have hlb := log2_spec b hb
  have hl := log2_le_53 b hb hb53
  have hbq : (0 : ℚ) < b := by exact_mod_cast hb
  have hpb : (0 : ℚ) < 2 ^ Double.log2 b := by positivity
  unfold Double.exponent
  by_cases hc : b * 2 ^ Double.log2 a ≤ a * 2 ^ Double.log2 b
  · rw [if_pos hc, max_eq_left (by omega)]
    have e := zpow_log2_diff (Double.log2 a) (Double.log2 b) 52
    rw [show ((52 : Nat) : Int) = 52 from rfl] at e
    rw [e, le_div_iff₀ hbq]
    have hcq : (b : ℚ) * 2 ^ Double.log2 a ≤ a * 2 ^ Double.log2 b := by exact_mod_cast hc
    have e3 : (2 : ℚ) ^ 52 * (2 ^ Double.log2 a / (2 ^ Double.log2 b * 2 ^ 52)) * b
        = (b * 2 ^ Double.log2 a) / 2 ^ Double.log2 b := by
      field_simp
      ring
    rw [e3, div_le_iff₀ hpb]
    exact hcq
  · rw [if_neg hc, max_eq_left (by omega)]
    have e := zpow_log2_diff (Double.log2 a) (Double.log2 b) 53
    rw [show ((53 : Nat) : Int) = 53 from rfl] at e
    rw [e, le_div_iff₀ hbq]
    have h1 : ((2 : Nat) ^ Double.log2 a : ℚ) ≤ a := by exact_mod_cast hla.1
    have h2 : (b : ℚ) ≤ 2 * 2 ^ Double.log2 b := by
      have := hlb.2
      rw [pow_succ] at this
      have h3 : (b : ℚ) < ((2 ^ Double.log2 b * 2 : Nat) : ℚ) := by exact_mod_cast this
      push_cast at h3
      linarith
    have e3 : (2 : ℚ) ^ 52 * (2 ^ Double.log2 a / (2 ^ Double.log2 b * 2 ^ 53)) * b
        = (2 ^ Double.log2 a * b) / (2 * 2 ^ Double.log2 b) := by
      field_simp
      ring
    rw [e3, div_le_iff₀ (by positivity)]
    push_cast at h1
    have hpa : (0 : ℚ) ≤ 2 ^ Double.log2 a := by positivity
    calc (2 : ℚ) ^ Double.log2 a * b ≤ 2 ^ Double.log2 a * (2 * 2 ^ Double.log2 b) :=
          mul_le_mul_of_nonneg_left h2 hpa
      _ ≤ a * (2 * 2 ^ Double.log2 b) := mul_le_mul_of_nonneg_right h1 (by positivity)

/-- The `double` quotient of `a` by a denominator up to 2^53 is `a / b` up to the
relative error 2^-53. -/
theorem double_div_relative (a b : Nat) (ha : 0 < a) (hb : 0 < b)
    (hb53 : b ≤ 9007199254740992) :
    |Double.div a b - (a : ℚ) / b| ≤ (a : ℚ) / b / 2 ^ 53 := by
  have h1 := double_div_nearest a b hb
  have h2 := double_exponent_normal a b ha hb hb53
  have e : (a : ℚ) / b / 2 ^ 53 = (a : ℚ) / b / 2 ^ 52 / 2 := by
    rw [div_div ((a : ℚ) / b)]
    norm_num
  have h3 : (2 : ℚ) ^ Double.exponent a b ≤ (a : ℚ) / b / 2 ^ 52 := by
    rw [le_div_iff₀ (by positivity)]
    linarith
  rw [e]
  linarith

theorem double_ofNat_exact (n : Nat) (h : n ≤ 9007199254740992) : Double.ofNat n = n := by
  unfold Double.ofNat
  rw [if_pos h]

/-! ## Lemmas on `processStreamChunk` -/

theorem updateTokenStats_frame (now : Int) (s : OpenRouterAPI) :
    updateTokenStats now s =
      { s with m_tokensPerSecond := (updateTokenStats now s).m_tokensPerSecond } := by
  unfold updateTokenStats
  split <;> rfl

theorem processChoices_frame (now : Int) (obj : QJsonObject) (s : OpenRouterAPI) :
    (processChoices now obj s).1 =
      { s with
        m_tokenCount := (processChoices now obj s).1.m_tokenCount
        m_tokensPerSecond := (processChoices now obj s).1.m_tokensPerSecond } := by
  unfold processChoices updateTokenStats
  simp only []
  split_ifs <;> rfl

theorem processUsage_frame (obj : QJsonObject) (s : OpenRouterAPI) :
    processUsage obj s = { s with m_totalTokensUsed := (processUsage obj s).m_totalTokensUsed } := by
  unfold processUsage
  simp only []
  split_ifs <;> rfl

theorem processStreamChunk_frame (now : Int) (chunk : QString) (s : OpenRouterAPI) :
    (processStreamChunk now chunk s).1 =
      { s with
        m_tokenCount := (processStreamChunk now chunk s).1.m_tokenCount
        m_tokensPerSecond := (processStreamChunk now chunk s).1.m_tokensPerSecond
        m_totalTokensUsed := (processStreamChunk now chunk s).1.m_totalTokensUsed } := by
  unfold processStreamChunk
  simp only []
  split_ifs
  · rfl
  · cases QJsonDocument.fromJson (QString.mid chunk 6) with
    | none => rfl
    | some doc =>
      simp only []
      rw [processUsage_frame, processChoices_frame]
  · rfl

theorem startsWith_data (payload : QString) :
    QString.startsWith ("data: ".toList ++ payload) "data: ".toList = true := by
  simp [QString.startsWith]

theorem mid_data (payload : QString) :
    QString.mid ("data: ".toList ++ payload) 6 = payload := by
  simp [QString.mid]

theorem fromJson_done : QJsonDocument.fromJson "[DONE]".toList = none := by rfl

theorem ne_done_of_fromJson (payload : QString) (doc : QJsonValue)
    (hp : QJsonDocument.fromJson payload = some doc) : payload ≠ "[DONE]".toList := by
  intro e
  rw [e, fromJson_done] at hp
  exact Option.noConfusion hp

theorem processStreamChunk_not_data (now : Int) (chunk : QString) (s : OpenRouterAPI)
    (h : QString.startsWith chunk "data: ".toList = false) :
    processStreamChunk now chunk s = (s, []) := by
  unfold processStreamChunk
  simp only [h, Bool.false_eq_true, if_false]

theorem processStreamChunk_done (now : Int) (s : OpenRouterAPI) :
    processStreamChunk now "data: [DONE]".toList s = (s, []) := by
  rfl

theorem processStreamChunk_parsed (now : Int) (payload : QString) (doc : QJsonValue)
    (s : OpenRouterAPI) (hp : QJsonDocument.fromJson payload = some doc) :
    processStreamChunk now ("data: ".toList ++ payload) s =
      (processUsage (QJsonDocument.object doc)
        (processChoices now (QJsonDocument.object doc) s).1,
        (processChoices now (QJsonDocument.object doc) s).2) := by
  unfold processStreamChunk
  rw [startsWith_data, mid_data]
  simp only [if_true, ne_done_of_fromJson payload doc hp, if_false, hp]

theorem processChoices_delta (now : Int) (doc : QJsonValue) (t : QString) (s : OpenRouterAPI)
    (hc : HasDeltaContent doc t) (ht : t ≠ []) :
    processChoices now (QJsonDocument.object doc) s =
      (updateTokenStats now { s with m_tokenCount := Int32.wrap (s.m_tokenCount + 1) },
        [.emit (.streamReceived t)]) := by
  obtain ⟨r1, r2, r3, r4⟩ := hasDeltaContent_reads doc t hc
  unfold processChoices
  simp only [r1, r2, r3, r4, List.isEmpty_iff, ht, not_false_eq_true, if_true]

theorem processChoices_no_delta (now : Int) (doc : QJsonValue) (s : OpenRouterAPI)
    (hc : ∀ t, HasDeltaContent doc t → t = []) :
    processChoices now (QJsonDocument.object doc) s = (s, []) := by
  unfold processChoices
  simp only []
  by_cases h1 : QJsonObject.contains (QJsonDocument.object doc) "choices".toList = true
  · rw [if_pos h1]
    by_cases h2 : (QJsonObject.value (QJsonDocument.object doc) "choices".toList).toArray = []
    · rw [if_neg (by rw [h2]; simp)]
    · rw [if_pos (by rw [List.isEmpty_iff]; exact h2)]
      by_cases h3 : QJsonObject.contains (QJsonObject.value (QJsonArray.at (QJsonObject.value
          (QJsonDocument.object doc) "choices".toList).toArray 0).toObject
          "delta".toList).toObject "content".toList = true
      · rw [if_pos h3]
        by_cases h4 : (QJsonObject.value (QJsonObject.value (QJsonArray.at (QJsonObject.value
            (QJsonDocument.object doc) "choices".toList).toArray 0).toObject
            "delta".toList).toObject "content".toList).toQString = []
        · rw [if_neg (by rw [h4]; simp)]
        · exact absurd (hc _ (reads_hasDeltaContent doc h1 h2 h3 h4)) h4
      · rw [if_neg h3]
  · rw [if_neg h1]

/-! ## Lemmas on effects, the line loop and event sequences -/

theorem signals_append (a b : List Effect) : signals (a ++ b) = signals a ++ signals b := by
  induction a with
  | nil => rfl
  | cons e rest ih =>
    cases e <;> simp [signals, ih]

theorem deltas_append (a b : List Effect) : deltas (a ++ b) = deltas a ++ deltas b := by
  induction a with
  | nil => rfl
  | cons e rest ih =>
    cases e with
    | emit sig => cases sig <;> simp [deltas, ih]
    | _ => simp [deltas, ih]

theorem trimmed_nil : QString.trimmed [] = [] := rfl

theorem processLines_nil (now : Int) (s : OpenRouterAPI) : processLines now [] s = (s, []) := rfl

theorem processLines_cons (now : Int) (line : QString) (rest : List QString)
    (s : OpenRouterAPI) (h : line ≠ []) :
    processLines now (line :: rest) s =
      ((processLines now rest (processStreamChunk now (QString.trimmed line) s).1).1,
        (processStreamChunk now (QString.trimmed line) s).2 ++
          (processLines now rest (processStreamChunk now (QString.trimmed line) s).1).2) := by
  have h2 : ¬ (line.isEmpty = true) := by rw [List.isEmpty_iff]; exact h
  simp only [processLines, h2, not_false_eq_true, if_true, Bool.false_eq_true]

theorem processLines_cons_empty (now : Int) (rest : List QString) (s : OpenRouterAPI) :
    processLines now ([] :: rest) s = processLines now rest s := by
  simp only [processLines, List.isEmpty_nil, not_true_eq_false, if_false, List.nil_append]

theorem processLines_single (now : Int) (line : QString) (s : OpenRouterAPI) (h : line ≠ []) :
    processLines now [line] s = processStreamChunk now (QString.trimmed line) s := by
  rw [processLines_cons now line [] s h]
  simp only [processLines_nil, List.append_nil]

theorem processLines_frame (now : Int) (lines : List QString) (s : OpenRouterAPI) :
    (processLines now lines s).1 =
      { s with
        m_tokenCount := (processLines now lines s).1.m_tokenCount
        m_tokensPerSecond := (processLines now lines s).1.m_tokensPerSecond
        m_totalTokensUsed := (processLines now lines s).1.m_totalTokensUsed } := by
  induction lines generalizing s with
  | nil => rfl
  | cons line rest ih =>
    by_cases h : line = []
    · subst h
      rw [processLines_cons_empty]
      exact ih s
    · rw [processLines_cons now line rest s h]
      simp only []
      rw [ih, processStreamChunk_frame]

theorem run_append (a b : List (Int × Event)) (s : OpenRouterAPI) :
    run (a ++ b) s = ((run b (run a s).1).1, (run a s).2 ++ (run b (run a s).1).2) := by
  induction a generalizing s with
  | nil => simp [run]
  | cons e rest ih =>
    obtain ⟨now, ev⟩ := e
    show run ((now, ev) :: (rest ++ b)) s = _
    simp only [run, ih, List.append_assoc]

theorem ne_nil_of_trimmed_data (line payload : QString)
    (h : QString.trimmed line = "data: ".toList ++ payload) : line ≠ [] := by
  intro e
  rw [e, trimmed_nil] at h
  exact List.noConfusion h

theorem processStreamChunk_delta_effects (now : Int) (s : OpenRouterAPI) (payload : QString)
    (doc : QJsonValue) (hp : QJsonDocument.fromJson payload = some doc) (t : QString)
    (hd : HasDeltaContent doc t) (ht : t ≠ []) :
    (processStreamChunk now ("data: ".toList ++ payload) s).2 = [.emit (.streamReceived t)] := by
  rw [processStreamChunk_parsed now payload doc s hp, processChoices_delta now doc t s hd ht]

theorem processLines_delta_line (now : Int) (line payload : QString) (doc : QJsonValue)
    (t : QString) (rest : List QString) (s : OpenRouterAPI)
    (hl : QString.trimmed line = "data: ".toList ++ payload)
    (hp : QJsonDocument.fromJson payload = some doc) (hd : HasDeltaContent doc t)
    (ht : t ≠ []) :
    (processLines now (line :: rest) s).2 =
      .emit (.streamReceived t) ::
        (processLines now rest (processStreamChunk now (QString.trimmed line) s).1).2 := by
  rw [processLines_cons now line rest s (ne_nil_of_trimmed_data line payload hl)]
  simp only []
  rw [hl, processStreamChunk_delta_effects now s payload doc hp t hd ht]
  rfl

/-! ## C1: chunk boundaries at the byte level -/

set_option maxRecDepth 1000000 in
/-- C1 (evaluation at the failing input): the two-frame stream
`data: {"choices":[{"delta":{"content":"caf"}}]}` and
`data: {"choices":[{"delta":{"content":"é!"}}]}`, each line ended by a newline, is cut
in two ways.  Delivered in one chunk it gives the deltas `caf` and `é!`.  Cut between
the two bytes 0xC3 0xA9 of `é`, each chunk is decoded on its own, both bytes become
U+FFFD, and the second delta is two replacement characters followed by `!`. -/
theorem C1_cut_inside_character_changes_deltas :
    QString.toUtf8 ("data: \x7b\"choices\":[\x7b\"delta\":\x7b\"content\":\"caf\"\x7d\x7d]\x7d\n".toList ++
        "data: \x7b\"choices\":[\x7b\"delta\":\x7b\"content\":\"é!\"\x7d\x7d]\x7d\n".toList) =
      QString.toUtf8 ("data: \x7b\"choices\":[\x7b\"delta\":\x7b\"content\":\"caf\"\x7d\x7d]\x7d\n".toList ++
        "data: \x7b\"choices\":[\x7b\"delta\":\x7b\"content\":\"".toList) ++ [0xC3] ++
      (0xA9 :: QString.toUtf8 "!\"\x7d\x7d]\x7d\n".toList) ∧
    deltas (run (feedChunks 0 1
      [QString.toUtf8 ("data: \x7b\"choices\":[\x7b\"delta\":\x7b\"content\":\"caf\"\x7d\x7d]\x7d\n".toList ++
        "data: \x7b\"choices\":[\x7b\"delta\":\x7b\"content\":\"é!\"\x7d\x7d]\x7d\n".toList)]) activeExample).2 =
      ["caf".toList, "é!".toList] ∧
    deltas (run (feedChunks 0 1
      [QString.toUtf8 ("data: \x7b\"choices\":[\x7b\"delta\":\x7b\"content\":\"caf\"\x7d\x7d]\x7d\n".toList ++
        "data: \x7b\"choices\":[\x7b\"delta\":\x7b\"content\":\"".toList) ++ [0xC3],
       0xA9 :: QString.toUtf8 "!\"\x7d\x7d]\x7d\n".toList]) activeExample).2 =
      ["caf".toList, [QChar.ReplacementCharacter, QChar.ReplacementCharacter, '!']] := by
  decide

/-! ## C2: no line is processed before it is fully received -/

theorem parseModelsResponse_frame (response : QByteArray) (s : OpenRouterAPI) :
    (parseModelsResponse response s).2.1 =
      { s with m_models := (parseModelsResponse response s).2.1.m_models } := by
  unfold parseModelsResponse
  cases QJsonDocument.fromJsonBytes response with
  | none => rfl
  | some doc =>
    simp only []
    split_ifs <;> rfl

theorem onModelsReplyFinished_frame (sender : Option QNetworkReply) (s : OpenRouterAPI) :
    (onModelsReplyFinished sender s).1 =
      { s with m_models := (onModelsReplyFinished sender s).1.m_models } := by
  unfold onModelsReplyFinished
  cases sender with
  | none => rfl
  | some reply =>
    simp only []
    split_ifs
    · exact parseModelsResponse_frame _ s
    · rfl

theorem onChatReplyReadyRead_buffer (sender : Option QNetworkReply) (now : Int)
    (s : OpenRouterAPI) (h : '\n' ∉ s.m_streamBuffer) :
    '\n' ∉ (onChatReplyReadyRead sender now s).1.m_streamBuffer := by
  unfold onChatReplyReadyRead
  cases sender with
  | none => exact h
  | some reply =>
    simp only []
    split_ifs
    · exact h
    · rw [processLines_frame]
      exact getLastD_split_not_mem _ _

/-- The retained buffer never holds a newline. -/
theorem reachable_buffer (s : OpenRouterAPI) (h : Reachable s) : '\n' ∉ s.m_streamBuffer := by
  induction h with
  | constructed models => simp [OpenRouterAPI.initial]
  | step now ev s _ ih =>
    cases ev with
    | setAPIKey apiKey => exact ih
    | setModel modelId => exact ih
    | setBaseURL url => exact ih
    | sendMessage conversation newReply =>
      simp only [step, sendMessage]
      split_ifs <;> exact ih
    | stopCurrentRequest =>
      simp only [step, stopCurrentRequest]
      split <;> exact ih
    | readyRead sender => exact onChatReplyReadyRead_buffer sender now s ih
    | errorOccurred sender =>
      simp only [step, onNetworkError]
      split
      · exact ih
      · split_ifs <;> exact ih
    | finished sender =>
      simp only [step, onChatReplyFinished]
      split
      · exact ih
      · rw [updateTokenStats_frame]
        exact ih
    | modelsFinished sender =>
      simp only [step]
      rw [onModelsReplyFinished_frame]
      exact ih

theorem onChatReplyReadyRead_no_newline (reply : QNetworkReply) (now : Int)
    (s : OpenRouterAPI) (hstop : s.m_shouldStop = false) (hb : '\n' ∉ s.m_streamBuffer)
    (hc : '\n' ∉ QString.fromUtf8 reply.readAll) :
    onChatReplyReadyRead (some reply) now s =
      ({ s with m_streamBuffer := s.m_streamBuffer ++ QString.fromUtf8 reply.readAll }, []) := by
  have hn : '\n' ∉ s.m_streamBuffer ++ QString.fromUtf8 reply.readAll := by
    simp only [List.mem_append, not_or]
    exact ⟨hb, hc⟩
  unfold onChatReplyReadyRead
  simp only [hstop, Bool.false_eq_true, if_false]
  rw [split_of_not_mem _ _ hn]
  rfl

theorem dropLast_cons_split (a : QString) (more : QString) :
    (a :: QString.split '\n' more).dropLast = a :: (QString.split '\n' more).dropLast ∧
    (a :: QString.split '\n' more).getLastD [] = (QString.split '\n' more).getLastD [] := by
  cases h : QString.split '\n' more with
  | nil => exact absurd h (split_ne_nil _ _)
  | cons l ls => exact ⟨rfl, rfl⟩

theorem onChatReplyReadyRead_newline (reply : QNetworkReply) (now : Int)
    (s : OpenRouterAPI) (rest more : QString) (hstop : s.m_shouldStop = false)
    (hb : '\n' ∉ s.m_streamBuffer)
    (hc : QString.fromUtf8 reply.readAll = rest ++ '\n' :: more) (hr : '\n' ∉ rest) :
    onChatReplyReadyRead (some reply) now s =
      processLines now ((s.m_streamBuffer ++ rest) :: (QString.split '\n' more).dropLast)
        { s with m_streamBuffer := (QString.split '\n' more).getLastD [] } := by
  have hn : '\n' ∉ s.m_streamBuffer ++ rest := by
    simp only [List.mem_append, not_or]
    exact ⟨hb, hr⟩
  unfold onChatReplyReadyRead
  simp only [hstop, Bool.false_eq_true, if_false]
  rw [hc, ← List.append_assoc, split_append_sep _ _ _ hn, (dropLast_cons_split _ more).1,
    (dropLast_cons_split _ more).2]

theorem onChatReplyReadyRead_newline_last (reply : QNetworkReply) (now : Int)
    (s : OpenRouterAPI) (rest : QString) (hstop : s.m_shouldStop = false)
    (hb : '\n' ∉ s.m_streamBuffer)
    (hc : QString.fromUtf8 reply.readAll = rest ++ ['\n']) (hr : '\n' ∉ rest) :
    onChatReplyReadyRead (some reply) now s =
      processLines now [s.m_streamBuffer ++ rest] { s with m_streamBuffer := [] } :=
  onChatReplyReadyRead_newline reply now s rest [] hstop hb hc hr

/-- C2 (counterexample): after `stopCurrentRequest` a chunk without a newline, here the
one byte `x`, is not appended: the buffer `par` stays `par`, it does not become
`parx`. -/
theorem C2_counterexample_chunk_after_stop_not_buffered :
    (10 : UInt8) ∉ QString.toUtf8 "x".toList ∧
    (stopCurrentRequest { activeExample with m_streamBuffer := "par".toList }).1.m_streamBuffer
      = "par".toList ∧
    (onChatReplyReadyRead (some ⟨1, .NoError, [], QString.toUtf8 "x".toList⟩) 0
      (stopCurrentRequest { activeExample with m_streamBuffer := "par".toList }).1).1.m_streamBuffer
      ≠ "par".toList ++ QString.fromUtf8 (QString.toUtf8 "x".toList) := by
  decide

/-- C2 (amended): in every reachable state in which no stop has been requested, an
arriving chunk that contains no newline byte has no effect at all (no delta, no other
signal) and changes nothing but the buffer, which becomes the old buffer followed by
the chunk's text.  When a later chunk then brings the rest of the line, its terminating
newline and possibly more text, that arrival dispatches the completed line (old buffer,
first chunk, rest) once, as the first of its lines, and retains only what follows the
last newline.  If the completed line is a frame whose `choices[0].delta.content` is the
non-empty text `t`, the first delta of that arrival is `t`, the others are those of the
lines behind it; when the chunk ends at the newline, the deltas of the arrival are
exactly `[t]` and the buffer is empty. -/
theorem C2_line_processed_only_when_complete (s : OpenRouterAPI) (hs : Reachable s)
    (hstop : s.m_shouldStop = false) (now : Int) (reply : QNetworkReply)
    (hchunk : (10 : UInt8) ∉ reply.readAll) :
    onChatReplyReadyRead (some reply) now s =
      ({ s with m_streamBuffer := s.m_streamBuffer ++ QString.fromUtf8 reply.readAll }, []) ∧
    ∀ (now2 : Int) (reply2 : QNetworkReply) (rest more : QString),
      QString.fromUtf8 reply2.readAll = rest ++ '\n' :: more → '\n' ∉ rest →
      (onChatReplyReadyRead (some reply2) now2 (onChatReplyReadyRead (some reply) now s).1 =
        processLines now2
          ((s.m_streamBuffer ++ QString.fromUtf8 reply.readAll ++ rest) ::
            (QString.split '\n' more).dropLast)
          { s with m_streamBuffer := (QString.split '\n' more).getLastD [] }) ∧
      ∀ (payload : QString) (doc : QJsonValue) (t : QString),
        QString.trimmed (s.m_streamBuffer ++ QString.fromUtf8 reply.readAll ++ rest)
          = "data: ".toList ++ payload →
        QJsonDocument.fromJson payload = some doc → HasDeltaContent doc t → t ≠ [] →
        deltas (onChatReplyReadyRead (some reply2) now2
          (onChatReplyReadyRead (some reply) now s).1).2 =
          t :: deltas (processLines now2 (QString.split '\n' more).dropLast
            (processStreamChunk now2 ("data: ".toList ++ payload)
              { s with m_streamBuffer := (QString.split '\n' more).getLastD [] }).1).2 ∧
        (more = [] →
          deltas (onChatReplyReadyRead (some reply2) now2
            (onChatReplyReadyRead (some reply) now s).1).2 = [t] ∧
          (onChatReplyReadyRead (some reply2) now2
            (onChatReplyReadyRead (some reply) now s).1).1.m_streamBuffer = []) := by
  have hb := reachable_buffer s hs
  have hc := newline_not_mem_fromUtf8 _ hchunk
  have h1 := onChatReplyReadyRead_no_newline reply now s hstop hb hc
  refine ⟨h1, ?_⟩
  intro now2 reply2 rest more h2 hr
  have hb2 : '\n' ∉ s.m_streamBuffer ++ QString.fromUtf8 reply.readAll := by
    simp only [List.mem_append, not_or]
    exact ⟨hb, hc⟩
  have h3 : onChatReplyReadyRead (some reply2) now2 (onChatReplyReadyRead (some reply) now s).1 =
      processLines now2
        ((s.m_streamBuffer ++ QString.fromUtf8 reply.readAll ++ rest) ::
          (QString.split '\n' more).dropLast)
        { s with m_streamBuffer := (QString.split '\n' more).getLastD [] } := by
    rw [h1]
    exact onChatReplyReadyRead_newline reply2 now2 _ rest more hstop hb2 h2 hr
  refine ⟨h3, ?_⟩
  intro payload doc t htrim hp hd ht
  have h4 : deltas (onChatReplyReadyRead (some reply2) now2
      (onChatReplyReadyRead (some reply) now s).1).2 =
      t :: deltas (processLines now2 (QString.split '\n' more).dropLast
        (processStreamChunk now2 ("data: ".toList ++ payload)
          { s with m_streamBuffer := (QString.split '\n' more).getLastD [] }).1).2 := by
    rw [h3, processLines_delta_line now2 _ payload doc t _ _ htrim hp hd ht, htrim]
    rfl
  refine ⟨h4, ?_⟩
  intro hm
  subst hm
  constructor
  · rw [h4]
    rfl
  · rw [h3, processLines_frame]
    rfl

theorem reachable_activeExample : Reachable activeExample :=
  Reachable.step 0 (.sendMessage [] 1) _
    (Reachable.step 0 (.setAPIKey "sk-test".toList) _ (Reachable.constructed []))

set_option maxRecDepth 1000000 in
/-- C2 (witness): the chunks `data: {"choices":[{"delta":{"content":"Hel` and then
`lo"}}]}` with its newline.  The first arrival emits nothing and only fills the buffer;
the second emits exactly the one delta `Hello` and empties the buffer. -/
theorem C2_witness_hello :
    Reachable activeExample ∧ activeExample.m_shouldStop = false ∧
    (10 : UInt8) ∉ QString.toUtf8 "data: \x7b\"choices\":[\x7b\"delta\":\x7b\"content\":\"Hel".toList ∧
    onChatReplyReadyRead (some ⟨1, .NoError, [],
        QString.toUtf8 "data: \x7b\"choices\":[\x7b\"delta\":\x7b\"content\":\"Hel".toList⟩) 0
        activeExample =
      ({ activeExample with m_streamBuffer := (activeExample.m_streamBuffer ++
          QString.fromUtf8 (QString.toUtf8
            "data: \x7b\"choices\":[\x7b\"delta\":\x7b\"content\":\"Hel".toList)) }, []) ∧
    deltas (onChatReplyReadyRead (some ⟨1, .NoError, [], QString.toUtf8 "lo\"\x7d\x7d]\x7d\n".toList⟩) 0
      (onChatReplyReadyRead (some ⟨1, .NoError, [],
        QString.toUtf8 "data: \x7b\"choices\":[\x7b\"delta\":\x7b\"content\":\"Hel".toList⟩) 0
        activeExample).1).2 = ["Hello".toList] ∧
    (onChatReplyReadyRead (some ⟨1, .NoError, [], QString.toUtf8 "lo\"\x7d\x7d]\x7d\n".toList⟩) 0
      (onChatReplyReadyRead (some ⟨1, .NoError, [],
        QString.toUtf8 "data: \x7b\"choices\":[\x7b\"delta\":\x7b\"content\":\"Hel".toList⟩) 0
        activeExample).1).1.m_streamBuffer = [] :=
  have h := C2_line_processed_only_when_complete activeExample reachable_activeExample rfl 0
    ⟨1, .NoError, [], QString.toUtf8 "data: \x7b\"choices\":[\x7b\"delta\":\x7b\"content\":\"Hel".toList⟩
    (by decide)
  have h2 := ((h.2 0 ⟨1, .NoError, [], QString.toUtf8 "lo\"\x7d\x7d]\x7d\n".toList⟩
    "lo\"\x7d\x7d]\x7d".toList [] (by decide) (by decide)).2
    "\x7b\"choices\":[\x7b\"delta\":\x7b\"content\":\"Hello\"\x7d\x7d]\x7d".toList
    (.object [("choices".toList, .array [.object [("delta".toList,
      .object [("content".toList, .string "Hello".toList)])]])])
    "Hello".toList (by decide) (by rfl)
    ⟨_, _, _, _, _, rfl, rfl, rfl, rfl, rfl⟩ (by decide)).2 rfl
  ⟨reachable_activeExample, rfl, by decide, h.1, h2.1, h2.2⟩

/-! ## C4: a malformed frame is skipped -/

set_option maxRecDepth 1000000 in
/-- C5 (counterexample): the line `  data: {"choices":[{"delta":{"content":"x"}}]}`
has two blanks before `data: `, so it does not begin with `data: `; the line loop trims
it before it looks at the prefix, and the delta `x` is emitted and counted. -/
theorem C5_counterexample_indented_data_line :
    QString.startsWith
      "  data: \x7b\"choices\":[\x7b\"delta\":\x7b\"content\":\"x\"\x7d\x7d]\x7d".toList
      "data: ".toList = false ∧
    deltas (onChatReplyReadyRead (some ⟨1, .NoError, [], QString.toUtf8
      "  data: \x7b\"choices\":[\x7b\"delta\":\x7b\"content\":\"x\"\x7d\x7d]\x7d\n".toList⟩) 0
      activeExample).2 = ["x".toList] ∧
    (onChatReplyReadyRead (some ⟨1, .NoError, [], QString.toUtf8
      "  data: \x7b\"choices\":[\x7b\"delta\":\x7b\"content\":\"x\"\x7d\x7d]\x7d\n".toList⟩) 0
      activeExample).1.m_tokenCount = activeExample.m_tokenCount + 1 := by
  decide

theorem processLines_ignored (now : Int) (lines : List QString) (s : OpenRouterAPI)
    (h : ∀ line ∈ lines, QString.startsWith (QString.trimmed line) "data: ".toList = false) :
    processLines now lines s = (s, []) := by
  induction lines with
  | nil => rfl
  | cons line rest ih =>
    have hrest := ih (fun l hl => h l (List.mem_cons_of_mem _ hl))
    by_cases hl : line = []
    · subst hl
      rw [processLines_cons_empty]
      exact hrest
    · rw [processLines_cons now line rest s hl,
        processStreamChunk_not_data now _ s (h line (List.mem_cons_self _ _))]
      simp only []
      rw [hrest]
      rfl

/-- C5 (amended): a line is ignored unless, with the whitespace at its two ends
removed, it begins with `data: `.  For every list of complete lines none of which,
once trimmed, begins with `data: `, the line loop has no effect (no delta, no error
signal, nothing else) and leaves the object, the token counters included, as it was;
and an arrival that brings one such line and its newline to an empty buffer, with no
stop requested, has no effect and changes nothing. -/
theorem C5_line_without_data_prefix_ignored (now : Int) (s : OpenRouterAPI)
    (lines : List QString)
    (h : ∀ line ∈ lines, QString.startsWith (QString.trimmed line) "data: ".toList = false) :
    processLines now lines s = (s, []) ∧
    ∀ (reply : QNetworkReply) (line : QString), line ∈ lines → '\n' ∉ line →
      QString.fromUtf8 reply.readAll = line ++ ['\n'] →
      s.m_shouldStop = false → s.m_streamBuffer = [] →
      onChatReplyReadyRead (some reply) now s = (s, []) := by
  refine ⟨processLines_ignored now lines s h, ?_⟩
  intro reply line hl hn hr hstop hbuf
  have hb : '\n' ∉ s.m_streamBuffer := by rw [hbuf]; exact List.not_mem_nil _
  rw [onChatReplyReadyRead_newline_last reply now s line hstop hb hr hn, hbuf, List.nil_append]
  have hs : { s with m_streamBuffer := [] } = s := by
    cases s
    simp only [OpenRouterAPI.mk.injEq, true_and, and_true] at hbuf ⊢
    exact hbuf.symm
  rw [hs]
  exact processLines_ignored now [line] s (fun l hl2 => by
    rw [List.mem_singleton] at hl2
    rw [hl2]
    exact h line hl)

set_option maxRecDepth 1000000 in
/-- C5 (witness): the lines `event: message`, `: keep-alive`, the empty line and
`data:{"choices":[]}` (no blank after the colon) are ignored; so is the arrival of
`event: message` with its newline. -/
theorem C5_witness_event_and_comment_lines :
    processLines 0 ["event: message".toList, ": keep-alive".toList, [],
        "data:\x7b\"choices\":[]\x7d".toList] activeExample = (activeExample, []) ∧
    onChatReplyReadyRead (some ⟨1, .NoError, [], QString.toUtf8 "event: message\n".toList⟩) 0
      activeExample = (activeExample, []) :=
  have h := C5_line_without_data_prefix_ignored 0 activeExample
    ["event: message".toList, ": keep-alive".toList, [], "data:\x7b\"choices\":[]\x7d".toList]
    (by decide)
  ⟨h.1, h.2 ⟨1, .NoError, [], QString.toUtf8 "event: message\n".toList⟩ "event: message".toList
    (by decide) (by decide) (by decide) rfl rfl⟩

/-! ## C6: the `[DONE]` frame -/

/-- C6: processing the frame `data: [DONE]` has no effect and changes nothing, in every
state: `processStreamChunk` returns the object as it was with no signal emitted (no
`streamReceived`, no `streamCompleted`, no `streamError`), so the active flag, the
token counter, the total-token counter and tokens-per-second keep their values; the
same holds for the line loop on this line, and for the arrival of the line with its
newline at an empty buffer while no stop is requested.  In particular
`isRequestActive` stays what it was: only `onChatReplyFinished` ends the session. -/
theorem C6_done_frame_no_action (now : Int) (s : OpenRouterAPI) (replyId : Nat) :
    processStreamChunk now "data: [DONE]".toList s = (s, []) ∧
    processLines now ["data: [DONE]".toList] s = (s, []) ∧
    onChatReplyReadyRead
      (some ⟨replyId, .NoError, [], QString.toUtf8 "data: [DONE]\n".toList⟩) now
      { s with m_shouldStop := false, m_streamBuffer := [] } =
      ({ s with m_shouldStop := false, m_streamBuffer := [] }, []) ∧
    (processStreamChunk now "data: [DONE]".toList s).1.isRequestActive = s.isRequestActive ∧
    signals (processStreamChunk now "data: [DONE]".toList s).2 = [] := by
  have h1 : ∀ s2 : OpenRouterAPI, processStreamChunk now "data: [DONE]".toList s2 = (s2, []) :=
    fun s2 => processStreamChunk_done now s2
  have h2 : ∀ s2 : OpenRouterAPI, processLines now ["data: [DONE]".toList] s2 = (s2, []) := by
    intro s2
    rw [processLines_single now _ s2 (by decide)]
    have e : QString.trimmed "data: [DONE]".toList = "data: [DONE]".toList := by decide
    rw [e]
    exact h1 s2
  refine ⟨h1 s, h2 s, ?_, ?_, ?_⟩
  · have e : QString.fromUtf8 (QString.toUtf8 "data: [DONE]\n".toList)
        = "data: [DONE]".toList ++ ['\n'] := by decide
    rw [onChatReplyReadyRead_newline_last _ now _ "data: [DONE]".toList rfl
      (List.not_mem_nil _) e (by decide)]
    exact h2 _
  · rw [h1 s]
  · rw [h1 s]
    rfl

/-! ## C7 and C8: the notifications of a cancelled and of a failed request -/

theorem arg_network_error (e : QString) :
    QString.arg "Network error: %1".toList e = "Network error: ".toList ++ e := by
  have h : QString.hasMarker '1' "Network error: %1".toList = true := by decide
  unfold QString.arg
  rw [if_pos h]
  simp [QString.replaceMarker]

theorem arg_request_failed (e : QString) :
    QString.arg "Request failed: %1".toList e = "Request failed: ".toList ++ e := by
  have h : QString.hasMarker '1' "Request failed: %1".toList = true := by decide
  unfold QString.arg
  rw [if_pos h]
  simp [QString.replaceMarker]

/-- C7 (evaluation at the failing input): in any state that holds the reply `replyId`
of a request in flight, `stopCurrentRequest` followed by the two signals of the aborted
reply, `errorOccurred(OperationCanceledError)` and `finished`, gives the consumer two
notifications: first `streamError` with the text `Network error: ` and the reply's
error string, emitted by `onNetworkError`, then `streamCompleted(false)`. -/
theorem C7_cancellation_reported_as_streamError (s : OpenRouterAPI) (replyId : Nat)
    (errorString : QString) (bytes : QByteArray) (now : Int) :
    signals (run
      [(now, .stopCurrentRequest),
       (now, .errorOccurred (some ⟨replyId, .OperationCanceledError, errorString, bytes⟩)),
       (now, .finished (some ⟨replyId, .OperationCanceledError, errorString, bytes⟩))]
      { s with m_requestActive := true, m_currentReply := some replyId }).2 =
      [.streamError ("Network error: ".toList ++ errorString), .streamCompleted false] := by
  simp only [run, step, stopCurrentRequest, onNetworkError, onChatReplyFinished,
    arg_network_error]
  simp [signals]

/-- C8 (evaluation at the failing input): in any state that holds the reply `replyId`
of a request in flight with no stop requested, a transport error (any error code but
`NoError` and `OperationCanceledError`) delivered as `errorOccurred` and then
`finished` gives the consumer two `streamError` notifications with the transport's
error string, `Network error: ...` from `onNetworkError` and `Request failed: ...`
from `onChatReplyFinished`, and then `streamCompleted(false)`. -/
theorem C8_transport_error_reported_twice (s : OpenRouterAPI) (replyId code : Nat)
    (errorString : QString) (bytes : QByteArray) (now : Int) :
    signals (run
      [(now, .errorOccurred (some ⟨replyId, .Other code, errorString, bytes⟩)),
       (now, .finished (some ⟨replyId, .Other code, errorString, bytes⟩))]
      { s with m_requestActive := true, m_shouldStop := false,
               m_currentReply := some replyId }).2 =
      [.streamError ("Network error: ".toList ++ errorString),
       .streamError ("Request failed: ".toList ++ errorString),
       .streamCompleted false] := by
  simp only [run, step, onNetworkError, onChatReplyFinished, arg_network_error,
    arg_request_failed]
  simp [signals]

/-! ## Lemmas on the signals and the stop flag of a session -/

theorem processChoices_signals (now : Int) (obj : QJsonObject) (s : OpenRouterAPI) :
    ∀ sig ∈ signals (processChoices now obj s).2, ∃ t, sig = .streamReceived t := by
  unfold processChoices
  simp only []
  split_ifs <;> intro sig h <;>
    (simp only [signals, List.mem_singleton, List.not_mem_nil] at h; try exact ⟨_, h⟩)

theorem processStreamChunk_signals (now : Int) (chunk : QString) (s : OpenRouterAPI) :
    ∀ sig ∈ signals (processStreamChunk now chunk s).2, ∃ t, sig = .streamReceived t := by
  unfold processStreamChunk
  simp only []
  split_ifs
  · intro sig h
    simp only [signals, List.not_mem_nil] at h
  · cases QJsonDocument.fromJson (QString.mid chunk 6) with
    | none =>
      intro sig h
      simp only [signals, List.not_mem_nil] at h
    | some doc => exact processChoices_signals now _ s
  · intro sig h
    simp only [signals, List.not_mem_nil] at h

theorem processLines_signals (now : Int) (lines : List QString) (s : OpenRouterAPI) :
    ∀ sig ∈ signals (processLines now lines s).2, ∃ t, sig = .streamReceived t := by
  induction lines generalizing s with
  | nil =>
    intro sig h
    simp only [processLines_nil, signals, List.not_mem_nil] at h
  | cons line rest ih =>
    by_cases hl : line = []
    · subst hl
      rw [processLines_cons_empty]
      exact ih s
    · rw [processLines_cons now line rest s hl]
      intro sig h
      simp only [signals_append, List.mem_append] at h
      rcases h with h | h
      · exact processStreamChunk_signals now _ s sig h
      · exact ih _ sig h

theorem onChatReplyReadyRead_signals (sender : Option QNetworkReply) (now : Int)
    (s : OpenRouterAPI) :
    ∀ sig ∈ signals (onChatReplyReadyRead sender now s).2, ∃ t, sig = .streamReceived t := by
  unfold onChatReplyReadyRead
  cases sender with
  | none =>
    intro sig h
    simp only [signals, List.not_mem_nil] at h
  | some reply =>
    simp only []
    split_ifs
    · intro sig h
      simp only [signals, List.not_mem_nil] at h
    · exact processLines_signals now _ _

theorem onNetworkError_signals (sender : Option QNetworkReply) (s : OpenRouterAPI) :
    ∀ sig ∈ signals (onNetworkError sender s).2, ∃ msg, sig = .streamError msg := by
  unfold onNetworkError
  cases sender with
  | none =>
    intro sig h
    simp only [signals, List.not_mem_nil] at h
  | some reply =>
    simp only []
    split_ifs <;> intro sig h <;>
      (simp only [signals, List.mem_singleton, List.not_mem_nil] at h; try exact ⟨_, h⟩)

theorem stopCurrentRequest_signals (s : OpenRouterAPI) :
    signals (stopCurrentRequest s).2 = [] := by
  unfold stopCurrentRequest
  split <;> rfl

theorem sessionBody_step_signals (now : Int) (ev : Event) (s : OpenRouterAPI)
    (h : ev.isSessionBody = true) :
    ∀ b, Signal.streamCompleted b ∉ signals (step now ev s).2 := by
  intro b hm
  cases ev with
  | readyRead sender =>
    obtain ⟨t, ht⟩ := onChatReplyReadyRead_signals sender now s _ hm
    exact Signal.noConfusion ht
  | stopCurrentRequest =>
    simp only [step, stopCurrentRequest_signals, List.not_mem_nil] at hm
  | errorOccurred sender =>
    obtain ⟨t, ht⟩ := onNetworkError_signals sender s _ hm
    exact Signal.noConfusion ht
  | _ => exact Bool.noConfusion h

theorem sessionBody_run_signals (body : List (Int × Event)) (s : OpenRouterAPI)
    (h : ∀ e ∈ body, e.2.isSessionBody = true) :
    ∀ b, Signal.streamCompleted b ∉ signals (run body s).2 := by
  induction body generalizing s with
  | nil =>
    intro b hm
    simp only [run, signals, List.not_mem_nil] at hm
  | cons e rest ih =>
    obtain ⟨now, ev⟩ := e
    intro b hm
    simp only [run, signals_append, List.mem_append] at hm
    rcases hm with hm | hm
    · exact sessionBody_step_signals now ev s (h (now, ev) (List.mem_cons_self _ _)) b hm
    · exact ih _ (fun e he => h e (List.mem_cons_of_mem _ he)) b hm

theorem sendMessage_signals (conversation : List Message) (now : Int) (newReply : Nat)
    (s : OpenRouterAPI) :
    ∀ b, Signal.streamCompleted b ∉ signals (sendMessage conversation now newReply s).2 := by
  intro b
  unfold sendMessage
  split_ifs <;> simp [signals]

theorem onChatReplyFinished_signals (reply : QNetworkReply) (now : Int) (s : OpenRouterAPI) :
    signals (onChatReplyFinished (some reply) now s).2 =
      (if ¬ (reply.error = .NoError ∧ s.m_shouldStop = false) ∧
          reply.error ≠ .OperationCanceledError then
        [Signal.streamError ("Request failed: ".toList ++ reply.errorString)] else []) ++
      [.streamCompleted (decide (reply.error = .NoError ∧ s.m_shouldStop = false))] := by
  unfold onChatReplyFinished
  simp only [arg_request_failed]
  by_cases h1 : reply.error = .NoError <;> by_cases h2 : s.m_shouldStop = true <;>
    by_cases h3 : reply.error = .OperationCanceledError <;>
    simp [h1, h2, h3, signals]

theorem sessionBody_step_shouldStop (now : Int) (ev : Event) (s : OpenRouterAPI)
    (h : ev.isSessionBody = true) :
    (step now ev s).1.m_shouldStop = true ↔
      s.m_shouldStop = true ∨ ev = .stopCurrentRequest := by
  cases ev with
  | readyRead sender =>
    simp only [step, onChatReplyReadyRead, reduceCtorEq, or_false]
    cases sender with
    | none => rfl
    | some reply =>
      simp only []
      split_ifs
      · rfl
      · rw [processLines_frame]
  | stopCurrentRequest =>
    simp only [step, stopCurrentRequest, or_true, iff_true]
    split <;> rfl
  | errorOccurred sender =>
    simp only [step, onNetworkError, reduceCtorEq, or_false]
    cases sender with
    | none => rfl
    | some reply =>
      simp only []
      split_ifs <;> rfl
  | _ => exact Bool.noConfusion h

theorem sessionBody_run_shouldStop (body : List (Int × Event)) (s : OpenRouterAPI)
    (h : ∀ e ∈ body, e.2.isSessionBody = true) :
    (run body s).1.m_shouldStop = true ↔
      s.m_shouldStop = true ∨ ∃ e ∈ body, e.2 = .stopCurrentRequest := by
  induction body generalizing s with
  | nil => simp [run]
  | cons e rest ih =>
    obtain ⟨now, ev⟩ := e
    simp only [run]
    rw [ih _ (fun e he => h e (List.mem_cons_of_mem _ he)),
      sessionBody_step_shouldStop now ev s (h (now, ev) (List.mem_cons_self _ _))]
    simp only [List.mem_cons, exists_eq_or_imp, or_assoc]

/-! ## C9: the terminal notification is last and unique -/

/-- C9: a session is an accepted `sendMessage` (API key set, no request active), then
any sequence of byte arrivals, `stopCurrentRequest` calls and transport error signals,
then the transport's `finished` signal.  The signals the consumer receives over the
whole session are some signals none of which is `streamCompleted`, followed by exactly
one `streamCompleted` as the very last signal: it is emitted exactly once, and no
`streamReceived` and no `streamError` comes after it. -/
theorem C9_streamCompleted_once_and_last (s : OpenRouterAPI) (conversation : List Message)
    (newReply : Nat) (t0 tf : Int) (body : List (Int × Event)) (reply : QNetworkReply)
    (hkey : s.m_apiKey ≠ []) (hidle : s.m_requestActive = false)
    (hbody : ∀ e ∈ body, e.2.isSessionBody = true) :
    (run [(t0, .sendMessage conversation newReply)] s).1.m_requestActive = true ∧
    ∃ (before : List Signal) (success : Bool),
      signals (run ((t0, .sendMessage conversation newReply) :: body ++
        [(tf, .finished (some reply))]) s).2 = before ++ [.streamCompleted success] ∧
      (∀ b, Signal.streamCompleted b ∉ before) ∧
      (signals (run ((t0, .sendMessage conversation newReply) :: body ++
        [(tf, .finished (some reply))]) s).2).count (.streamCompleted success) = 1 := by
  have hacc : (run [(t0, .sendMessage conversation newReply)] s).1.m_requestActive = true := by
    have hk : ¬ (s.m_apiKey.isEmpty = true) := by rw [List.isEmpty_iff]; exact hkey
    simp only [run, step, sendMessage, hk, hidle, if_false, Bool.false_eq_true]
  refine ⟨hacc, ?_⟩
  have hrun : signals (run ((t0, .sendMessage conversation newReply) :: body ++
      [(tf, .finished (some reply))]) s).2 =
      (signals (sendMessage conversation t0 newReply s).2 ++
        signals (run body (sendMessage conversation t0 newReply s).1).2 ++
        (if ¬ (reply.error = .NoError ∧
            (run body (sendMessage conversation t0 newReply s).1).1.m_shouldStop = false) ∧
            reply.error ≠ .OperationCanceledError then
          [Signal.streamError ("Request failed: ".toList ++ reply.errorString)] else [])) ++
      [.streamCompleted (decide (reply.error = .NoError ∧
        (run body (sendMessage conversation t0 newReply s).1).1.m_shouldStop = false))] := by
    rw [List.cons_append]
    simp only [run, step]
    rw [run_append]
    simp only [run, step, List.append_nil, signals_append, onChatReplyFinished_signals,
      List.append_assoc]
  have hbefore : ∀ b, Signal.streamCompleted b ∉
      (signals (sendMessage conversation t0 newReply s).2 ++
        signals (run body (sendMessage conversation t0 newReply s).1).2 ++
        (if ¬ (reply.error = .NoError ∧
            (run body (sendMessage conversation t0 newReply s).1).1.m_shouldStop = false) ∧
            reply.error ≠ .OperationCanceledError then
          [Signal.streamError ("Request failed: ".toList ++ reply.errorString)] else [])) := by
    intro b hm
    simp only [List.mem_append] at hm
    rcases hm with (hm | hm) | hm
    · exact sendMessage_signals conversation t0 newReply s b hm
    · exact sessionBody_run_signals body _ hbody b hm
    · split_ifs at hm
      · simp only [List.mem_singleton, reduceCtorEq] at hm
      · simp only [List.not_mem_nil] at hm
  refine ⟨_, _, hrun, hbefore, ?_⟩
  rw [hrun, List.count_append, List.count_eq_zero_of_not_mem (hbefore _)]
  simp

set_option maxRecDepth 1000000 in
/-- C9 (witness): a key is set, a request is sent, the frame
`data: {"choices":[{"delta":{"content":"Hi"}}]}` arrives, the transport finishes
without error: the consumer receives `streamReceived "Hi"` and then, last,
`streamCompleted(true)`. -/
theorem C9_witness_one_delta_then_completed :
    ({ OpenRouterAPI.initial with m_apiKey := "sk-test".toList }.m_apiKey ≠ [] ∧
      { OpenRouterAPI.initial with m_apiKey := "sk-test".toList }.m_requestActive = false) ∧
    signals (run ((0, .sendMessage [] 1) ::
      [(5000000, Event.readyRead (some ⟨1, .NoError, [], QString.toUtf8
        "data: \x7b\"choices\":[\x7b\"delta\":\x7b\"content\":\"Hi\"\x7d\x7d]\x7d\n".toList⟩))] ++
      [(9000000, .finished (some ⟨1, .NoError, [], []⟩))])
      { OpenRouterAPI.initial with m_apiKey := "sk-test".toList }).2 =
      [.streamReceived "Hi".toList, .streamCompleted true] ∧
    ∃ (before : List Signal) (success : Bool),
      signals (run ((0, .sendMessage [] 1) ::
        [(5000000, Event.readyRead (some ⟨1, .NoError, [], QString.toUtf8
          "data: \x7b\"choices\":[\x7b\"delta\":\x7b\"content\":\"Hi\"\x7d\x7d]\x7d\n".toList⟩))] ++
        [(9000000, .finished (some ⟨1, .NoError, [], []⟩))])
        { OpenRouterAPI.initial with m_apiKey := "sk-test".toList }).2 =
        before ++ [.streamCompleted success] ∧
      (∀ b, Signal.streamCompleted b ∉ before) ∧
      (signals (run ((0, .sendMessage [] 1) ::
        [(5000000, Event.readyRead (some ⟨1, .NoError, [], QString.toUtf8
          "data: \x7b\"choices\":[\x7b\"delta\":\x7b\"content\":\"Hi\"\x7d\x7d]\x7d\n".toList⟩))] ++
        [(9000000, .finished (some ⟨1, .NoError, [], []⟩))])
        { OpenRouterAPI.initial with m_apiKey := "sk-test".toList }).2).count
          (.streamCompleted success) = 1 :=
  ⟨⟨by decide, rfl⟩, by decide,
    (C9_streamCompleted_once_and_last { OpenRouterAPI.initial with m_apiKey := "sk-test".toList }
      [] 1 0 9000000
      [(5000000, Event.readyRead (some ⟨1, .NoError, [], QString.toUtf8
        "data: \x7b\"choices\":[\x7b\"delta\":\x7b\"content\":\"Hi\"\x7d\x7d]\x7d\n".toList⟩))]
      ⟨1, .NoError, [], []⟩ (by decide) rfl (by decide)).2⟩

/-! ## C10: when a session ends as completed -/

theorem sendMessage_accepted (conversation : List Message) (now : Int) (newReply : Nat)
    (s : OpenRouterAPI) (hkey : s.m_apiKey ≠ []) (hidle : s.m_requestActive = false) :
    (sendMessage conversation now newReply s).1 =
      { s with
        m_requestActive := true
        m_shouldStop := false
        m_streamStartTime := now
        m_tokenCount := 0
        m_currentReply := some newReply } := by
  have hk : ¬ (s.m_apiKey.isEmpty = true) := by rw [List.isEmpty_iff]; exact hkey
  simp only [sendMessage, hk, hidle, if_false, Bool.false_eq_true]

/-- C10: in a session opened by an accepted `sendMessage` and continued by any byte
arrivals, `stopCurrentRequest` calls and transport error signals, `onChatReplyFinished`
emits `streamCompleted(true)` if and only if the reply's error is `NoError` and
`stopCurrentRequest` was not called since the send.  In that case `streamCompleted(true)`
is the only signal of the handler, so no `streamError` is emitted.  In every case the
object is idle afterwards: `isRequestActive` is false and no reply is held. -/
theorem C10_completed_iff_no_error_and_not_stopped (s : OpenRouterAPI)
    (conversation : List Message) (newReply : Nat) (t0 tf : Int) (body : List (Int × Event))
    (reply : QNetworkReply)
    (hkey : s.m_apiKey ≠ []) (hidle : s.m_requestActive = false)
    (hbody : ∀ e ∈ body, e.2.isSessionBody = true) :
    (Signal.streamCompleted true ∈ signals (onChatReplyFinished (some reply) tf
        (run ((t0, .sendMessage conversation newReply) :: body) s).1).2 ↔
      reply.error = .NoError ∧ ∀ e ∈ body, e.2 ≠ .stopCurrentRequest) ∧
    (Signal.streamCompleted true ∈ signals (onChatReplyFinished (some reply) tf
        (run ((t0, .sendMessage conversation newReply) :: body) s).1).2 →
      signals (onChatReplyFinished (some reply) tf
        (run ((t0, .sendMessage conversation newReply) :: body) s).1).2
        = [.streamCompleted true]) ∧
    (onChatReplyFinished (some reply) tf
      (run ((t0, .sendMessage conversation newReply) :: body) s).1).1.isRequestActive = false ∧
    (onChatReplyFinished (some reply) tf
      (run ((t0, .sendMessage conversation newReply) :: body) s).1).1.m_currentReply = none := by
  have hstop : (run ((t0, .sendMessage conversation newReply) :: body) s).1.m_shouldStop = true ↔
      ∃ e ∈ body, e.2 = .stopCurrentRequest := by
    simp only [run, step]
    rw [sessionBody_run_shouldStop body _ hbody,
      sendMessage_accepted conversation t0 newReply s hkey hidle]
    simp
  have hiff : Signal.streamCompleted true ∈ signals (onChatReplyFinished (some reply) tf
        (run ((t0, .sendMessage conversation newReply) :: body) s).1).2 ↔
      reply.error = .NoError ∧
        (run ((t0, .sendMessage conversation newReply) :: body) s).1.m_shouldStop = false := by
    rw [onChatReplyFinished_signals]
    split_ifs <;> simp
  refine ⟨?_, ?_, ?_, ?_⟩
  · rw [hiff]
    constructor
    · rintro ⟨h1, h2⟩
      refine ⟨h1, fun e he hs => ?_⟩
      have := hstop.mpr ⟨e, he, hs⟩
      rw [h2] at this
      exact Bool.noConfusion this
    · rintro ⟨h1, h2⟩
      refine ⟨h1, ?_⟩
      cases hv : (run ((t0, .sendMessage conversation newReply) :: body) s).1.m_shouldStop with
      | false => rfl
      | true =>
        obtain ⟨e, he, hs⟩ := hstop.mp hv
        exact absurd hs (h2 e he)
  · intro hm
    obtain ⟨h1, h2⟩ := hiff.mp hm
    rw [onChatReplyFinished_signals]
    simp [h1, h2]
  · unfold onChatReplyFinished
    simp only [OpenRouterAPI.isRequestActive]
    rw [updateTokenStats_frame]
  · rfl

set_option maxRecDepth 1000000 in
/-- C10 (witness): a key is set, a request is sent, one frame arrives and the transport
finishes without error and without a stop: `onChatReplyFinished` emits exactly
`streamCompleted(true)` and the object is idle.  With a `stopCurrentRequest` in the
session the same `finished` signal gives `streamCompleted(false)`, after a
`streamError`. -/
theorem C10_witness_completed_and_stopped :
    ({ OpenRouterAPI.initial with m_apiKey := "sk-test".toList }.m_apiKey ≠ [] ∧
      { OpenRouterAPI.initial with m_apiKey := "sk-test".toList }.m_requestActive = false) ∧
    signals (onChatReplyFinished (some ⟨1, .NoError, [], []⟩) 9000000
      (run ((0, .sendMessage [] 1) ::
        [(5000000, Event.readyRead (some ⟨1, .NoError, [], QString.toUtf8
          "data: \x7b\"choices\":[\x7b\"delta\":\x7b\"content\":\"Hi\"\x7d\x7d]\x7d\n".toList⟩))])
        { OpenRouterAPI.initial with m_apiKey := "sk-test".toList }).1).2
      = [.streamCompleted true] ∧
    (onChatReplyFinished (some ⟨1, .NoError, [], []⟩) 9000000
      (run ((0, .sendMessage [] 1) ::
        [(5000000, Event.readyRead (some ⟨1, .NoError, [], QString.toUtf8
          "data: \x7b\"choices\":[\x7b\"delta\":\x7b\"content\":\"Hi\"\x7d\x7d]\x7d\n".toList⟩))])
        { OpenRouterAPI.initial with m_apiKey := "sk-test".toList }).1).1.isRequestActive
      = false ∧
    signals (onChatReplyFinished (some ⟨1, .NoError, [], []⟩) 9000000
      (run ((0, .sendMessage [] 1) :: [(5000000, Event.stopCurrentRequest)])
        { OpenRouterAPI.initial with m_apiKey := "sk-test".toList }).1).2
      = [.streamError "Request failed: ".toList, .streamCompleted false] :=
  have h := C10_completed_iff_no_error_and_not_stopped
    { OpenRouterAPI.initial with m_apiKey := "sk-test".toList } [] 1 0 9000000
    [(5000000, Event.readyRead (some ⟨1, .NoError, [], QString.toUtf8
      "data: \x7b\"choices\":[\x7b\"delta\":\x7b\"content\":\"Hi\"\x7d\x7d]\x7d\n".toList⟩))]
    ⟨1, .NoError, [], []⟩ (by decide) rfl (by decide)
  ⟨⟨by decide, rfl⟩, h.2.1 (h.1.mpr ⟨rfl, by
      intro e he
      rw [List.mem_singleton] at he
      rw [he]
      exact fun hs => Event.noConfusion hs⟩), h.2.2.1, by decide⟩

/-! ## C11: a send while a request is active -/

theorem sendMessage_active (conversation : List Message) (now : Int) (newReply : Nat)
    (s : OpenRouterAPI) (hkey : s.m_apiKey ≠ []) (hactive : s.m_requestActive = true) :
    sendMessage conversation now newReply s =
      (s, [.qWarning "Request already in progress".toList]) := by
  have hk : ¬ (s.m_apiKey.isEmpty = true) := by rw [List.isEmpty_iff]; exact hkey
  simp only [sendMessage, hk, hactive, if_false, if_true, Bool.false_eq_true]

/-- C11: in every state with a request in flight (`m_requestActive` true) and a
non-empty API key, and for every conversation, `sendMessage` only writes the log line
`Request already in progress`: no request is posted, no call into the network stack is
made, no signal is emitted, and the object is exactly what it was, so the line buffer,
the token counter, the start timestamp, the stop flag, the active flag and the reply
handle keep their values. -/
theorem C11_send_while_active_changes_nothing (conversation : List Message) (now : Int)
    (newReply : Nat) (s : OpenRouterAPI) (hkey : s.m_apiKey ≠ [])
    (hactive : s.m_requestActive = true) :
    (sendMessage conversation now newReply s).1 = s ∧
    requests (sendMessage conversation now newReply s).2 = [] ∧
    transportCalls (sendMessage conversation now newReply s).2 = 0 ∧
    (sendMessage conversation now newReply s).1.m_streamBuffer = s.m_streamBuffer ∧
    (sendMessage conversation now newReply s).1.m_tokenCount = s.m_tokenCount ∧
    (sendMessage conversation now newReply s).1.m_streamStartTime = s.m_streamStartTime ∧
    (sendMessage conversation now newReply s).1.m_shouldStop = s.m_shouldStop ∧
    (sendMessage conversation now newReply s).1.m_requestActive = s.m_requestActive ∧
    (sendMessage conversation now newReply s).1.m_currentReply = s.m_currentReply := by
  rw [sendMessage_active conversation now newReply s hkey hactive]
  exact ⟨rfl, rfl, rfl, rfl, rfl, rfl, rfl, rfl, rfl⟩

/-- C11 (witness): the running example has the key `sk-test` and the request of reply 1
in flight; a send at a later clock reading, with reply 2 on offer, changes nothing and
posts nothing. -/
theorem C11_witness_send_during_active_example :
    (activeExample.m_apiKey ≠ [] ∧ activeExample.m_requestActive = true) ∧
    (sendMessage [] 7000000 2 activeExample).1 = activeExample ∧
    requests (sendMessage [] 7000000 2 activeExample).2 = [] ∧
    transportCalls (sendMessage [] 7000000 2 activeExample).2 = 0 :=
  have h := C11_send_while_active_changes_nothing [] 7000000 2 activeExample (by decide) rfl
  ⟨⟨by decide, rfl⟩, h.1, h.2.1, h.2.2.1⟩

/-! ## C12: one request at a time -/

set_option maxRecDepth 1000000 in
/-- C12 (evaluation at the failing input): a key is set and a request is sent (reply
1); the transport reports an error of reply 1, and before the `finished` signal of
reply 1 is delivered `sendMessage` is called again.  `onNetworkError` has already
cleared `m_requestActive`, so the second send is accepted: a second request is posted
(two posts in all) and `m_currentReply` now is reply 2, while reply 1 is still
outstanding.  When the `finished` signal of reply 1 then arrives, it clears
`m_requestActive` and `m_currentReply` although the request of reply 2 is in flight,
and a third send is accepted as well. -/
theorem C12_send_accepted_between_error_and_finished :
    (requests (run
      [(0, .setAPIKey "sk-test".toList), (0, .sendMessage [] 1),
       (3000000, .errorOccurred (some ⟨1, .Other 1, "Connection refused".toList, []⟩)),
       (4000000, .sendMessage [] 2)] OpenRouterAPI.initial).2).length = 2 ∧
    (run
      [(0, .setAPIKey "sk-test".toList), (0, .sendMessage [] 1),
       (3000000, .errorOccurred (some ⟨1, .Other 1, "Connection refused".toList, []⟩)),
       (4000000, .sendMessage [] 2)] OpenRouterAPI.initial).1.m_currentReply = some 2 ∧
    (run
      [(0, .setAPIKey "sk-test".toList), (0, .sendMessage [] 1),
       (3000000, .errorOccurred (some ⟨1, .Other 1, "Connection refused".toList, []⟩)),
       (4000000, .sendMessage [] 2),
       (5000000, .finished (some ⟨1, .Other 1, "Connection refused".toList, []⟩))]
      OpenRouterAPI.initial).1.m_requestActive = false ∧
    (run
      [(0, .setAPIKey "sk-test".toList), (0, .sendMessage [] 1),
       (3000000, .errorOccurred (some ⟨1, .Other 1, "Connection refused".toList, []⟩)),
       (4000000, .sendMessage [] 2),
       (5000000, .finished (some ⟨1, .Other 1, "Connection refused".toList, []⟩))]
      OpenRouterAPI.initial).1.m_currentReply = none ∧
    (requests (run
      [(0, .setAPIKey "sk-test".toList), (0, .sendMessage [] 1),
       (3000000, .errorOccurred (some ⟨1, .Other 1, "Connection refused".toList, []⟩)),
       (4000000, .sendMessage [] 2),
       (5000000, .finished (some ⟨1, .Other 1, "Connection refused".toList, []⟩)),
       (6000000, .sendMessage [] 3)] OpenRouterAPI.initial).2).length = 3 := by
  decide

/-! ## C13: what a rejected send tells the caller -/

set_option maxRecDepth 1000000 in
/-- C13 (evaluation at the failing input): in the running example (key `sk-test`, the
request of reply 1 in flight) `sendMessage` is rejected and emits no signal at all: the
caller is told nothing.  The same call with the key removed emits
`streamError("API key not configured")`. -/
theorem C13_rejected_send_while_active_emits_no_signal :
    (sendMessage [] 7000000 2 activeExample).1 = activeExample ∧
    signals (sendMessage [] 7000000 2 activeExample).2 = [] ∧
    signals (sendMessage [] 7000000 2 { activeExample with m_apiKey := [] }).2 =
      [.streamError "API key not configured".toList] := by
  decide

/-! ## C14: a send without an API key -/

theorem sendMessage_no_key (conversation : List Message) (now : Int) (newReply : Nat)
    (s : OpenRouterAPI) (hkey : s.m_apiKey = []) :
    sendMessage conversation now newReply s =
      (s, [.emit (.streamError "API key not configured".toList)]) := by
  have hk : s.m_apiKey.isEmpty = true := by rw [List.isEmpty_iff]; exact hkey
  simp only [sendMessage, hk, if_true]

/-- C14: in every state whose API key is empty, and for every conversation,
`sendMessage` has exactly one effect, the signal
`streamError("API key not configured")`: no request is posted, no call into the network
stack is made, and the object is exactly what it was, so the active flag, the stop
flag, the token counter, the buffer and the reply handle keep their values. -/
theorem C14_send_without_key_fails_synchronously (conversation : List Message) (now : Int)
    (newReply : Nat) (s : OpenRouterAPI) (hkey : s.m_apiKey = []) :
    (sendMessage conversation now newReply s).2 =
      [.emit (.streamError "API key not configured".toList)] ∧
    signals (sendMessage conversation now newReply s).2 =
      [.streamError "API key not configured".toList] ∧
    requests (sendMessage conversation now newReply s).2 = [] ∧
    transportCalls (sendMessage conversation now newReply s).2 = 0 ∧
    (sendMessage conversation now newReply s).1 = s ∧
    (sendMessage conversation now newReply s).1.m_requestActive = s.m_requestActive ∧
    (sendMessage conversation now newReply s).1.m_shouldStop = s.m_shouldStop ∧
    (sendMessage conversation now newReply s).1.m_tokenCount = s.m_tokenCount ∧
    (sendMessage conversation now newReply s).1.m_streamBuffer = s.m_streamBuffer ∧
    (sendMessage conversation now newReply s).1.m_currentReply = s.m_currentReply := by
  rw [sendMessage_no_key conversation now newReply s hkey]
  exact ⟨rfl, rfl, rfl, rfl, rfl, rfl, rfl, rfl, rfl, rfl⟩

/-- C14 (witness): the freshly constructed object has no API key; a send emits the one
`streamError` and posts nothing.  The same holds when a request is in flight and the
key has been removed. -/
theorem C14_witness_send_on_fresh_object :
    OpenRouterAPI.initial.m_apiKey = [] ∧
    signals (sendMessage [] 0 1 OpenRouterAPI.initial).2 =
      [.streamError "API key not configured".toList] ∧
    transportCalls (sendMessage [] 0 1 OpenRouterAPI.initial).2 = 0 ∧
    (sendMessage [] 0 1 OpenRouterAPI.initial).1 = OpenRouterAPI.initial ∧
    (sendMessage [] 0 2 { activeExample with m_apiKey := [] }).1 =
      { activeExample with m_apiKey := [] } :=
  have h := C14_send_without_key_fails_synchronously [] 0 1 OpenRouterAPI.initial rfl
  have h2 := C14_send_without_key_fails_synchronously [] 0 2
    { activeExample with m_apiKey := [] } rfl
  ⟨rfl, h.2.1, h.2.2.2.1, h.2.2.2.2.1, h2.2.2.2.2.1⟩

/-! ## C15: bytes that arrive after a stop request -/

theorem step_keeps_shouldStop (now : Int) (ev : Event) (s : OpenRouterAPI)
    (hev : ev.isSendMessage = false) (hs : s.m_shouldStop = true) :
    (step now ev s).1.m_shouldStop = true := by
  cases ev with
  | setAPIKey apiKey => exact hs
  | setModel modelId => exact hs
  | setBaseURL url => exact hs
  | sendMessage conversation newReply => exact Bool.noConfusion hev
  | stopCurrentRequest =>
    simp only [step, stopCurrentRequest]
    split <;> rfl
  | readyRead sender =>
    cases sender with
    | none => exact hs
    | some reply => simp only [step, onChatReplyReadyRead, hs, if_true]
  | errorOccurred sender =>
    cases sender with
    | none => exact hs
    | some reply =>
      simp only [step, onNetworkError]
      split_ifs <;> exact hs
  | finished sender =>
    cases sender with
    | none => exact hs
    | some reply =>
      simp only [step, onChatReplyFinished]
      rw [updateTokenStats_frame]
      exact hs
  | modelsFinished sender =>
    simp only [step]
    rw [onModelsReplyFinished_frame]
    exact hs

theorem run_keeps_shouldStop (evs : List (Int × Event)) (s : OpenRouterAPI)
    (hevs : ∀ e ∈ evs, e.2.isSendMessage = false) (hs : s.m_shouldStop = true) :
    (run evs s).1.m_shouldStop = true := by
  induction evs generalizing s with
  | nil => exact hs
  | cons e rest ih =>
    obtain ⟨now, ev⟩ := e
    simp only [run]
    exact ih _ (fun e he => hevs e (List.mem_cons_of_mem _ he))
      (step_keeps_shouldStop now ev s (hevs (now, ev) (List.mem_cons_self _ _)) hs)

theorem stopCurrentRequest_shouldStop (s : OpenRouterAPI) :
    (stopCurrentRequest s).1.m_shouldStop = true := by
  unfold stopCurrentRequest
  split <;> rfl

theorem onChatReplyReadyRead_stopped (sender : Option QNetworkReply) (now : Int)
    (s : OpenRouterAPI) (hs : s.m_shouldStop = true) :
    onChatReplyReadyRead sender now s = (s, []) := by
  cases sender with
  | none => rfl
  | some reply => simp only [onChatReplyReadyRead, hs, if_true]

/-- C15: `stopCurrentRequest` is called in any state, and after it any events happen
that are not a new `sendMessage` (further arrivals, further stops, transport errors,
the `finished` signal).  Every byte arrival after that, whatever the bytes, has no
effect at all and leaves the object exactly as it was: no delta is emitted, and the
line buffer, the token counter, the total-token counter and tokens-per-second keep
their values. -/
theorem C15_bytes_after_stop_discarded (s : OpenRouterAPI) (later : List (Int × Event))
    (hlater : ∀ e ∈ later, e.2.isSendMessage = false) (sender : Option QNetworkReply)
    (now : Int) :
    onChatReplyReadyRead sender now (run later (stopCurrentRequest s).1).1 =
      ((run later (stopCurrentRequest s).1).1, []) ∧
    deltas (onChatReplyReadyRead sender now (run later (stopCurrentRequest s).1).1).2 = [] ∧
    (onChatReplyReadyRead sender now (run later (stopCurrentRequest s).1).1).1.m_streamBuffer =
      (run later (stopCurrentRequest s).1).1.m_streamBuffer ∧
    (onChatReplyReadyRead sender now (run later (stopCurrentRequest s).1).1).1.m_tokenCount =
      (run later (stopCurrentRequest s).1).1.m_tokenCount ∧
    (onChatReplyReadyRead sender now (run later (stopCurrentRequest s).1).1).1.m_totalTokensUsed =
      (run later (stopCurrentRequest s).1).1.m_totalTokensUsed ∧
    (onChatReplyReadyRead sender now (run later (stopCurrentRequest s).1).1).1.m_tokensPerSecond =
      (run later (stopCurrentRequest s).1).1.m_tokensPerSecond := by
  rw [onChatReplyReadyRead_stopped sender now _
    (run_keeps_shouldStop later _ hlater (stopCurrentRequest_shouldStop s))]
  exact ⟨rfl, rfl, rfl, rfl, rfl, rfl⟩

set_option maxRecDepth 1000000 in
/-- C15 (witness): in the running example the caller stops the request; the frame
`data: {"choices":[{"delta":{"content":"late"}}]}` that arrives afterwards, also after
a first discarded arrival, emits nothing and is not buffered.  Without the stop the
same frame emits the delta `late`. -/
theorem C15_witness_frame_after_stop :
    (∀ e ∈ [((6000000 : Int), Event.readyRead (some ⟨1, .NoError, [],
        QString.toUtf8 "data: ".toList⟩))], e.2.isSendMessage = false) ∧
    onChatReplyReadyRead (some ⟨1, .NoError, [], QString.toUtf8
        "data: \x7b\"choices\":[\x7b\"delta\":\x7b\"content\":\"late\"\x7d\x7d]\x7d\n".toList⟩)
        7000000
        (run [(6000000, Event.readyRead (some ⟨1, .NoError, [],
          QString.toUtf8 "data: ".toList⟩))] (stopCurrentRequest activeExample).1).1 =
      ((run [(6000000, Event.readyRead (some ⟨1, .NoError, [],
          QString.toUtf8 "data: ".toList⟩))] (stopCurrentRequest activeExample).1).1, []) ∧
    (run [(6000000, Event.readyRead (some ⟨1, .NoError, [],
      QString.toUtf8 "data: ".toList⟩))] (stopCurrentRequest activeExample).1).1.m_streamBuffer
      = [] ∧
    deltas (onChatReplyReadyRead (some ⟨1, .NoError, [], QString.toUtf8
        "data: \x7b\"choices\":[\x7b\"delta\":\x7b\"content\":\"late\"\x7d\x7d]\x7d\n".toList⟩)
        7000000 activeExample).2 = ["late".toList] :=
  ⟨by decide,
    (C15_bytes_after_stop_discarded activeExample
      [(6000000, Event.readyRead (some ⟨1, .NoError, [], QString.toUtf8 "data: ".toList⟩))]
      (by decide)
      (some ⟨1, .NoError, [], QString.toUtf8
        "data: \x7b\"choices\":[\x7b\"delta\":\x7b\"content\":\"late\"\x7d\x7d]\x7d\n".toList⟩)
      7000000).1,
    by decide, by decide⟩

/-! ## C16: a stop when no request is in flight -/

/-- C16 (counterexample): the freshly constructed object is idle (no request active,
no reply held) and its stop flag is false; `stopCurrentRequest` sets the flag. -/
theorem C16_counterexample_idle_stop_sets_flag :
    OpenRouterAPI.initial.m_requestActive = false ∧
    OpenRouterAPI.initial.m_currentReply = none ∧
    OpenRouterAPI.initial.m_shouldStop = false ∧
    (stopCurrentRequest OpenRouterAPI.initial).1.m_shouldStop = true ∧
    (stopCurrentRequest OpenRouterAPI.initial).1 ≠ OpenRouterAPI.initial := by
  decide

/-- C16 (amended): when no reply is held (the object is idle or a request has ended),
`stopCurrentRequest` has no effect on the outside, no signal and no call into the
network stack, and leaves every field unchanged except the stop flag, which it sets.
A second call changes nothing more.  The flag set in this way has no consequence for
the next session: an accepted `sendMessage` (key set, no request active) after the stop
gives the same object and the same effects as without the stop. -/
theorem C16_stop_without_reply_only_sets_flag (s : OpenRouterAPI)
    (hreply : s.m_currentReply = none) :
    stopCurrentRequest s = ({ s with m_shouldStop := true }, []) ∧
    signals (stopCurrentRequest s).2 = [] ∧
    transportCalls (stopCurrentRequest s).2 = 0 ∧
    stopCurrentRequest (stopCurrentRequest s).1 = stopCurrentRequest s ∧
    ∀ (conversation : List Message) (now : Int) (newReply : Nat),
      s.m_apiKey ≠ [] → s.m_requestActive = false →
      sendMessage conversation now newReply (stopCurrentRequest s).1 =
        sendMessage conversation now newReply s := by
  have h : stopCurrentRequest s = ({ s with m_shouldStop := true }, []) := by
    simp only [stopCurrentRequest, hreply]
  refine ⟨h, ?_, ?_, ?_, ?_⟩
  · rw [h]; rfl
  · rw [h]; rfl
  · rw [h]
    simp only [stopCurrentRequest, hreply]
  · intro conversation now newReply hkey hidle
    have hk : ¬ (s.m_apiKey.isEmpty = true) := by rw [List.isEmpty_iff]; exact hkey
    rw [h]
    simp only [sendMessage, hk, hidle, if_false, Bool.false_eq_true]
    rfl

/-- C16 (witness): on the object with the key `sk-test` and nothing in flight, a stop
emits nothing, calls nothing and only sets the flag; the send that follows is the send
without the stop. -/
theorem C16_witness_stop_on_idle_object_with_key :
    { OpenRouterAPI.initial with m_apiKey := "sk-test".toList }.m_currentReply = none ∧
    stopCurrentRequest { OpenRouterAPI.initial with m_apiKey := "sk-test".toList } =
      ({ OpenRouterAPI.initial with m_apiKey := "sk-test".toList, m_shouldStop := true }, []) ∧
    transportCalls
      (stopCurrentRequest { OpenRouterAPI.initial with m_apiKey := "sk-test".toList }).2 = 0 ∧
    sendMessage [] 0 1
      (stopCurrentRequest { OpenRouterAPI.initial with m_apiKey := "sk-test".toList }).1 =
      sendMessage [] 0 1 { OpenRouterAPI.initial with m_apiKey := "sk-test".toList } :=
  have h := C16_stop_without_reply_only_sets_flag
    { OpenRouterAPI.initial with m_apiKey := "sk-test".toList } rfl
  ⟨rfl, h.1, h.2.2.1, h.2.2.2.2 [] 0 1 (by decide) rfl⟩

/-! ## Lemmas on the request payload -/

theorem replaceMarker_append (marker : Char) (a x rest : QString) (h : '%' ∉ x) :
    QString.replaceMarker marker a (x ++ rest) = x ++ QString.replaceMarker marker a rest := by
  induction x with
  | nil => rfl
  | cons c x ih =>
    have hc : ¬ c = '%' := fun e => h (by simp [e])
    have hx : '%' ∉ x := fun e => h (by simp [e])
    cases hxr : x ++ rest with
    | nil =>
      have h1 : x = [] := (List.append_eq_nil.mp hxr).1
      have h2 : rest = [] := (List.append_eq_nil.mp hxr).2
      subst h1 h2
      rfl
    | cons d r =>
      have e : (c :: x) ++ rest = c :: d :: r := by rw [List.cons_append, hxr]
      rw [e]
      simp only [QString.replaceMarker, hc, false_and, if_false]
      rw [← hxr, ih hx, List.cons_append]

theorem hasMarker_append (marker : Char) (x rest : QString) (h : '%' ∉ x) :
    QString.hasMarker marker (x ++ rest) = QString.hasMarker marker rest := by
  induction x with
  | nil => rfl
  | cons c x ih =>
    have hc : (c == '%') = false := by simpa using fun e => h (by simp [e])
    have hx : '%' ∉ x := fun e => h (by simp [e])
    cases hxr : x ++ rest with
    | nil =>
      have h1 : x = [] := (List.append_eq_nil.mp hxr).1
      have h2 : rest = [] := (List.append_eq_nil.mp hxr).2
      subst h1 h2
      rfl
    | cons d r =>
      have e : (c :: x) ++ rest = c :: d :: r := by rw [List.cons_append, hxr]
      rw [e]
      simp only [QString.hasMarker, hc, Bool.false_and, Bool.false_or]
      rw [← hxr, ih hx]

theorem replaceMarker_marker (marker : Char) (a rest : QString) :
    QString.replaceMarker marker a ('%' :: marker :: rest) =
      a ++ QString.replaceMarker marker a rest := by
  simp [QString.replaceMarker]

theorem replaceMarker_of_no_marker (marker : Char) (a p : QString)
    (h : QString.hasMarker marker p = false) : QString.replaceMarker marker a p = p := by
  induction p with
  | nil => rfl
  | cons c p ih =>
    cases p with
    | nil => rfl
    | cons d r =>
      simp only [QString.hasMarker, Bool.or_eq_false_iff, Bool.and_eq_false_imp, beq_iff_eq,
        beq_eq_false_iff_ne] at h
      have hn : ¬ (c = '%' ∧ d = marker) := fun hh => h.1 hh.1 hh.2
      simp only [QString.replaceMarker, hn, if_false]
      rw [ih h.2]

/-- The data URI that the two chained `arg` calls build, for a MIME type without the
character `%`. -/
theorem arg_data_uri (mime b64 : QString) (h : '%' ∉ mime) :
    QString.arg (QString.arg "data:%1;base64,%2".toList mime) b64 =
      "data:".toList ++ mime ++ ";base64,".toList ++ b64 := by
  have h1 : QString.hasMarker '1' "data:%1;base64,%2".toList = true := by decide
  have e1 : QString.arg "data:%1;base64,%2".toList mime =
      "data:".toList ++ (mime ++ ";base64,%2".toList) := by
    unfold QString.arg
    rw [if_pos h1]
    have e0 : "data:%1;base64,%2".toList =
        "data:".toList ++ ('%' :: '1' :: ";base64,%2".toList) := by decide
    rw [e0, replaceMarker_append _ _ _ _ (by decide), replaceMarker_marker,
      replaceMarker_of_no_marker '1' mime ";base64,%2".toList (by decide)]
  have hd : '%' ∉ "data:".toList ++ mime := by
    intro hm
    rcases List.mem_append.mp hm with hm | hm
    · exact absurd hm (by decide)
    · exact h hm
  have hs : '%' ∉ "data:".toList ++ mime ++ ";base64,".toList := by
    intro hm
    rcases List.mem_append.mp hm with hm | hm
    · exact hd hm
    · exact absurd hm (by decide)
  have e2 : "data:".toList ++ (mime ++ ";base64,%2".toList) =
      ("data:".toList ++ mime ++ ";base64,".toList) ++ ['%', '2'] := by
    have e3 : ";base64,%2".toList = ";base64,".toList ++ ['%', '2'] := by decide
    rw [e3]
    simp only [List.append_assoc]
  rw [e1, e2]
  unfold QString.arg
  have h4 : QString.hasMarker '1' ("data:".toList ++ mime ++ ";base64,".toList ++ ['%', '2'])
      = false := by
    rw [hasMarker_append _ _ _ hs]
    decide
  have h5 : QString.hasMarker '2' ("data:".toList ++ mime ++ ";base64,".toList ++ ['%', '2'])
      = true := by
    rw [hasMarker_append _ _ _ hs]
    decide
  rw [h4, h5]
  simp only [Bool.false_eq_true, if_false, if_true]
  rw [replaceMarker_append _ _ _ _ hs, replaceMarker_marker]
  simp only [QString.replaceMarker, List.append_nil]

theorem insert_two (k1 k2 : QString) (v w : QJsonValue) (h : (k1 == k2) = false) :
    QJsonObject.insert (QJsonObject.insert [] k1 v) k2 w = [(k1, v), (k2, w)] := by
  simp [QJsonObject.insert, h]

theorem value_insert_two (k1 k2 : QString) (v w : QJsonValue) (h : (k1 == k2) = false) :
    QJsonObject.value (QJsonObject.insert (QJsonObject.insert [] k1 v) k2 w) k2 = w := by
  rw [insert_two k1 k2 v w h]
  simp [QJsonObject.value, List.find?, h]

theorem imagePart_eq (attachment : Attachment) (h : '%' ∉ attachment.mimeType) :
    QJsonValue.object (QJsonObject.insert
      (QJsonObject.insert [] "type".toList (.string "image_url".toList)) "image_url".toList
      (.object (QJsonObject.insert [] "url".toList
        (.string (QString.arg (QString.arg "data:%1;base64,%2".toList attachment.mimeType)
          (QByteArray.toBase64 attachment.data)))))) = specImagePart attachment := by
  rw [arg_data_uri _ _ h, insert_two _ _ _ _ (by decide)]
  rfl

theorem imageParts_cons_image (a : Attachment) (rest : List Attachment)
    (hc : a.isImage = true ∧ ¬ a.data.isEmpty = true) :
    imageParts (a :: rest) =
      QJsonValue.object (QJsonObject.insert
        (QJsonObject.insert [] "type".toList (.string "image_url".toList)) "image_url".toList
        (.object (QJsonObject.insert [] "url".toList
          (.string (QString.arg (QString.arg "data:%1;base64,%2".toList a.mimeType)
            (QByteArray.toBase64 a.data)))))) :: imageParts rest := by
  simp only [imageParts]
  rw [if_pos hc]

theorem imageParts_cons_other (a : Attachment) (rest : List Attachment)
    (hc : ¬ (a.isImage = true ∧ ¬ a.data.isEmpty = true)) :
    imageParts (a :: rest) = imageParts rest := by
  simp only [imageParts]
  rw [if_neg hc]

theorem imageParts_eq_spec (attachments : List Attachment)
    (h : ∀ a ∈ attachments, a.isImage = true → '%' ∉ a.mimeType) :
    imageParts attachments =
      (attachments.filter (fun a => a.isImage && !a.data.isEmpty)).map specImagePart := by
  induction attachments with
  | nil => rfl
  | cons a rest ih =>
    have ihr := ih (fun b hb => h b (List.mem_cons_of_mem _ hb))
    by_cases hc : a.isImage = true ∧ ¬ a.data.isEmpty = true
    · have hf : (a.isImage && !a.data.isEmpty) = true := by
        rw [hc.1, Bool.true_and, Bool.not_eq_true']
        exact Bool.eq_false_iff.mpr hc.2
      have e : List.filter (fun a => a.isImage && !a.data.isEmpty) (a :: rest) =
          a :: List.filter (fun a => a.isImage && !a.data.isEmpty) rest :=
        List.filter_cons_of_pos hf
      rw [imageParts_cons_image a rest hc, e, List.map_cons,
        imagePart_eq a (h a (List.mem_cons_self _ _) hc.1), ihr]
    · have hf : ¬ ((a.isImage && !a.data.isEmpty) = true) := by
        intro hh
        rw [Bool.and_eq_true, Bool.not_eq_true'] at hh
        exact hc ⟨hh.1, Bool.eq_false_iff.mp hh.2⟩
      have e : List.filter (fun a => a.isImage && !a.data.isEmpty) (a :: rest) =
          List.filter (fun a => a.isImage && !a.data.isEmpty) rest :=
        List.filter_cons_of_neg hf
      rw [imageParts_cons_other a rest hc, e]
      exact ihr

theorem payloadContent_plain (msg : Message) (h : msg.attachments = []) :
    payloadContent msg = .string msg.content := by
  unfold payloadContent messageObject
  simp only [h, List.isEmpty_nil, if_true]
  exact value_insert_two _ _ _ _ (by decide)

theorem payloadContent_list (msg : Message) (h : msg.attachments ≠ []) :
    payloadContent msg =
      .array ((if ¬ msg.content.isEmpty = true then
          [.object (QJsonObject.insert
            (QJsonObject.insert [] "type".toList (.string "text".toList)) "text".toList
            (.string msg.content))]
        else []) ++ imageParts msg.attachments) := by
  have hne : ¬ (msg.attachments.isEmpty = true) := by rw [List.isEmpty_iff]; exact h
  unfold payloadContent messageObject
  simp only [hne, if_false, Bool.false_eq_true]
  exact value_insert_two _ _ _ _ (by decide)

/-! ## C17: the content list of a message with attachments -/

/-- C17 (counterexample): the message `look` has one attachment, flagged as image, of
MIME type `image/png`, whose data is empty.  Its content in the payload is the text
part alone: the list has one element, not the two (text part and one part for the one
image attachment) of the claim. -/
theorem C17_counterexample_image_without_data :
    ((exampleMessage "look".toList
      [⟨"shot.png".toList, "/home/user/shot.png".toList, "image/png".toList, [], true⟩]
      ).attachments.filter (fun a => a.isImage)).length = 1 ∧
    payloadContent (exampleMessage "look".toList
      [⟨"shot.png".toList, "/home/user/shot.png".toList, "image/png".toList, [], true⟩]) =
      .array [specTextPart "look".toList] ∧
    (payloadContent (exampleMessage "look".toList
      [⟨"shot.png".toList, "/home/user/shot.png".toList, "image/png".toList, [], true⟩])
      ).toArray.length = 1 := by
  refine ⟨by decide, by rfl, by rfl⟩

/-- C17 (amended): for every message with one or more attachments, in particular with
one or more image attachments, whose image attachments have MIME types without the
character `%`, the content of the message in the payload is the list of the
specification with the image attachments restricted to those that hold data: the text
part `{type: "text", text: content}` if and only if the text is not empty, followed by
exactly one part
`{type: "image_url", image_url: {url: "data:" + mimeType + ";base64," + base64(data)}}`
per image attachment with non-empty data, in attachment order. -/
theorem C17_multimodal_content (msg : Message) (hatt : msg.attachments ≠ [])
    (hmime : ∀ a ∈ msg.attachments, a.isImage = true → '%' ∉ a.mimeType) :
    payloadContent msg = .array (specContentParts msg) ∧
    (specContentParts msg).length =
      (if msg.content = [] then 0 else 1) +
        (msg.attachments.filter (fun a => a.isImage && !a.data.isEmpty)).length := by
  constructor
  · rw [payloadContent_list msg hatt, imageParts_eq_spec msg.attachments hmime]
    unfold specContentParts
    by_cases hc : msg.content = []
    · have he : msg.content.isEmpty = true := by rw [List.isEmpty_iff]; exact hc
      rw [if_neg (not_not.mpr he), if_pos hc]
    · have he : ¬ (msg.content.isEmpty = true) := by rw [List.isEmpty_iff]; exact hc
      rw [if_pos he, if_neg hc, insert_two _ _ _ _ (by decide)]
      rfl
  · unfold specContentParts
    by_cases hc : msg.content = []
    · simp only [hc, if_true, List.nil_append, List.length_map, Nat.zero_add]
    · simp only [hc, if_false, List.length_append, List.length_map, List.length_singleton]

set_option maxRecDepth 1000000 in
/-- C17 (witness): the message `What is this?` with one attachment, the PNG image of
the eight bytes 89 50 4E 47 0D 0A 1A 0A.  Its content is the text part
followed by the one image part
`{"type":"image_url","image_url":{"url":"data:image/png;base64,iVBORw0KGgo="}}`. -/
theorem C17_witness_png_signature :
    (exampleMessage "What is this?".toList [examplePng]).attachments ≠ [] ∧
    payloadContent (exampleMessage "What is this?".toList [examplePng]) =
      .array [
        .object [("type".toList, .string "text".toList),
          ("text".toList, .string "What is this?".toList)],
        .object [("type".toList, .string "image_url".toList),
          ("image_url".toList, .object [("url".toList,
            .string "data:image/png;base64,iVBORw0KGgo=".toList)])]] ∧
    (payloadContent (exampleMessage "What is this?".toList [examplePng])).toArray.length
      = 2 :=
  have h := C17_multimodal_content
    (exampleMessage "What is this?".toList [examplePng])
    (by decide) (by decide)
  ⟨by decide, h.1.trans (by rfl), (congrArg (fun v => v.toArray.length) h.1).trans (by rfl)⟩

/-! ## C18: the shape of the payload -/

/-- C18: for every object (whatever model id is configured) and every conversation,
`prepareRequestPayload` returns the object with the five members `model`, the
configured model id; `stream`, true; `temperature`, 0.7 (the decimal 7 * 10^-1);
`max_tokens`, 2048; and `messages`, the array of the entries of the conversation's
messages: as many entries as messages, the entry at each position built from the
message at that position, so that the roles of the entries are the roles of the
messages in conversation order. -/
theorem C18_payload_shape (s : OpenRouterAPI) (conversation : List Message) :
    prepareRequestPayload s conversation =
      .object [("model".toList, .string s.m_modelId), ("stream".toList, .bool true),
        ("temperature".toList, .number 7 (-1)), ("max_tokens".toList, .number 2048 0),
        ("messages".toList, .array (conversation.map messageObject))] ∧
    QJsonObject.value (prepareRequestPayload s conversation).toObject "model".toList =
      .string s.m_modelId ∧
    QJsonObject.value (prepareRequestPayload s conversation).toObject "stream".toList =
      .bool true ∧
    QJsonObject.value (prepareRequestPayload s conversation).toObject "temperature".toList =
      .number 7 (-1) ∧
    (QJsonObject.value (prepareRequestPayload s conversation).toObject
      "max_tokens".toList).toInt = 2048 ∧
    (QJsonObject.value (prepareRequestPayload s conversation).toObject
      "messages".toList).toArray = conversation.map messageObject ∧
    (QJsonObject.value (prepareRequestPayload s conversation).toObject
      "messages".toList).toArray.length = conversation.length ∧
    (QJsonObject.value (prepareRequestPayload s conversation).toObject
      "messages".toList).toArray.map (fun entry => QJsonObject.value entry.toObject "role".toList)
      = conversation.map (fun msg => .string (roleString msg.role)) := by
  have h : prepareRequestPayload s conversation =
      .object [("model".toList, .string s.m_modelId), ("stream".toList, .bool true),
        ("temperature".toList, .number 7 (-1)), ("max_tokens".toList, .number 2048 0),
        ("messages".toList, .array (conversation.map messageObject))] := by
    rfl
  have hrole : ∀ msg : Message,
      QJsonObject.value (messageObject msg).toObject "role".toList =
        .string (roleString msg.role) := by
    intro msg
    unfold messageObject
    simp only []
    split_ifs <;> rfl
  refine ⟨h, ?_, ?_, ?_, ?_, ?_, ?_, ?_⟩
  · rw [h]; rfl
  · rw [h]; rfl
  · rw [h]; rfl
  · rw [h]; rfl
  · rw [h]; rfl
  · rw [h]
    exact List.length_map _ _
  · rw [h]
    show (conversation.map messageObject).map _ = _
    rw [List.map_map]
    apply List.map_congr_left
    intro msg _
    exact hrole msg

/-! ## C19: messages without attachments -/

/-- C19: for every message without attachments, its entry in the payload is exactly the
object with the two members `role`, the wire name of the message's role, and
`content`, the message text as a plain string, also when the text is empty.  The wire
name is `user` for `User`, `assistant` for `Assistant` and `system` for `System`; the
mapping is injective and takes no other value. -/
theorem C19_plain_message_entry (msg : Message) (hatt : msg.attachments = []) :
    messageObject msg =
      .object [("role".toList, .string (roleString msg.role)),
        ("content".toList, .string msg.content)] ∧
    payloadContent msg = .string msg.content ∧
    (roleString .User = "user".toList ∧ roleString .Assistant = "assistant".toList ∧
      roleString .System = "system".toList) ∧
    (∀ r1 r2 : MessageRole, roleString r1 = roleString r2 → r1 = r2) ∧
    (∀ r : MessageRole, roleString r = "user".toList ∨ roleString r = "assistant".toList ∨
      roleString r = "system".toList) := by
  refine ⟨?_, payloadContent_plain msg hatt, ⟨rfl, rfl, rfl⟩, ?_, ?_⟩
  · unfold messageObject
    simp only [hatt, List.isEmpty_nil, if_true]
    rw [insert_two _ _ _ _ (by decide)]
  · intro r1 r2 h
    cases r1 <;> cases r2 <;> first | rfl | exact absurd h (by decide)
  · intro r
    cases r
    · exact Or.inl rfl
    · exact Or.inr (Or.inl rfl)
    · exact Or.inr (Or.inr rfl)

/-- C19 (witness): the assistant message with empty text and no attachment has the
entry `{"role":"assistant","content":""}`; the user message `Hello` has the entry
`{"role":"user","content":"Hello"}`. -/
theorem C19_witness_empty_assistant_and_user_message :
    ({ exampleMessage [] [] with role := .Assistant }.attachments = [] ∧
      (exampleMessage "Hello".toList []).attachments = []) ∧
    messageObject { exampleMessage [] [] with role := .Assistant } =
      .object [("role".toList, .string "assistant".toList), ("content".toList, .string [])] ∧
    messageObject (exampleMessage "Hello".toList []) =
      .object [("role".toList, .string "user".toList),
        ("content".toList, .string "Hello".toList)] ∧
    MessageRole.User = MessageRole.User :=
  have h1 := C19_plain_message_entry { exampleMessage [] [] with role := .Assistant } rfl
  have h2 := C19_plain_message_entry (exampleMessage "Hello".toList []) rfl
  ⟨⟨rfl, rfl⟩, h1.1, h2.1, h1.2.2.2.1 .User .User rfl⟩

/-! ## C20: attachments that are not images -/

theorem wipeNonImage_isImage (a : Attachment) : (wipeNonImage a).isImage = a.isImage := by
  unfold wipeNonImage
  split_ifs with h
  · rfl
  · simp only [Bool.not_eq_true] at h
    exact h.symm

theorem imageParts_wipe (attachments : List Attachment) :
    imageParts (attachments.map wipeNonImage) = imageParts attachments := by
  induction attachments with
  | nil => rfl
  | cons a rest ih =>
    rw [List.map_cons]
    by_cases hi : a.isImage = true
    · have hw : wipeNonImage a = a := by
        unfold wipeNonImage
        rw [if_pos hi]
      rw [hw]
      by_cases hc : a.isImage = true ∧ ¬ a.data.isEmpty = true
      · rw [imageParts_cons_image a _ hc, imageParts_cons_image a rest hc, ih]
      · rw [imageParts_cons_other a _ hc, imageParts_cons_other a rest hc, ih]
    · have h1 : ¬ ((wipeNonImage a).isImage = true ∧ ¬ (wipeNonImage a).data.isEmpty = true) := by
        rw [wipeNonImage_isImage]
        exact fun hh => hi hh.1
      have h2 : ¬ (a.isImage = true ∧ ¬ a.data.isEmpty = true) := fun hh => hi hh.1
      rw [imageParts_cons_other _ _ h1, imageParts_cons_other a rest h2, ih]

theorem imageParts_filter (attachments : List Attachment) :
    imageParts (attachments.filter (fun a => a.isImage)) = imageParts attachments := by
  induction attachments with
  | nil => rfl
  | cons a rest ih =>
    by_cases hi : a.isImage = true
    · have e : List.filter (fun a => a.isImage) (a :: rest) =
          a :: List.filter (fun a => a.isImage) rest := List.filter_cons_of_pos hi
      rw [e]
      by_cases hc : a.isImage = true ∧ ¬ a.data.isEmpty = true
      · rw [imageParts_cons_image a _ hc, imageParts_cons_image a rest hc, ih]
      · rw [imageParts_cons_other a _ hc, imageParts_cons_other a rest hc, ih]
    · have e : List.filter (fun a => a.isImage) (a :: rest) =
          List.filter (fun a => a.isImage) rest := List.filter_cons_of_neg hi
      have h2 : ¬ (a.isImage = true ∧ ¬ a.data.isEmpty = true) := fun hh => hi hh.1
      rw [e, imageParts_cons_other a rest h2, ih]

theorem messageObject_wipe (msg : Message) :
    messageObject (wipeNonImages msg) = messageObject msg := by
  unfold messageObject wipeNonImages
  simp only [List.isEmpty_eq_true, List.map_eq_nil_iff, imageParts_wipe]

/-- C20: no part of a content list comes from an attachment that is not an image: the
image parts built from a list of attachments are those built from its image
attachments alone.  And nothing in the payload depends on what a non-image attachment
holds: the entry of a message, and so the whole payload of a conversation, is the same
when the file name, the path, the MIME type and the bytes of every non-image
attachment are wiped. -/
theorem C20_non_image_attachments_omitted (s : OpenRouterAPI) (conversation : List Message)
    (msg : Message) (attachments : List Attachment) :
    imageParts attachments = imageParts (attachments.filter (fun a => a.isImage)) ∧
    messageObject (wipeNonImages msg) = messageObject msg ∧
    prepareRequestPayload s (conversation.map wipeNonImages) =
      prepareRequestPayload s conversation ∧
    payloadContent (exampleMessage "see".toList [exampleNotes, examplePng]) =
      .array [specTextPart "see".toList, specImagePart examplePng] := by
  refine ⟨(imageParts_filter attachments).symm, messageObject_wipe msg, ?_, by rfl⟩
  unfold prepareRequestPayload
  simp only [List.map_map]
  have e : messageObject ∘ wipeNonImages = messageObject := by
    funext m
    exact messageObject_wipe m
  rw [e]

/-! ## Lemmas on the token statistics -/

theorem updateTokenStats_tokenCount (now : Int) (s : OpenRouterAPI) :
    (updateTokenStats now s).m_tokenCount = s.m_tokenCount := by
  rw [updateTokenStats_frame]

theorem updateTokenStats_recomputed (now : Int) (s : OpenRouterAPI)
    (hd : 0 < durationMs now s.m_streamStartTime) (hn : 0 < s.m_tokenCount) :
    (updateTokenStats now s).m_tokensPerSecond =
      Double.div (Double.ofNat (s.m_tokenCount.toNat * 1000))
        (Double.ofNat (durationMs now s.m_streamStartTime).toNat) := by
  unfold updateTokenStats
  rw [if_pos ⟨hd, hn⟩]

theorem updateTokenStats_kept (now : Int) (s : OpenRouterAPI)
    (h : ¬ (0 < durationMs now s.m_streamStartTime ∧ 0 < s.m_tokenCount)) :
    updateTokenStats now s = s := by
  unfold updateTokenStats
  rw [if_neg h]

theorem updateTokenStats_nonneg (now : Int) (s : OpenRouterAPI)
    (h : 0 ≤ s.m_tokensPerSecond) : 0 ≤ (updateTokenStats now s).m_tokensPerSecond := by
  by_cases hc : 0 < durationMs now s.m_streamStartTime ∧ 0 < s.m_tokenCount
  · rw [updateTokenStats_recomputed now s hc.1 hc.2]
    exact double_div_nonneg _ _
  · rw [updateTokenStats_kept now s hc]
    exact h

/-- The `double` operations of `updateTokenStats` on the values that occur: for a
counter `n` of an `int` and a millisecond count `e` up to 2^53 the conversions and the
product are exact, and the quotient is `n * 1000 / e` up to the relative error 2^-53 of
the rounding. -/
theorem tokensPerSecond_rounding (n e : Int) (hn : 0 < n) (hn2 : n ≤ 2147483647)
    (he : 0 < e) (he2 : e ≤ 9007199254740992) :
    Double.div (Double.ofNat (n.toNat * 1000)) (Double.ofNat e.toNat) =
      Double.div (n.toNat * 1000) e.toNat ∧
    |Double.div (n.toNat * 1000) e.toNat - (n : ℚ) * 1000 / (e : ℚ)| ≤
      (n : ℚ) * 1000 / (e : ℚ) / 2 ^ 53 := by
  have h1 : Double.ofNat (n.toNat * 1000) = n.toNat * 1000 :=
    double_ofNat_exact _ (by omega)
  have h2 : Double.ofNat e.toNat = e.toNat := double_ofNat_exact _ (by omega)
  have hr := double_div_relative (n.toNat * 1000) e.toNat (by omega) (by omega) (by omega)
  have c1 : ((n.toNat : Nat) : ℚ) = (n : ℚ) := by
    have h := Int.toNat_of_nonneg (le_of_lt hn)
    exact_mod_cast congrArg (Int.cast : Int → ℚ) h
  have c2 : ((e.toNat : Nat) : ℚ) = (e : ℚ) := by
    have h := Int.toNat_of_nonneg (le_of_lt he)
    exact_mod_cast congrArg (Int.cast : Int → ℚ) h
  rw [h1, h2]
  refine ⟨rfl, ?_⟩
  rw [Nat.cast_mul, c1, c2] at hr
  exact_mod_cast hr

theorem int32_zero : (-2147483648 : Int) ≤ 0 ∧ (0 : Int) ≤ 2147483647 := by
  decide

theorem processChoices_statsInRange (now : Int) (obj : QJsonObject) (s : OpenRouterAPI)
    (h : StatsInRange s) : StatsInRange (processChoices now obj s).1 := by
  have hk : StatsInRange
      (updateTokenStats now { s with m_tokenCount := Int32.wrap (s.m_tokenCount + 1) }) := by
    constructor
    · rw [updateTokenStats_tokenCount]
      exact wrap_range _
    · exact updateTokenStats_nonneg now _ h.2
  unfold processChoices
  simp only []
  split_ifs <;> first | exact h | exact hk

theorem processUsage_statsInRange (obj : QJsonObject) (s : OpenRouterAPI)
    (h : StatsInRange s) : StatsInRange (processUsage obj s) := by
  unfold processUsage
  simp only []
  split_ifs <;> exact h

theorem processStreamChunk_statsInRange (now : Int) (chunk : QString) (s : OpenRouterAPI)
    (h : StatsInRange s) : StatsInRange (processStreamChunk now chunk s).1 := by
  unfold processStreamChunk
  simp only []
  split_ifs
  · exact h
  · cases QJsonDocument.fromJson (QString.mid chunk 6) with
    | none => exact h
    | some doc => exact processUsage_statsInRange _ _ (processChoices_statsInRange now _ s h)
  · exact h

theorem processLines_statsInRange (now : Int) (lines : List QString) (s : OpenRouterAPI)
    (h : StatsInRange s) : StatsInRange (processLines now lines s).1 := by
  induction lines generalizing s with
  | nil => exact h
  | cons line rest ih =>
    by_cases hl : line = []
    · subst hl
      rw [processLines_cons_empty]
      exact ih s h
    · rw [processLines_cons now line rest s hl]
      exact ih _ (processStreamChunk_statsInRange now _ s h)

theorem step_statsInRange (now : Int) (ev : Event) (s : OpenRouterAPI) (h : StatsInRange s) :
    StatsInRange (step now ev s).1 := by
  cases ev with
  | setAPIKey apiKey => exact h
  | setModel modelId => exact h
  | setBaseURL url => exact h
  | sendMessage conversation newReply =>
    simp only [step, sendMessage]
    split_ifs
    · exact h
    · exact h
    · exact ⟨int32_zero, h.2⟩
  | stopCurrentRequest =>
    simp only [step, stopCurrentRequest]
    split <;> exact h
  | readyRead sender =>
    cases sender with
    | none => exact h
    | some reply =>
      simp only [step, onChatReplyReadyRead]
      split_ifs
      · exact h
      · exact processLines_statsInRange now _ _ h
  | errorOccurred sender =>
    cases sender with
    | none => exact h
    | some reply =>
      simp only [step, onNetworkError]
      split_ifs <;> exact h
  | finished sender =>
    cases sender with
    | none => exact h
    | some reply =>
      simp only [step, onChatReplyFinished]
      constructor
      · show -2147483648 ≤ (updateTokenStats now _).m_tokenCount ∧
          (updateTokenStats now _).m_tokenCount ≤ 2147483647
        rw [updateTokenStats_tokenCount]
        exact h.1
      · exact updateTokenStats_nonneg now _ h.2
  | modelsFinished sender =>
    simp only [step]
    rw [onModelsReplyFinished_frame]
    exact h

theorem reachable_statsInRange (s : OpenRouterAPI) (h : Reachable s) : StatsInRange s := by
  induction h with
  | constructed models => exact ⟨int32_zero, le_refl _⟩
  | step now ev s _ ih => exact step_statsInRange now ev s ih

theorem processUsage_stats (obj : QJsonObject) (s : OpenRouterAPI) :
    (processUsage obj s).m_tokenCount = s.m_tokenCount ∧
    (processUsage obj s).m_tokensPerSecond = s.m_tokensPerSecond ∧
    (processUsage obj s).m_streamStartTime = s.m_streamStartTime := by
  rw [processUsage_frame]
  exact ⟨rfl, rfl, rfl⟩

theorem lookup_none_contains (o : QJsonObject) (key : QString) (h : o.lookup key = none) :
    QJsonObject.contains o key = false := by
  by_cases hc : QJsonObject.contains o key = true
  · rw [contains_lookup o key hc] at h
    exact Option.noConfusion h
  · simpa using hc

theorem processUsage_no_usage (members : QJsonObject) (s : OpenRouterAPI)
    (hu : members.lookup "usage".toList = none) : processUsage members s = s := by
  unfold processUsage
  simp only [lookup_none_contains _ _ hu, Bool.false_eq_true, if_false]

theorem fromJson_helloPayload : QJsonDocument.fromJson helloPayload = some helloDocument := by
  rfl

theorem hasDeltaContent_hello : HasDeltaContent helloDocument "Hello".toList :=
  ⟨_, _, _, _, _, rfl, rfl, rfl, rfl, rfl⟩

/-- The statistics after a frame with a non-empty content delta. -/
theorem processStreamChunk_delta_stats (now : Int) (s : OpenRouterAPI) (payload : QString)
    (doc : QJsonValue) (t : QString) (hp : QJsonDocument.fromJson payload = some doc)
    (hd : HasDeltaContent doc t) (ht : t ≠ []) :
    (processStreamChunk now ("data: ".toList ++ payload) s).1.m_tokenCount
      = Int32.wrap (s.m_tokenCount + 1) ∧
    (processStreamChunk now ("data: ".toList ++ payload) s).1.m_tokensPerSecond
      = (updateTokenStats now
          { s with m_tokenCount := Int32.wrap (s.m_tokenCount + 1) }).m_tokensPerSecond := by
  rw [processStreamChunk_parsed now payload doc s hp, processChoices_delta now doc t s hd ht]
  simp only []
  rw [(processUsage_stats _ _).1, (processUsage_stats _ _).2.1, updateTokenStats_tokenCount]
  exact ⟨rfl, rfl⟩

theorem double_div_1000_2000 : Double.div (Double.ofNat 1000) (Double.ofNat 2000) = 1 / 2 := by
  have h1 : Double.ofNat 1000 = 1000 := by decide
  have h2 : Double.ofNat 2000 = 2000 := by decide
  have hm : Double.mantissa 1000 2000 = 4503599627370496 := by decide
  have hk : Double.exponent 1000 2000 = -53 := by decide
  rw [h1, h2, Double.div, hm, hk]
  norm_num

theorem double_div_1000_3 :
    Double.div (Double.ofNat 1000) (Double.ofNat 3) = 5864062014805333 / 17592186044416 := by
  have h1 : Double.ofNat 1000 = 1000 := by decide
  have h2 : Double.ofNat 3 = 3 := by decide
  have hm : Double.mantissa 1000 3 = 5864062014805333 := by decide
  have hk : Double.exponent 1000 3 = -44 := by decide
  rw [h1, h2, Double.div, hm, hk]
  norm_num

theorem reachable_helloCounted : Reachable helloCounted :=
  Reachable.step 1000000000 (.readyRead (some helloReply)) activeExample reachable_activeExample

set_option maxRecDepth 1000000 in
theorem fromUtf8_helloReply :
    QString.fromUtf8 helloReply.readAll = ("data: ".toList ++ helloPayload) ++ ['\n'] := by
  decide

set_option maxRecDepth 1000000 in
theorem trimmed_helloLine :
    QString.trimmed ("data: ".toList ++ helloPayload) = "data: ".toList ++ helloPayload := by
  decide

theorem durationMs_zero : ¬ (0 : Int) < durationMs 0 0 := by
  decide

/-- Reading the line of `helloReply` at clock reading 0, when the running example has
counted `c` frames, gives the running example with the counter at `c + 1`. -/
theorem step_counted (c : Int) (hlo : -2147483648 ≤ c) (hhi : c < 2147483647) :
    (step 0 (.readyRead (some helloReply)) { activeExample with m_tokenCount := c }).1 =
      { activeExample with m_tokenCount := c + 1 } := by
  show (onChatReplyReadyRead (some helloReply) 0 { activeExample with m_tokenCount := c }).1 = _
  rw [onChatReplyReadyRead_newline_last helloReply 0 _ ("data: ".toList ++ helloPayload) rfl
    (List.not_mem_nil _) fromUtf8_helloReply (by decide)]
  show (processLines 0 ["data: ".toList ++ helloPayload]
    { activeExample with m_tokenCount := c }).1 = _
  rw [processLines_single 0 _ _ (by decide), trimmed_helloLine,
    processStreamChunk_parsed 0 helloPayload helloDocument _ fromJson_helloPayload,
    processChoices_delta 0 helloDocument "Hello".toList _ hasDeltaContent_hello (by decide)]
  simp only []
  rw [processUsage_no_usage _ _ (by rfl),
    updateTokenStats_kept 0 _ (fun h => durationMs_zero h.1),
    wrap_of_range (c + 1) (by omega) (by omega)]

/-- The counter of the running example reaches every value of an `int` from 0 on: the
state with `n` counted frames is reachable. -/
theorem reachable_counted (n : Nat) (h : n ≤ 2147483647) :
    Reachable { activeExample with m_tokenCount := (n : Int) } := by
  induction n with
  | zero => exact reachable_activeExample
  | succ k ih =>
    have hk := ih (by omega)
    have hs := Reachable.step 0 (.readyRead (some helloReply)) _ hk
    rw [step_counted (k : Int) (by omega) (by omega)] at hs
    exact_mod_cast hs

/-! ## C3: the delta of a frame -/

set_option maxRecDepth 1000000 in
/-- C3 (counterexample): the running example has counted 2147483647 frames, the largest
value of the `int` counter; this state is reachable.  The next frame
`data: {"choices":[{"delta":{"content":"Hello"}}]}` emits its delta `Hello`, but the
counter does not grow by one: the increment wraps it around to -2147483648. -/
theorem C3_counterexample_counter_at_int_max :
    Reachable { activeExample with m_tokenCount := 2147483647 } ∧
    deltas (processStreamChunk 0 ("data: ".toList ++ helloPayload)
      { activeExample with m_tokenCount := 2147483647 }).2 = ["Hello".toList] ∧
    (processStreamChunk 0 ("data: ".toList ++ helloPayload)
      { activeExample with m_tokenCount := 2147483647 }).1.m_tokenCount = -2147483648 ∧
    (processStreamChunk 0 ("data: ".toList ++ helloPayload)
      { activeExample with m_tokenCount := 2147483647 }).1.m_tokenCount ≠ 2147483647 + 1 :=
  ⟨reachable_counted 2147483647 (le_refl _), by decide, by decide, by decide⟩

/-- C3 (amended): for a line `data: <json>` whose payload parses to the document `doc`:
if `choices[0].delta.content` of `doc` is a non-empty string `t`, then
`processStreamChunk` emits exactly one signal, `streamReceived t`, and increments the
`int` token counter: the counter grows by exactly one when it holds a value below
2147483647 (and wraps around to -2147483648 at 2147483647); if
`choices[0].delta.content` is absent or empty (whatever `choices[1]`, `choices[2]`, ...
hold), nothing is emitted and the token counter and the tokens-per-second value are
unchanged. -/
theorem C3_amended_delta_of_first_choice (now : Int) (s : OpenRouterAPI) (payload : QString)
    (doc : QJsonValue) (hp : QJsonDocument.fromJson payload = some doc) :
    (∀ t, HasDeltaContent doc t → t ≠ [] →
      (processStreamChunk now ("data: ".toList ++ payload) s).2 = [.emit (.streamReceived t)] ∧
      deltas (processStreamChunk now ("data: ".toList ++ payload) s).2 = [t] ∧
      (processStreamChunk now ("data: ".toList ++ payload) s).1.m_tokenCount
        = Int32.wrap (s.m_tokenCount + 1) ∧
      (-2147483648 ≤ s.m_tokenCount → s.m_tokenCount < 2147483647 →
        (processStreamChunk now ("data: ".toList ++ payload) s).1.m_tokenCount
          = s.m_tokenCount + 1)) ∧
    ((∀ t, HasDeltaContent doc t → t = []) →
      (processStreamChunk now ("data: ".toList ++ payload) s).2 = [] ∧
      (processStreamChunk now ("data: ".toList ++ payload) s).1.m_tokenCount = s.m_tokenCount ∧
      (processStreamChunk now ("data: ".toList ++ payload) s).1.m_tokensPerSecond
        = s.m_tokensPerSecond) := by
  constructor
  · intro t hd ht
    have hc := (processStreamChunk_delta_stats now s payload doc t hp hd ht).1
    refine ⟨processStreamChunk_delta_effects now s payload doc hp t hd ht, ?_, hc, ?_⟩
    · rw [processStreamChunk_delta_effects now s payload doc hp t hd ht]
      rfl
    · intro hlo hhi
      rw [hc, wrap_of_range _ (by omega) (by omega)]
  · intro hd
    rw [processStreamChunk_parsed now payload doc s hp, processChoices_no_delta now doc s hd]
    refine ⟨rfl, ?_, ?_⟩ <;> rw [processUsage_frame]

/-- C3 (amended, witness): the frame `data: {"choices":[{"delta":{"content":"Hello"}}]}`
emits the one delta `Hello` and counts one token; the frame
`data: {"choices":[{"delta":{}},{"delta":{"content":"late"}}]}`, whose only text is in
`choices[1]`, emits nothing and counts nothing. -/
theorem C3_amended_witness_hello_and_second_choice :
    ((processStreamChunk 0 ("data: ".toList ++ helloPayload)
        activeExample).2 = [.emit (.streamReceived "Hello".toList)] ∧
      deltas (processStreamChunk 0 ("data: ".toList ++ helloPayload)
        activeExample).2 = ["Hello".toList] ∧
      (processStreamChunk 0 ("data: ".toList ++ helloPayload)
        activeExample).1.m_tokenCount = activeExample.m_tokenCount + 1) ∧
    ((processStreamChunk 0 ("data: ".toList ++
        "\x7b\"choices\":[\x7b\"delta\":\x7b\x7d\x7d,\x7b\"delta\":\x7b\"content\":\"late\"\x7d\x7d]\x7d".toList)
        activeExample).2 = [] ∧
      (processStreamChunk 0 ("data: ".toList ++
        "\x7b\"choices\":[\x7b\"delta\":\x7b\x7d\x7d,\x7b\"delta\":\x7b\"content\":\"late\"\x7d\x7d]\x7d".toList)
        activeExample).1.m_tokenCount = activeExample.m_tokenCount ∧
      (processStreamChunk 0 ("data: ".toList ++
        "\x7b\"choices\":[\x7b\"delta\":\x7b\x7d\x7d,\x7b\"delta\":\x7b\"content\":\"late\"\x7d\x7d]\x7d".toList)
        activeExample).1.m_tokensPerSecond = activeExample.m_tokensPerSecond) :=
  have h := (C3_amended_delta_of_first_choice 0 activeExample helloPayload helloDocument
    fromJson_helloPayload).1 "Hello".toList hasDeltaContent_hello (by decide)
  ⟨⟨h.1, h.2.1, h.2.2.2 (by decide) (by decide)⟩,
   (C3_amended_delta_of_first_choice 0 activeExample
      "\x7b\"choices\":[\x7b\"delta\":\x7b\x7d\x7d,\x7b\"delta\":\x7b\"content\":\"late\"\x7d\x7d]\x7d".toList
      (.object [("choices".toList, .array [.object [("delta".toList, .object [])],
        .object [("delta".toList, .object [("content".toList, .string "late".toList)])]])])
      (by rfl)).2 (by
        rintro t ⟨members, first, others, choice, delta, hd, hc, hf, hdl, hct⟩
        cases hd
        cases hc
        cases hf
        cases hdl
        cases hct)⟩

/-! ## C21: the tokens-per-second formula -/

set_option maxRecDepth 1000000 in
/-- C21 (counterexample): in the running example the session started at clock reading 0.
The frame `data: {"choices":[{"delta":{"content":"Hello"}}]}` processed 3 milliseconds
later makes the counter 1, and the tokens-per-second value is the `double`
5864062014805333 / 2^44 (333.33333333333331...), not `1 * 1000 / 3`.  And when the
counter holds 2147483647, a reachable state, the same frame processed 1 millisecond
after the start wraps the counter to -2147483648 and leaves the tokens-per-second value
as it was. -/
theorem C21_counterexample_rounded_and_wrapped :
    durationMs 3000000 activeExample.m_streamStartTime = 3 ∧
    (processStreamChunk 3000000 ("data: ".toList ++ helloPayload) activeExample).1.m_tokenCount
      = 1 ∧
    (processStreamChunk 3000000 ("data: ".toList ++ helloPayload)
      activeExample).1.m_tokensPerSecond = 5864062014805333 / 17592186044416 ∧
    (processStreamChunk 3000000 ("data: ".toList ++ helloPayload)
      activeExample).1.m_tokensPerSecond ≠ (1 : ℚ) * 1000 / 3 ∧
    Reachable { activeExample with m_tokenCount := 2147483647 } ∧
    durationMs 1000000 { activeExample with m_tokenCount := 2147483647 }.m_streamStartTime
      = 1 ∧
    (processStreamChunk 1000000 ("data: ".toList ++ helloPayload)
      { activeExample with m_tokenCount := 2147483647 }).1.m_tokenCount = -2147483648 ∧
    (processStreamChunk 1000000 ("data: ".toList ++ helloPayload)
      { activeExample with m_tokenCount := 2147483647 }).1.m_tokensPerSecond =
      { activeExample with m_tokenCount := 2147483647 }.m_tokensPerSecond := by
  have h := processStreamChunk_delta_stats 3000000 activeExample helloPayload helloDocument
    "Hello".toList fromJson_helloPayload hasDeltaContent_hello (by decide)
  have hw := processStreamChunk_delta_stats 1000000
    { activeExample with m_tokenCount := 2147483647 } helloPayload helloDocument
    "Hello".toList fromJson_helloPayload hasDeltaContent_hello (by decide)
  have hv : (processStreamChunk 3000000 ("data: ".toList ++ helloPayload)
      activeExample).1.m_tokensPerSecond = 5864062014805333 / 17592186044416 := by
    rw [h.2, updateTokenStats_recomputed _ _ (by decide) (by decide)]
    have hd : (durationMs 3000000
        { activeExample with
          m_tokenCount := Int32.wrap (activeExample.m_tokenCount + 1) }.m_streamStartTime).toNat
          = 3 := by decide
    have hn : { activeExample with
        m_tokenCount := Int32.wrap (activeExample.m_tokenCount + 1) }.m_tokenCount.toNat * 1000
        = 1000 := by decide
    rw [hd, hn]
    exact double_div_1000_3
  refine ⟨by decide, by decide, hv, ?_, reachable_counted 2147483647 (le_refl _), by decide,
    by decide, ?_⟩
  · rw [hv]
    norm_num
  · rw [hw.2, updateTokenStats_kept _ _ (fun hc => absurd hc.2 (by decide))]

/-- C21 (amended): a frame `data: <json>` whose payload parses to a document with the
non-empty `choices[0].delta.content` `t` is processed at clock reading `now`, when the
token counter holds a value from 0 to 2147483646; `e` is the elapsed time in
milliseconds since the start timestamp of the session.  The token counter grows by one,
to `n`.  If `e > 0`, the tokens-per-second value afterwards is the `double` quotient of
the `double` product `n * 1000.0` by `e`; for `e` up to 2^53 (a 64-bit clock of
nanoseconds gives no more) product and conversion are exact, the value is the binary64
number nearest to `n * 1000 / e`, and it differs from `n * 1000 / e` by at most the
relative error 2^-53.  If `e` is 0 (or the clock went back), no division is performed
and the value is left as it was. -/
theorem C21_amended_tokens_per_second_rounded (now : Int) (s : OpenRouterAPI)
    (payload : QString) (doc : QJsonValue) (t : QString)
    (hp : QJsonDocument.fromJson payload = some doc) (hd : HasDeltaContent doc t)
    (ht : t ≠ []) (hlo : 0 ≤ s.m_tokenCount) (hhi : s.m_tokenCount < 2147483647) :
    (processStreamChunk now ("data: ".toList ++ payload) s).1.m_tokenCount
      = s.m_tokenCount + 1 ∧
    (0 < durationMs now s.m_streamStartTime →
      (processStreamChunk now ("data: ".toList ++ payload) s).1.m_tokensPerSecond =
        Double.div (Double.ofNat ((s.m_tokenCount + 1).toNat * 1000))
          (Double.ofNat (durationMs now s.m_streamStartTime).toNat) ∧
      (durationMs now s.m_streamStartTime ≤ 9007199254740992 →
        (processStreamChunk now ("data: ".toList ++ payload) s).1.m_tokensPerSecond =
          Double.div ((s.m_tokenCount + 1).toNat * 1000)
            (durationMs now s.m_streamStartTime).toNat ∧
        |(processStreamChunk now ("data: ".toList ++ payload) s).1.m_tokensPerSecond -
            ((s.m_tokenCount + 1 : Int) : ℚ) * 1000 / (durationMs now s.m_streamStartTime : ℚ)| ≤
          ((s.m_tokenCount + 1 : Int) : ℚ) * 1000 / (durationMs now s.m_streamStartTime : ℚ)
            / 2 ^ 53)) ∧
    (durationMs now s.m_streamStartTime ≤ 0 →
      (processStreamChunk now ("data: ".toList ++ payload) s).1.m_tokensPerSecond =
        s.m_tokensPerSecond) := by
  obtain ⟨h1, h2⟩ := processStreamChunk_delta_stats now s payload doc t hp hd ht
  have hw : Int32.wrap (s.m_tokenCount + 1) = s.m_tokenCount + 1 :=
    wrap_of_range _ (by omega) (by omega)
  rw [hw] at h1 h2
  refine ⟨h1, ?_, ?_⟩
  · intro he
    have hv : (processStreamChunk now ("data: ".toList ++ payload) s).1.m_tokensPerSecond =
        Double.div (Double.ofNat ((s.m_tokenCount + 1).toNat * 1000))
          (Double.ofNat (durationMs now s.m_streamStartTime).toNat) := by
      rw [h2]
      exact updateTokenStats_recomputed now { s with m_tokenCount := s.m_tokenCount + 1 } he
        (by show 0 < s.m_tokenCount + 1; omega)
    refine ⟨hv, ?_⟩
    intro he2
    have hr := tokensPerSecond_rounding (s.m_tokenCount + 1)
      (durationMs now s.m_streamStartTime) (by omega) (by omega) he he2
    rw [hv, hr.1]
    exact ⟨rfl, hr.2⟩
  · intro he
    rw [h2, updateTokenStats_kept now { s with m_tokenCount := s.m_tokenCount + 1 }
      (fun h => absurd h.1 (not_lt.mpr he))]

/-- C21 (amended, witness): the session of the running example started at clock reading
0.  The frame `data: {"choices":[{"delta":{"content":"Hello"}}]}` processed two seconds
later counts one token and sets tokens-per-second to 1/2, the exact value of
`1 * 1000 / 2000`; processed 3 milliseconds after the start it sets a value within the
relative error 2^-53 of `1 * 1000 / 3`; processed at clock reading 0 it counts one token
and leaves tokens-per-second at 0. -/
theorem C21_amended_witness_hello_after_two_seconds :
    (processStreamChunk 2000000000 ("data: ".toList ++ helloPayload) activeExample).1.m_tokenCount
      = 1 ∧
    (processStreamChunk 2000000000 ("data: ".toList ++ helloPayload)
      activeExample).1.m_tokensPerSecond = 1 / 2 ∧
    |(processStreamChunk 3000000 ("data: ".toList ++ helloPayload)
      activeExample).1.m_tokensPerSecond - 1000 / 3| ≤ 1000 / 3 / 2 ^ 53 ∧
    (processStreamChunk 0 ("data: ".toList ++ helloPayload) activeExample).1.m_tokensPerSecond
      = 0 := by
  have h := C21_amended_tokens_per_second_rounded 2000000000 activeExample helloPayload
    helloDocument "Hello".toList fromJson_helloPayload hasDeltaContent_hello (by decide)
    (by decide) (by decide)
  have h3 := C21_amended_tokens_per_second_rounded 3000000 activeExample helloPayload
    helloDocument "Hello".toList fromJson_helloPayload hasDeltaContent_hello (by decide)
    (by decide) (by decide)
  have h0 := C21_amended_tokens_per_second_rounded 0 activeExample helloPayload
    helloDocument "Hello".toList fromJson_helloPayload hasDeltaContent_hello (by decide)
    (by decide) (by decide)
  have hd : (durationMs 2000000000 activeExample.m_streamStartTime).toNat = 2000 := by decide
  have hn : (activeExample.m_tokenCount + 1).toNat * 1000 = 1000 := by decide
  have hd3 : durationMs 3000000 activeExample.m_streamStartTime = 3 := by decide
  have hn3 : activeExample.m_tokenCount + 1 = 1 := by decide
  refine ⟨h.1, ?_, ?_, ?_⟩
  · rw [(h.2.1 (by decide)).1, hd, hn]
    exact double_div_1000_2000
  · have hb := ((h3.2.1 (by decide)).2 (by decide)).2
    rw [hd3, hn3] at hb
    norm_num at hb ⊢
    exact hb
  · rw [h0.2.2 (by decide)]
    rfl

/-! ## C22: where tokens-per-second is recomputed -/

/-- C23: in every state reachable from construction by any sequence of events, at any
clock readings (non-decreasing or not), the tokens-per-second value is at least 0. -/
theorem C23_tokens_per_second_never_negative (s : OpenRouterAPI) (h : Reachable s) :
    0 ≤ s.m_tokensPerSecond :=
  (reachable_statsInRange s h).2

/-- C23 (witness): the running example after the frame `Hello` was counted is reachable,
and its tokens-per-second value is not negative. -/
theorem C23_witness_hello_counted :
    Reachable helloCounted ∧ 0 ≤ helloCounted.m_tokensPerSecond :=
  ⟨reachable_helloCounted, C23_tokens_per_second_never_negative helloCounted
    reachable_helloCounted⟩

/-! ## C24: the total-token counter -/

theorem toInt_integer (n : Int) :
    (QJsonValue.number n 0).toInt =
      if -2147483648 ≤ n ∧ n ≤ 2147483647 then n else 0 := by
  simp [QJsonValue.toInt]

theorem processUsage_total (members usage : QJsonObject) (v : QJsonValue) (s : OpenRouterAPI)
    (hu : members.lookup "usage".toList = some (.object usage))
    (ht : usage.lookup "total_tokens".toList = some v) :
    (processUsage members s).m_totalTokensUsed = v.toInt := by
  obtain ⟨u1, u2⟩ := lookup_contains_value _ _ _ hu
  obtain ⟨t1, t2⟩ := lookup_contains_value _ _ _ ht
  have k : (QJsonValue.object usage).toObject = usage := rfl
  unfold processUsage
  simp only [u1, u2, k, t1, t2, if_true]

theorem processChoices_total (now : Int) (obj : QJsonObject) (s : OpenRouterAPI) :
    (processChoices now obj s).1.m_totalTokensUsed = s.m_totalTokensUsed := by
  rw [processChoices_frame]

set_option maxRecDepth 1000000 in
/-- C24 (counterexample): the frame `data: {"usage":{"total_tokens":3000000000}}` parses,
its `usage.total_tokens` is the integer 3000000000, and it sets the total-token counter
to 0, not to 3000000000: `toInt` gives 0 for a number that does not fit an `int`. -/
theorem C24_counterexample_total_beyond_int :
    QJsonDocument.fromJson "\x7b\"usage\":\x7b\"total_tokens\":3000000000\x7d\x7d".toList =
      some (.object [("usage".toList,
        .object [("total_tokens".toList, .number 3000000000 0)])]) ∧
    (processStreamChunk 0
      "data: \x7b\"usage\":\x7b\"total_tokens\":3000000000\x7d\x7d".toList
      { activeExample with m_totalTokensUsed := 5 }).1.m_totalTokensUsed = 0 ∧
    (processStreamChunk 0
      "data: \x7b\"usage\":\x7b\"total_tokens\":3000000000\x7d\x7d".toList
      { activeExample with m_totalTokensUsed := 5 }).1.m_totalTokensUsed ≠ 3000000000 :=
  ⟨by rfl, by decide, by decide⟩

/-- C24 (amended): a frame `data: <json>` whose payload parses to an object is processed.
If the object has a member `usage` that is an object with a member `total_tokens` that
is the integer `n`, then the total-token counter becomes `n` when `n` fits a 32-bit
signed `int` (from -2147483648 to 2147483647) and 0 when it does not, and the per-frame
token counter is unchanged when the frame carries no non-empty content delta.  If the
frame carries a non-empty content delta and has no member `usage`, the per-frame counter
is incremented (the increment of the `int`: it grows by one from a value below
2147483647) and the total-token counter is unchanged. -/
theorem C24_amended_total_tokens_within_int (now : Int) (s : OpenRouterAPI)
    (payload : QString) (members : QJsonObject)
    (hp : QJsonDocument.fromJson payload = some (.object members)) :
    (∀ usage n, members.lookup "usage".toList = some (.object usage) →
      usage.lookup "total_tokens".toList = some (.number n 0) →
      ((-2147483648 ≤ n ∧ n ≤ 2147483647 →
        (processStreamChunk now ("data: ".toList ++ payload) s).1.m_totalTokensUsed = n) ∧
      (¬ (-2147483648 ≤ n ∧ n ≤ 2147483647) →
        (processStreamChunk now ("data: ".toList ++ payload) s).1.m_totalTokensUsed = 0) ∧
      ((∀ t, HasDeltaContent (.object members) t → t = []) →
        (processStreamChunk now ("data: ".toList ++ payload) s).1.m_tokenCount
          = s.m_tokenCount))) ∧
    (∀ t, HasDeltaContent (.object members) t → t ≠ [] →
      members.lookup "usage".toList = none →
      (processStreamChunk now ("data: ".toList ++ payload) s).1.m_tokenCount
        = Int32.wrap (s.m_tokenCount + 1) ∧
      (-2147483648 ≤ s.m_tokenCount → s.m_tokenCount < 2147483647 →
        (processStreamChunk now ("data: ".toList ++ payload) s).1.m_tokenCount
          = s.m_tokenCount + 1) ∧
      (processStreamChunk now ("data: ".toList ++ payload) s).1.m_totalTokensUsed
        = s.m_totalTokensUsed) := by
  rw [processStreamChunk_parsed now payload _ s hp]
  have k : QJsonDocument.object (.object members) = members := rfl
  constructor
  · intro usage n hu ht
    simp only []
    refine ⟨?_, ?_, ?_⟩
    · intro hr
      rw [k, processUsage_total members usage _ _ hu ht, toInt_integer, if_pos hr]
    · intro hr
      rw [k, processUsage_total members usage _ _ hu ht, toInt_integer, if_neg hr]
    · intro hd
      rw [(processUsage_stats _ _).1, processChoices_no_delta now _ s hd]
  · intro t hd ht hu
    simp only []
    rw [k, processUsage_no_usage members _ hu, ← k, processChoices_delta now _ t s hd ht]
    simp only []
    rw [updateTokenStats_frame]
    refine ⟨rfl, ?_, rfl⟩
    intro hlo hhi
    exact wrap_of_range _ (by omega) (by omega)

set_option maxRecDepth 1000000 in
/-- C24 (amended, witness): in the running example, the frame
`data: {"usage":{"total_tokens":42}}` sets the total-token counter to 42 and does not
count a token; the frame `data: {"choices":[{"delta":{"content":"Hello"}}]}` counts one
token and leaves the total-token counter at 0. -/
theorem C24_amended_witness_usage_and_delta :
    ((processStreamChunk 0 ("data: ".toList ++
        "\x7b\"usage\":\x7b\"total_tokens\":42\x7d\x7d".toList)
        activeExample).1.m_totalTokensUsed = 42 ∧
      (processStreamChunk 0 ("data: ".toList ++
        "\x7b\"usage\":\x7b\"total_tokens\":42\x7d\x7d".toList)
        activeExample).1.m_tokenCount = activeExample.m_tokenCount) ∧
    ((processStreamChunk 0 ("data: ".toList ++ helloPayload) activeExample).1.m_tokenCount
        = activeExample.m_tokenCount + 1 ∧
      (processStreamChunk 0 ("data: ".toList ++ helloPayload)
        activeExample).1.m_totalTokensUsed = activeExample.m_totalTokensUsed) := by
  have h := (C24_amended_total_tokens_within_int 0 activeExample
    "\x7b\"usage\":\x7b\"total_tokens\":42\x7d\x7d".toList
    [("usage".toList, .object [("total_tokens".toList, .number 42 0)])] (by rfl)).1
    [("total_tokens".toList, .number 42 0)] 42 (by rfl) (by rfl)
  have hh := (C24_amended_total_tokens_within_int 0 activeExample helloPayload _
    fromJson_helloPayload).2 "Hello".toList hasDeltaContent_hello (by decide) (by rfl)
  refine ⟨⟨h.1 (by decide), h.2.2 ?_⟩, hh.2.1 (by decide) (by decide), hh.2.2⟩
  rintro t ⟨members, first, others, choice, delta, hdoc, hc, hf, hdl, hct⟩
  cases hdoc
  cases hc

/-! ## C25: a malformed model-listing response -/

set_option maxRecDepth 1000000 in
/-- C25 (evaluation): the response body `{"data": 5}` is valid JSON with a `data` member
that is not an array.  On an object whose model list holds one model,
`parseModelsResponse` returns true and the model list is empty afterwards, and
`onModelsReplyFinished` emits `modelsRefreshed(true)`.  The bodies `{"data"` (not JSON)
and `{"models": []}` (no `data` member) do give false, `modelsRefreshed(false)` and an
unchanged model list. -/
theorem C25_non_array_data_reports_success_and_clears :
    (parseModelsResponse (QString.toUtf8 "\x7b\"data\": 5\x7d".toList)
      { OpenRouterAPI.initial with m_models := [ModelInfo.create "a".toList "b".toList] }).1
        = true ∧
    (parseModelsResponse (QString.toUtf8 "\x7b\"data\": 5\x7d".toList)
      { OpenRouterAPI.initial with
        m_models := [ModelInfo.create "a".toList "b".toList] }).2.1.m_models = [] ∧
    signals (onModelsReplyFinished
      (some ⟨2, .NoError, [], QString.toUtf8 "\x7b\"data\": 5\x7d".toList⟩)
      { OpenRouterAPI.initial with
        m_models := [ModelInfo.create "a".toList "b".toList] }).2 = [.modelsRefreshed true] ∧
    (onModelsReplyFinished
      (some ⟨2, .NoError, [], QString.toUtf8 "\x7b\"data\": 5\x7d".toList⟩)
      { OpenRouterAPI.initial with
        m_models := [ModelInfo.create "a".toList "b".toList] }).1.m_models = [] ∧
    signals (onModelsReplyFinished
      (some ⟨2, .NoError, [], QString.toUtf8 "\x7b\"data\"".toList⟩)
      { OpenRouterAPI.initial with
        m_models := [ModelInfo.create "a".toList "b".toList] }).2 = [.modelsRefreshed false] ∧
    (onModelsReplyFinished
      (some ⟨2, .NoError, [], QString.toUtf8 "\x7b\"data\"".toList⟩)
      { OpenRouterAPI.initial with
        m_models := [ModelInfo.create "a".toList "b".toList] }).1.m_models.length = 1 ∧
    signals (onModelsReplyFinished
      (some ⟨2, .NoError, [], QString.toUtf8 "\x7b\"models\": []\x7d".toList⟩)
      { OpenRouterAPI.initial with
        m_models := [ModelInfo.create "a".toList "b".toList] }).2 = [.modelsRefreshed false] ∧
    (onModelsReplyFinished
      (some ⟨2, .NoError, [], QString.toUtf8 "\x7b\"models\": []\x7d".toList⟩)
      { OpenRouterAPI.initial with
        m_models := [ModelInfo.create "a".toList "b".toList] }).1.m_models.length = 1 :=
  ⟨by decide, by decide, by decide, by decide, by decide, by decide, by decide, by decide⟩

/-! ## C26: frame extraction is split-invariant -/

theorem dropLast_cons_of_ne_nil (a : QString) (l : List QString) (h : l ≠ []) :
    (a :: l).dropLast = a :: l.dropLast ∧ (a :: l).getLastD [] = l.getLastD [] := by
  cases l with
  | nil => exact absurd rfl h
  | cons b t => exact ⟨rfl, rfl⟩

theorem dropLast_append_getLastD (l m : List QString) (h : m ≠ []) :
    (l ++ m).dropLast = l ++ m.dropLast ∧ (l ++ m).getLastD [] = m.getLastD [] := by
  induction l with
  | nil => exact ⟨rfl, rfl⟩
  | cons a t ih =>
    have hne : t ++ m ≠ [] := by simp [h]
    have hc := dropLast_cons_of_ne_nil a (t ++ m) hne
    constructor
    · show (a :: (t ++ m)).dropLast = a :: (t ++ m.dropLast)
      rw [hc.1, ih.1]
    · show (a :: (t ++ m)).getLastD [] = m.getLastD []
      rw [hc.2, ih.2]

theorem split_cons_sep (sep : Char) (cs : QString) :
    QString.split sep (sep :: cs) = [] :: QString.split sep cs := by
  simp [QString.split]

theorem split_cons_ne (sep c : Char) (cs : QString) (h : ¬ c = sep) :
    QString.split sep (c :: cs) =
      (c :: (QString.split sep cs).headD []) :: (QString.split sep cs).tail := by
  rw [QString.split, if_neg h]

/-- Splitting a text that arrives in two pieces: the complete fragments of the first
piece, then the split of its last fragment followed by the second piece. -/
theorem split_append (sep : Char) (a c : QString) :
    QString.split sep (a ++ c) =
      (QString.split sep a).dropLast ++
        QString.split sep ((QString.split sep a).getLastD [] ++ c) := by
  induction a with
  | nil => rfl
  | cons x xs ih =>
    by_cases hx : x = sep
    · subst hx
      have hd := dropLast_cons_of_ne_nil [] (QString.split x xs) (split_ne_nil x xs)
      show QString.split x (x :: (xs ++ c)) = _
      rw [split_cons_sep, split_cons_sep, hd.1, hd.2, ih]
      rfl
    · show QString.split sep (x :: (xs ++ c)) = _
      rw [split_cons_ne sep x _ hx, split_cons_ne sep x xs hx, ih]
      cases hs : QString.split sep xs with
      | nil => exact absurd hs (split_ne_nil sep xs)
      | cons h t =>
        cases t with
        | nil =>
          show _ = QString.split sep (x :: (h ++ c))
          rw [split_cons_ne sep x _ hx]
          rfl
        | cons h2 t2 => rfl

theorem split_join (s : QString) :
    s = joinLines (QString.split '\n' s).dropLast ((QString.split '\n' s).getLastD []) := by
  induction s with
  | nil => rfl
  | cons x xs ih =>
    by_cases hx : x = '\n'
    · subst hx
      have hd := dropLast_cons_of_ne_nil [] (QString.split '\n' xs) (split_ne_nil '\n' xs)
      rw [split_cons_sep, hd.1, hd.2]
      show _ = '\n' :: joinLines _ _
      rw [← ih]
    · rw [split_cons_ne '\n' x xs hx]
      cases hs : QString.split '\n' xs with
      | nil => exact absurd hs (split_ne_nil '\n' xs)
      | cons h t =>
        rw [hs] at ih
        cases t with
        | nil =>
          show x :: xs = x :: h
          rw [ih]
          rfl
        | cons h2 t2 =>
          show x :: xs = x :: (h ++ '\n' :: joinLines (h2 :: t2).dropLast ((h2 :: t2).getLastD []))
          rw [ih]
          rfl

theorem split_fragment_not_mem (sep : Char) (s : QString) :
    ∀ line ∈ QString.split sep s, sep ∉ line := by
  induction s with
  | nil => simp [QString.split]
  | cons x xs ih =>
    by_cases hx : x = sep
    · subst hx
      rw [split_cons_sep]
      intro line hl
      rcases List.mem_cons.mp hl with e | e
      · rw [e]; simp
      · exact ih line e
    · rw [split_cons_ne sep x xs hx]
      cases hs : QString.split sep xs with
      | nil => exact absurd hs (split_ne_nil sep xs)
      | cons h t =>
        rw [hs] at ih
        intro line hl
        rcases List.mem_cons.mp hl with e | e
        · rw [e]
          have hh := ih h (List.mem_cons_self _ _)
          simp only [List.headD_cons, List.mem_cons, not_or]
          exact ⟨fun e2 => hx e2.symm, hh⟩
        · exact ih line (List.mem_cons_of_mem _ e)

theorem extractLines_append (b s1 s2 : QString) :
    (extractLines b (s1 ++ s2)).1 =
      (extractLines b s1).1 ++ (extractLines (extractLines b s1).2 s2).1 ∧
    (extractLines b (s1 ++ s2)).2 = (extractLines (extractLines b s1).2 s2).2 := by
  have h : QString.split '\n' (b ++ (s1 ++ s2)) =
      (QString.split '\n' (b ++ s1)).dropLast ++
        QString.split '\n' ((QString.split '\n' (b ++ s1)).getLastD [] ++ s2) := by
    rw [← List.append_assoc, split_append]
  have hd := dropLast_append_getLastD (QString.split '\n' (b ++ s1)).dropLast
    (QString.split '\n' ((QString.split '\n' (b ++ s1)).getLastD [] ++ s2)) (split_ne_nil _ _)
  simp only [extractLines]
  rw [h]
  exact hd

theorem onChatReplyReadyRead_extractLines (reply : QNetworkReply) (now : Int)
    (s : OpenRouterAPI) (hstop : s.m_shouldStop = false) :
    onChatReplyReadyRead (some reply) now s =
      processLines now (extractLines s.m_streamBuffer (QString.fromUtf8 reply.readAll)).1
        { s with m_streamBuffer :=
          (extractLines s.m_streamBuffer (QString.fromUtf8 reply.readAll)).2 } := by
  simp only [onChatReplyReadyRead, hstop, Bool.false_eq_true, if_false, extractLines]

/-- C26: `extractLines` is the extraction step of `onChatReplyReadyRead` (append the new
text to the buffer, split on newline, dispatch all fragments but the last, retain the
last): with no stop requested, the handler runs the line loop on exactly these lines
with exactly this retained buffer.  For every buffer `b` and all texts `s1`, `s2`, the
step on `s1` and then on `s2` dispatches the same lines in the same order and retains
the same buffer as one step on `s1 ++ s2`.  After a step, the old buffer followed by the
new text is the dispatched lines, each followed by a newline, followed by the retained
buffer; no dispatched line and not the retained buffer contains a newline, so the
retained buffer is the part after the last newline. -/
theorem C26_extraction_split_invariant (b s1 s2 : QString) :
    (extractLines b (s1 ++ s2)).1 =
      (extractLines b s1).1 ++ (extractLines (extractLines b s1).2 s2).1 ∧
    (extractLines b (s1 ++ s2)).2 = (extractLines (extractLines b s1).2 s2).2 ∧
    b ++ s1 = joinLines (extractLines b s1).1 (extractLines b s1).2 ∧
    (∀ line ∈ (extractLines b s1).1, '\n' ∉ line) ∧
    '\n' ∉ (extractLines b s1).2 ∧
    ∀ (reply : QNetworkReply) (now : Int) (s : OpenRouterAPI), s.m_shouldStop = false →
      onChatReplyReadyRead (some reply) now s =
        processLines now (extractLines s.m_streamBuffer (QString.fromUtf8 reply.readAll)).1
          { s with m_streamBuffer :=
            (extractLines s.m_streamBuffer (QString.fromUtf8 reply.readAll)).2 } := by
  refine ⟨(extractLines_append b s1 s2).1, (extractLines_append b s1 s2).2,
    split_join (b ++ s1), ?_, getLastD_split_not_mem '\n' (b ++ s1),
    fun reply now s h => onChatReplyReadyRead_extractLines reply now s h⟩
  intro line hl
  exact split_fragment_not_mem '\n' (b ++ s1) line (List.dropLast_subset _ hl)

set_option maxRecDepth 1000000 in
/-- C26 (witness): with `da` in the buffer, the texts `ta: 1`, newline, `data` and
`: 2`, newline, `x` dispatch the lines `data: 1` and `data: 2` and retain `x`, in two
steps as in one; and the handler of the running example, reading the bytes of `a`,
newline, `b`, runs the line loop on the line `a` with `b` retained. -/
theorem C26_witness_two_lines_cut_in_the_second :
    (extractLines "da".toList ("ta: 1\ndata".toList ++ ": 2\nx".toList)).1 =
      ["data: 1".toList, "data: 2".toList] ∧
    (extractLines "da".toList "ta: 1\ndata".toList).1 = ["data: 1".toList] ∧
    (extractLines "da".toList "ta: 1\ndata".toList).2 = "data".toList ∧
    (extractLines "data".toList ": 2\nx".toList).1 = ["data: 2".toList] ∧
    (extractLines "da".toList ("ta: 1\ndata".toList ++ ": 2\nx".toList)).2 = "x".toList ∧
    (extractLines "data".toList ": 2\nx".toList).2 = "x".toList ∧
    onChatReplyReadyRead (some ⟨1, .NoError, [], QString.toUtf8 "a\nb".toList⟩) 0 activeExample =
      processLines 0 ["a".toList] { activeExample with m_streamBuffer := "b".toList } := by
  have h := C26_extraction_split_invariant "da".toList "ta: 1\ndata".toList ": 2\nx".toList
  have e1 : (extractLines "da".toList "ta: 1\ndata".toList).1 = ["data: 1".toList] := by decide
  have e2 : (extractLines "da".toList "ta: 1\ndata".toList).2 = "data".toList := by decide
  have e3 : (extractLines "data".toList ": 2\nx".toList).1 = ["data: 2".toList] := by decide
  have e4 : (extractLines "data".toList ": 2\nx".toList).2 = "x".toList := by decide
  refine ⟨?_, e1, e2, e3, ?_, e4, ?_⟩
  · rw [h.1, e1, e2, e3]
    rfl
  · rw [h.2.1, e2, e4]
  · rw [h.2.2.2.2.2 ⟨1, .NoError, [], QString.toUtf8 "a\nb".toList⟩ 0 activeExample (by decide)]
    rfl

/-! ## C27: what a new session starts with -/

set_option maxRecDepth 1000000 in
/-- C27 (evaluation): the first session of `secondSession` left `data: {"choi` in the
line buffer.  The accepted `sendMessage` of the second session resets the token counter
to 0, the start timestamp to the clock reading and the cancellation flag to false, but
the buffer still holds `data: {"choi`.  The first line of the second session,
`data: {"choices":[{"delta":{"content":"Hello"}}]}`, is therefore parsed with that text
in front of it and emits no delta; with an empty buffer the same bytes emit the delta
`Hello`. -/
theorem C27_buffer_survives_into_next_session :
    secondSession.m_requestActive = true ∧ secondSession.m_currentReply = some 2 ∧
    secondSession.m_tokenCount = 0 ∧ secondSession.m_streamStartTime = 2 ∧
    secondSession.m_shouldStop = false ∧
    secondSession.m_streamBuffer = "data: \x7b\"choi".toList ∧
    deltas (onChatReplyReadyRead (some ⟨2, .NoError, [], helloReply.readAll⟩) 3
      secondSession).2 = [] ∧
    deltas (onChatReplyReadyRead (some ⟨2, .NoError, [], helloReply.readAll⟩) 3
      { secondSession with m_streamBuffer := [] }).2 = ["Hello".toList] :=
  ⟨by decide, by decide, by decide, by decide, by decide, by decide, by decide, by decide⟩

/-! ## C28: a final frame without a terminating newline -/

theorem onChatReplyFinished_buffer (reply : QNetworkReply) (now : Int) (s : OpenRouterAPI) :
    (onChatReplyFinished (some reply) now s).1.m_streamBuffer = s.m_streamBuffer ∧
    deltas (onChatReplyFinished (some reply) now s).2 = [] := by
  unfold onChatReplyFinished
  simp only []
  rw [updateTokenStats_frame]
  refine ⟨rfl, ?_⟩
  split_ifs <;> rfl

/-- C28: `onChatReplyFinished` never dispatches the line buffer: in any state it emits no
delta and leaves the buffer as it is.  So when, in a reachable state with no stop
requested, the last chunk of a stream contains no newline byte (a last frame that is
not terminated) and the transport then finishes, the two handlers together emit no
delta, and after the terminal notification the buffer holds the old buffer followed by
the text of that chunk. -/
theorem C28_final_frame_without_newline_never_parsed (s : OpenRouterAPI) (hs : Reachable s)
    (hstop : s.m_shouldStop = false) (last final : QNetworkReply) (nowR nowF : Int)
    (hn : (10 : UInt8) ∉ last.readAll) :
    (∀ (s2 : OpenRouterAPI) (now : Int),
      (onChatReplyFinished (some final) now s2).1.m_streamBuffer = s2.m_streamBuffer ∧
      deltas (onChatReplyFinished (some final) now s2).2 = []) ∧
    deltas (run [(nowR, .readyRead (some last)), (nowF, .finished (some final))] s).2 = [] ∧
    (run [(nowR, .readyRead (some last)), (nowF, .finished (some final))] s).1.m_streamBuffer
      = s.m_streamBuffer ++ QString.fromUtf8 last.readAll := by
  have h1 := onChatReplyReadyRead_no_newline last nowR s hstop (reachable_buffer s hs)
    (newline_not_mem_fromUtf8 _ hn)
  refine ⟨fun s2 now => onChatReplyFinished_buffer final now s2, ?_, ?_⟩
  · simp only [run, step, h1, List.nil_append, List.append_nil]
    exact (onChatReplyFinished_buffer final nowF _).2
  · simp only [run, step, h1]
    exact (onChatReplyFinished_buffer final nowF _).1

set_option maxRecDepth 1000000 in
/-- C28 (witness): in the running example the only chunk is the frame
`data: {"choices":[{"delta":{"content":"Hello"}}]}` without a newline, then the transport
finishes without error.  No delta is emitted, the only signal is
`streamCompleted(true)`, and the buffer still holds the frame. -/
theorem C28_witness_hello_without_newline :
    deltas (run [(1000000000, .readyRead (some ⟨1, .NoError, [],
        QString.toUtf8 ("data: ".toList ++ helloPayload)⟩)),
      (2000000000, .finished (some ⟨1, .NoError, [], []⟩))] activeExample).2 = [] ∧
    (run [(1000000000, .readyRead (some ⟨1, .NoError, [],
        QString.toUtf8 ("data: ".toList ++ helloPayload)⟩)),
      (2000000000, .finished (some ⟨1, .NoError, [], []⟩))] activeExample).1.m_streamBuffer
      = "data: ".toList ++ helloPayload ∧
    signals (run [(1000000000, .readyRead (some ⟨1, .NoError, [],
        QString.toUtf8 ("data: ".toList ++ helloPayload)⟩)),
      (2000000000, .finished (some ⟨1, .NoError, [], []⟩))] activeExample).2
      = [.streamCompleted true] :=
  ⟨(C28_final_frame_without_newline_never_parsed activeExample reachable_activeExample
      (by decide) ⟨1, .NoError, [], QString.toUtf8 ("data: ".toList ++ helloPayload)⟩
      ⟨1, .NoError, [], []⟩ 1000000000 2000000000 (by decide)).2.1,
    (C28_final_frame_without_newline_never_parsed activeExample reachable_activeExample
      (by decide) ⟨1, .NoError, [], QString.toUtf8 ("data: ".toList ++ helloPayload)⟩
      ⟨1, .NoError, [], []⟩ 1000000000 2000000000 (by decide)).2.2.trans (by decide),
    by decide⟩

/-! ## C29: any attachment switches the content to list form -/

theorem imageParts_append (x y : List Attachment) :
    imageParts (x ++ y) = imageParts x ++ imageParts y := by
  induction x with
  | nil => rfl
  | cons a rest ih =>
    by_cases hc : a.isImage = true ∧ ¬ a.data.isEmpty = true
    · show imageParts (a :: (rest ++ y)) = _
      rw [imageParts_cons_image a _ hc, imageParts_cons_image a _ hc, ih]
      rfl
    · show imageParts (a :: (rest ++ y)) = _
      rw [imageParts_cons_other a _ hc, imageParts_cons_other a _ hc, ih]

theorem imageParts_none (attachments : List Attachment)
    (h : ∀ a ∈ attachments, ¬ (a.isImage = true ∧ a.data ≠ [])) :
    imageParts attachments = [] := by
  induction attachments with
  | nil => rfl
  | cons a rest ih =>
    have ha := h a (List.mem_cons_self _ _)
    rw [imageParts_cons_other a rest (by rw [List.isEmpty_iff]; exact ha)]
    exact ih (fun b hb => h b (List.mem_cons_of_mem _ hb))

/-- C29: for every message with at least one attachment, the `content` member of its
payload entry is a list and not a plain string, whatever the attachments are.  If
moreover the message text is empty and no attachment is an image with non-empty data,
the content is the empty list.  An attachment flagged as image whose data is empty
contributes no part: the image parts are those of the attachments without it. -/
theorem C29_any_attachment_switches_to_list (msg : Message) (h : msg.attachments ≠ []) :
    (∃ parts, payloadContent msg = .array parts) ∧
    (∀ t, payloadContent msg ≠ .string t) ∧
    (msg.content = [] → (∀ a ∈ msg.attachments, ¬ (a.isImage = true ∧ a.data ≠ [])) →
      payloadContent msg = .array []) ∧
    (∀ (before after : List Attachment) (a : Attachment),
      msg.attachments = before ++ a :: after → a.isImage = true → a.data = [] →
      imageParts msg.attachments = imageParts (before ++ after)) := by
  have hl := payloadContent_list msg h
  refine ⟨⟨_, hl⟩, ?_, ?_, ?_⟩
  · intro t e
    rw [hl] at e
    exact QJsonValue.noConfusion e
  · intro hc hn
    rw [hl, imageParts_none msg.attachments hn, hc]
    rfl
  · intro before after a hm _ hd
    rw [hm, imageParts_append, imageParts_append,
      imageParts_cons_other a after (by rw [hd]; simp)]

/-- C29 (witness): the message with the empty text and the attachments `notes.txt` (no
image) and `lost.png` (flagged as image, no data) has the content `[]`; the message with
the text `see` and the same attachments has a list as content, and the image parts of
`lost.png` followed by `shot.png` are those of `shot.png` alone. -/
theorem C29_witness_notes_and_empty_image :
    payloadContent (exampleMessage [] [exampleNotes, exampleEmptyImage]) = .array [] ∧
    (∃ parts, payloadContent (exampleMessage "see".toList [exampleNotes, exampleEmptyImage])
      = .array parts) ∧
    imageParts (exampleMessage [] [exampleEmptyImage, examplePng]).attachments
      = imageParts ([] ++ [examplePng]) :=
  ⟨(C29_any_attachment_switches_to_list (exampleMessage [] [exampleNotes, exampleEmptyImage])
      (by decide)).2.2.1 rfl (by decide),
    (C29_any_attachment_switches_to_list
      (exampleMessage "see".toList [exampleNotes, exampleEmptyImage]) (by decide)).1,
    (C29_any_attachment_switches_to_list (exampleMessage [] [exampleEmptyImage, examplePng])
      (by decide)).2.2.2 [] [examplePng] exampleEmptyImage rfl rfl rfl⟩

/-! ## C30: the conversation handed to the API -/

theorem foldl_addAttachment (pending : List Attachment) (msg : Message) :
    pending.foldl (fun m attachment => Message.addAttachment attachment m) msg =
      { msg with attachments := msg.attachments ++ pending } := by
  induction pending generalizing msg with
  | nil => simp
  | cons a rest ih =>
    rw [List.foldl_cons, ih]
    simp [Message.addAttachment]

/-- C30: the input is not empty, that is, `ChatWidget::sendMessage` does not return at
its guard: the trimmed text of the input field is not empty or an attachment is pending;
and an API object is connected.  Then the conversation handed to
`OpenRouterAPI::sendMessage` is `m_messages` afterwards, namely the old messages, then
the user message (role User, the trimmed text, the pending attachments, status
Complete), then the placeholder (role Assistant, empty content, no attachment, status
Streaming).  So its last element is the placeholder and the second to last the user
message, and in the payload that `prepareRequestPayload` builds from it, the last entry
of `messages` is `{"role":"assistant","content":""}`. -/
theorem C30_conversation_ends_with_empty_assistant (nowUser nowAssistant : Int)
    (w : ChatWidget)
    (hinput : QString.trimmed w.m_inputText ≠ [] ∨ w.m_pendingAttachments ≠ [])
    (hapi : w.m_hasApi = true) :
    (ChatWidget.sendMessage nowUser nowAssistant w).2 =
      some (w.m_messages ++
        [{ Message.create (QString.trimmed w.m_inputText) .User nowUser with
            attachments := w.m_pendingAttachments },
          Message.startStreaming nowAssistant (Message.create [] .Assistant nowAssistant)]) ∧
    (ChatWidget.sendMessage nowUser nowAssistant w).2 =
      some (ChatWidget.sendMessage nowUser nowAssistant w).1.m_messages ∧
    (∀ conversation, (ChatWidget.sendMessage nowUser nowAssistant w).2 = some conversation →
      ∃ (user placeholder : Message),
        conversation = w.m_messages ++ [user, placeholder] ∧
        conversation.getLast? = some placeholder ∧
        conversation.dropLast.getLast? = some user ∧
        placeholder.role = .Assistant ∧ placeholder.content = [] ∧
        placeholder.status = .Streaming ∧ placeholder.attachments = [] ∧
        user.role = .User ∧ user.content = QString.trimmed w.m_inputText ∧
        user.attachments = w.m_pendingAttachments ∧ user.status = .Complete ∧
        ∀ s : OpenRouterAPI,
          (QJsonObject.value (prepareRequestPayload s conversation).toObject
            "messages".toList).toArray.getLast? =
            some (.object [("role".toList, .string "assistant".toList),
              ("content".toList, .string [])])) := by
  have hguard : ¬ ((QString.trimmed w.m_inputText).isEmpty = true ∧
      w.m_pendingAttachments.isEmpty = true) := by
    rw [List.isEmpty_iff, List.isEmpty_iff]
    intro hc
    rcases hinput with h | h
    · exact h hc.1
    · exact h hc.2
  have hconv : (ChatWidget.sendMessage nowUser nowAssistant w).2 =
      some (w.m_messages ++
        [{ Message.create (QString.trimmed w.m_inputText) .User nowUser with
            attachments := w.m_pendingAttachments },
          Message.startStreaming nowAssistant
            (Message.create [] .Assistant nowAssistant)]) := by
    simp only [ChatWidget.sendMessage, if_neg hguard, ChatWidget.addMessage, hapi, if_true,
      foldl_addAttachment, List.append_assoc]
    rfl
  have hmsgs : (ChatWidget.sendMessage nowUser nowAssistant w).2 =
      some (ChatWidget.sendMessage nowUser nowAssistant w).1.m_messages := by
    simp only [ChatWidget.sendMessage, if_neg hguard, ChatWidget.addMessage, hapi, if_true]
  refine ⟨hconv, hmsgs, ?_⟩
  intro conversation hc
  rw [hconv] at hc
  have hc2 := (Option.some.inj hc).symm
  refine ⟨_, _, hc2, ?_, ?_, rfl, rfl, rfl, rfl, rfl, rfl, rfl, rfl, ?_⟩
  · rw [hc2]
    simp
  · rw [hc2]
    simp [List.dropLast_append_cons]
  · intro s
    have h : (QJsonObject.value (prepareRequestPayload s conversation).toObject
        "messages".toList).toArray = conversation.map messageObject := by
      rfl
    rw [h, hc2, List.map_append, List.getLast?_append_of_ne_nil _ (by simp)]
    rfl

set_option maxRecDepth 1000000 in
/-- C30 (witness): with ` hi ` typed into the input field of the running example, the
conversation handed to the API is the user message `hi` and then the empty assistant
placeholder with status Streaming. -/
theorem C30_witness_hi :
    (QString.trimmed exampleWidget.m_inputText ≠ [] ∨
      exampleWidget.m_pendingAttachments ≠ []) ∧
    ((ChatWidget.sendMessage 5 6 exampleWidget).2.map
      (fun conversation => conversation.map (fun msg => (msg.role, msg.content, msg.status))))
      = some [(.User, "hi".toList, .Complete), (.Assistant, [], .Streaming)] :=
  ⟨Or.inl (by decide),
    (congrArg (fun r => r.map
      (fun conversation => conversation.map (fun msg => (msg.role, msg.content, msg.status))))
      (C30_conversation_ends_with_empty_assistant 5 6 exampleWidget (Or.inl (by decide))
        rfl).1).trans (by decide)⟩
end Chatty
